import Mathlib

/-!
# RuntimeVertexPaint: a shallow embedding of `UVertexBlueprintFunctionLibrary`

The definitions below follow
`Source/VertexPaint/Private/VertexBlueprintFunctionLibrary.cpp` function by function; one
function of the older `Source/MyProject/VertexLib.cpp` is embedded for comparison.

Modelling conventions.

* Scalars (`float`, and the `double` components of `FVector`) are idealised as exact
  rationals `ℚ`; rounding, NaN and infinities are outside the model.
* Routines of the host engine that the library calls but does not define (square root,
  rotations and transforms, sRGB conversion, HSV interpolation) are the fields of an
  `Engine` record, so that every theorem holds for whatever the engine computes; where a
  theorem needs a fact about the engine, the fact is an explicit hypothesis.
* A `UStaticMeshComponent*` is an `Option UStaticMeshComponent` (`none` is `nullptr`), and a
  call that mutates the component returns the new component next to its result.
* A call that would dereference `nullptr` or index a `TArray` out of range returns `none`
  (abnormal termination); every other call returns `some`.
-/

namespace VertexPaint

/-! ## Engine value types -/

/-- The engine vector `FVector`. -/
structure FVector where
  X : ℚ
  Y : ℚ
  Z : ℚ
  deriving DecidableEq

/-- The engine rotator `FRotator` (degrees). -/
structure FRotator where
  Pitch : ℚ
  Yaw : ℚ
  Roll : ℚ
  deriving DecidableEq

/-- The engine transform `FTransform`; only the engine routines look inside it. -/
structure FTransform where
  Translation : FVector
  Rotation : FRotator
  Scale3D : FVector
  deriving DecidableEq

/-- The quantized storage colour `FColor`: four 8-bit channels. -/
structure FColor where
  R : Fin 256
  G : Fin 256
  B : Fin 256
  A : Fin 256
  deriving DecidableEq

/-- The linear working colour `FLinearColor`. -/
structure FLinearColor where
  R : ℚ
  G : ℚ
  B : ℚ
  A : ℚ
  deriving DecidableEq

/-- The constant `FColor::White`. -/
def FColor.White : FColor := ⟨255, 255, 255, 255⟩

/-- The operator `FVector - FVector`. -/
def FVector.sub (a b : FVector) : FVector := ⟨a.X - b.X, a.Y - b.Y, a.Z - b.Z⟩

/-- The constant `FVector::ZeroVector`. -/
def FVector.ZeroVector : FVector := ⟨0, 0, 0⟩

/-- The constant `FRotator::ZeroRotator`. -/
def FRotator.ZeroRotator : FRotator := ⟨0, 0, 0⟩

/-- The operator `FLinearColor + FLinearColor` (all four channels). -/
def FLinearColor.add (a b : FLinearColor) : FLinearColor :=
  ⟨a.R + b.R, a.G + b.G, a.B + b.B, a.A + b.A⟩

/-- The operator `FLinearColor * float` (all four channels). -/
def FLinearColor.scale (a : FLinearColor) (s : ℚ) : FLinearColor :=
  ⟨a.R * s, a.G * s, a.B * s, a.A * s⟩

/-- The operator `FLinearColor * FLinearColor` (channel by channel). -/
def FLinearColor.mul (a b : FLinearColor) : FLinearColor :=
  ⟨a.R * b.R, a.G * b.G, a.B * b.B, a.A * b.A⟩

/-- The engine `FMath::Clamp(X, Min, Max)`. -/
def Clamp (X Min Max : ℚ) : ℚ :=
  if X < Min then Min else if X < Max then X else Max

/-- The engine `FMath::Max(A, B)`. -/
def Max (A B : ℚ) : ℚ := if A ≥ B then A else B

/-- The engine `FMath::Max3(A, B, C)`. -/
def Max3 (A B C : ℚ) : ℚ := Max (Max A B) C

/-- The engine `FMath::Abs`. -/
def Abs (A : ℚ) : ℚ := if A ≥ 0 then A else -A

/-- The engine `FLinearColor::GetClamped(Min, Max)` (all four channels). -/
def FLinearColor.GetClamped (c : FLinearColor) (lo hi : ℚ) : FLinearColor :=
  ⟨Clamp c.R lo hi, Clamp c.G lo hi, Clamp c.B lo hi, Clamp c.A lo hi⟩

/-- The host-engine routines the library calls; they are not part of the repository. -/
structure Engine where
  /-- Models `FMath::Sqrt`. -/
  Sqrt : ℚ → ℚ
  /-- Models `FRotator::IsZero`. -/
  IsZero : FRotator → Bool
  /-- Models `FRotator::UnrotateVector`. -/
  UnrotateVector : FRotator → FVector → FVector
  /-- Models `FLinearColor::FromSRGBColor`. -/
  FromSRGBColor : FColor → FLinearColor
  /-- Models `FLinearColor::LerpUsingHSV(From, To, Progress)`. -/
  LerpUsingHSV : FLinearColor → FLinearColor → ℚ → FLinearColor
  /-- Models `FLinearColor::ToFColor(true)`. -/
  ToFColor : FLinearColor → FColor
  /-- Models `UKismetMathLibrary::InverseTransformLocation`. -/
  InverseTransformLocation : FTransform → FVector → FVector
  /-- Models `UKismetMathLibrary::InverseTransformRotation`. -/
  InverseTransformRotation : FTransform → FRotator → FRotator

/-- The engine `FVector::Size()`: the square root of the sum of the squared components. -/
def FVector.Size (E : Engine) (v : FVector) : ℚ :=
  E.Sqrt (v.X * v.X + v.Y * v.Y + v.Z * v.Z)

/-! ## Enumerations of the library -/

/-- Models `EVertexPaintShape`. -/
inductive EVertexPaintShape where
  | Point
  | Sphere
  | Box
  | Cylinder
  deriving DecidableEq

/-- Models `EVertexColorBlendMode`; `Other` stands for any value of the underlying `uint8` that is
not one of the four enumerators (the `default:` branch of the switch). -/
inductive EVertexColorBlendMode where
  | Replace
  | Add
  | Multiply
  | Lerp
  | Other (v : Nat)
  deriving DecidableEq

/-! ## ShapeClassifier -/

/-- Models `UVertexBlueprintFunctionLibrary::GetVertexDistanceNormalizedToShape`. -/
def GetVertexDistanceNormalizedToShape (E : Engine) (VertexPosition : FVector)
    (Shape : EVertexPaintShape) (Location Dimensions : FVector) (Rotation : FRotator) : ℚ :=
  let RelativePos0 := VertexPosition.sub Location
  let RelativePos := if !E.IsZero Rotation then E.UnrotateVector Rotation RelativePos0
    else RelativePos0
  let NormalizedDistance : ℚ := 1
  match Shape with
  | .Point => RelativePos.Size E / Max (1 / 10) Dimensions.X
  | .Sphere => RelativePos.Size E / Max (1 / 10) Dimensions.X
  | .Box =>
    if Dimensions.X > 0 ∧ Dimensions.Y > 0 ∧ Dimensions.Z > 0 then
      let NormalizedPos : FVector :=
        ⟨Abs RelativePos.X / (Dimensions.X * (1 / 2)),
         Abs RelativePos.Y / (Dimensions.Y * (1 / 2)),
         Abs RelativePos.Z / (Dimensions.Z * (1 / 2))⟩
      Max3 NormalizedPos.X NormalizedPos.Y NormalizedPos.Z
    else NormalizedDistance
  | .Cylinder =>
    if Dimensions.X > 0 ∧ Dimensions.Z > 0 then
      let RadialDist :=
        E.Sqrt (RelativePos.X * RelativePos.X + RelativePos.Y * RelativePos.Y)
          / (Dimensions.X * (1 / 2))
      let HeightDist := Abs RelativePos.Z / (Dimensions.Z * (1 / 2))
      Max RadialDist HeightDist
    else NormalizedDistance

/-- The formula table of the specification, section 4.1, written from its words: the
relative position, then one formula per shape. -/
def specRelativePos (E : Engine) (vertexPosition center : FVector) (rotation : FRotator) :
    FVector :=
  let rel : FVector :=
    ⟨vertexPosition.X - center.X, vertexPosition.Y - center.Y, vertexPosition.Z - center.Z⟩
  if E.IsZero rotation = true then rel else E.UnrotateVector rotation rel

/-- The Euclidean norm as the specification writes it, on top of the engine square root. -/
def specNorm (E : Engine) (v : FVector) : ℚ := E.Sqrt (v.X ^ 2 + v.Y ^ 2 + v.Z ^ 2)

/-- The normalized distance of the specification, section 4.1. -/
def specNormalizedDistance (E : Engine) (vertexPosition : FVector) (shape : EVertexPaintShape)
    (center extents : FVector) (rotation : FRotator) : ℚ :=
  let rel := specRelativePos E vertexPosition center rotation
  match shape with
  | .Point | .Sphere => specNorm E rel / max (1 / 10) extents.X
  | .Box =>
    if 0 < extents.X ∧ 0 < extents.Y ∧ 0 < extents.Z then
      max (max (|rel.X| / (extents.X / 2)) (|rel.Y| / (extents.Y / 2)))
        (|rel.Z| / (extents.Z / 2))
    else 1
  | .Cylinder =>
    if 0 < extents.X ∧ 0 < extents.Z then
      max (E.Sqrt (rel.X ^ 2 + rel.Y ^ 2) / (extents.X / 2)) (|rel.Z| / (extents.Z / 2))
    else 1

/-! ## ColorBlender -/

/-- Models `UVertexBlueprintFunctionLibrary::BlendVertexColors`. -/
def BlendVertexColors (E : Engine) (BaseColor BlendColor : FColor)
    (BlendMode : EVertexColorBlendMode) (BlendStrength : ℚ) : FColor :=
  let LinearBase := E.FromSRGBColor BaseColor
  let LinearBlend := E.FromSRGBColor BlendColor
  let BlendStrength := Clamp BlendStrength 0 1
  let Result : FLinearColor :=
    match BlendMode with
    | .Replace => E.LerpUsingHSV LinearBase LinearBlend BlendStrength
    | .Add => (LinearBase.add (LinearBlend.scale BlendStrength)).GetClamped 0 1
    | .Multiply =>
      let Multiplier := E.LerpUsingHSV ⟨1, 1, 1, 1⟩ LinearBlend BlendStrength
      LinearBase.mul Multiplier
    | .Lerp => E.LerpUsingHSV LinearBase LinearBlend BlendStrength
    | .Other _ => LinearBase
  E.ToFColor { Result with A := LinearBase.A }

/-! ## The mesh component -/

/-- One entry of `FStaticMeshRenderData::LODResources`: the position vertex buffer, the flag
`bHasColorVertexData` and the baked colour vertex buffer. -/
structure FStaticMeshLODResources where
  Positions : List FVector
  bHasColorVertexData : Bool
  ColorVertexBuffer : List FColor
  deriving DecidableEq

instance : Inhabited FStaticMeshLODResources := ⟨⟨[], false, []⟩⟩

/-- The vertex count `GetNumVertices()` of a level: the size of its position buffer. -/
def FStaticMeshLODResources.GetNumVertices (r : FStaticMeshLODResources) : Nat :=
  r.Positions.length

/-- The asset `UStaticMesh`, reduced to `GetRenderData()->LODResources`. -/
structure UStaticMesh where
  LODResources : List FStaticMeshLODResources
  deriving DecidableEq

/-- The engine `UStaticMesh::GetNumLODs`. -/
def UStaticMesh.GetNumLODs (m : UStaticMesh) : Nat := m.LODResources.length

/-- The per-level component data `FStaticMeshComponentLODInfo`: `OverrideVertexColors` is
`none` for `nullptr`, else the colours held by the `FColorVertexBuffer`. -/
structure FStaticMeshComponentLODInfo where
  OverrideVertexColors : Option (List FColor)
  deriving DecidableEq

instance : Inhabited FStaticMeshComponentLODInfo := ⟨⟨none⟩⟩

/-- The object `UStaticMeshComponent`, reduced to what the library reads and writes. -/
structure UStaticMeshComponent where
  StaticMesh : Option UStaticMesh
  LODData : List FStaticMeshComponentLODInfo
  ComponentTransform : FTransform
  bRenderStateDirty : Bool
  bDisallowMeshPaintPerInstance : Bool
  deriving DecidableEq

/-- A `UStaticMeshComponent*`: `none` is `nullptr`. -/
abbrev ComponentPtr := Option UStaticMeshComponent

/-- The engine `UStaticMeshComponent::SetLODDataCount(MinSize, MaxSize)`: entries beyond
`MaxSize` are removed, then default entries are appended up to `MinSize`. -/
def UStaticMeshComponent.SetLODDataCount (c : UStaticMeshComponent) (MinSize MaxSize : Nat) :
    UStaticMeshComponent :=
  let l1 := if MaxSize < c.LODData.length then c.LODData.take MaxSize else c.LODData
  let l2 := if MinSize > l1.length then l1 ++ List.replicate (MinSize - l1.length) default
    else l1
  { c with LODData := l2 }

/-- The engine `TArray::IsValidIndex`. -/
def IsValidIndex {α : Type} (a : List α) (Index : Int) : Bool :=
  decide (0 ≤ Index ∧ Index < (a.length : Int))

/-- Reading `a[Index]` of a `TArray`; `none` when the index is out of range. -/
def ArrayRead {α : Type} (a : List α) (Index : Int) : Option α :=
  if IsValidIndex a Index then a[Index.toNat]? else none

/-- Writing `a[Index] = v` of a `TArray`; `none` when the index is out of range. -/
def ArrayWrite {α : Type} (a : List α) (Index : Int) (v : α) : Option (List α) :=
  if IsValidIndex a Index then some (a.set Index.toNat v) else none

/-- A counted loop `for (i = start; i < start + count; i++) body`, threading a state and
stopping at the first abnormal termination. -/
def ForRange {σ : Type} (body : Nat → σ → Option σ) : Nat → Nat → σ → Option σ
  | _, 0, s => some s
  | i, n + 1, s => (body i s).bind (ForRange body (i + 1) n)

/-- The engine `FColorVertexBuffer::GetVertexColors(OutColors)`: the output array receives
the colours held by the buffer. -/
def GetVertexColors (Buffer _OutColors : List FColor) : List FColor := Buffer

/-! ## ColorBufferStore -/

/-- Models `UVertexBlueprintFunctionLibrary::ValidateMeshForPainting`; the second component is
`OutVertexCount`, which every caller initialises to 0. -/
def ValidateMeshForPainting (StaticMeshComponent : ComponentPtr) (LODIndex : Int) :
    Bool × Nat × ComponentPtr :=
  match StaticMeshComponent with
  | none => (false, 0, none)
  | some c =>
    match c.StaticMesh with
    | none => (false, 0, some c)
    | some m =>
      let LODNum := m.GetNumLODs
      let c := c.SetLODDataCount LODNum LODNum
      if !IsValidIndex c.LODData LODIndex then (false, 0, some c)
      else (true, (m.LODResources.getD LODIndex.toNat default).GetNumVertices, some c)

/-- Models `UVertexBlueprintFunctionLibrary::ApplyColorBuffer`. -/
def ApplyColorBuffer (StaticMeshComponent : ComponentPtr) (LODIndex : Int)
    (VertexColors : List FColor) : Option ComponentPtr :=
  match StaticMeshComponent with
  | none => none
  | some c =>
    if IsValidIndex c.LODData LODIndex then
      some (some { c with
        LODData := c.LODData.set LODIndex.toNat ⟨some VertexColors⟩
        bRenderStateDirty := true })
    else none

/-- Models `UVertexBlueprintFunctionLibrary::GetStaticMeshVertexColors`. -/
def GetStaticMeshVertexColors (StaticMeshComponent : ComponentPtr) (LODIndex : Int) :
    Option (List FColor × ComponentPtr) :=
  match ValidateMeshForPainting StaticMeshComponent LODIndex with
  | (false, _, p) => some ([], p)
  | (true, VertexNum, p) =>
    let VertexColors := List.replicate VertexNum FColor.White
    match p with
    | none => none
    | some c =>
      match ArrayRead c.LODData LODIndex with
      | none => none
      | some LODInfo =>
        match LODInfo.OverrideVertexColors with
        | some Buffer => some (GetVertexColors Buffer VertexColors, p)
        | none =>
          match c.StaticMesh with
          | none => none
          | some m =>
            match ArrayRead m.LODResources LODIndex with
            | none => none
            | some r =>
              if r.bHasColorVertexData then
                some (GetVertexColors r.ColorVertexBuffer VertexColors, p)
              else some (VertexColors, p)

/-! ## UndoSnapshot -/

/-- Models `FVertexPaintUndoRedoState`. -/
structure FVertexPaintUndoRedoState where
  ColorData : List FColor
  LODIndex : Int
  deriving DecidableEq

/-- Models `UVertexBlueprintFunctionLibrary::SaveVertexColorsState`. -/
def SaveVertexColorsState (StaticMeshComponent : ComponentPtr) (LODIndex : Int) :
    Option (FVertexPaintUndoRedoState × ComponentPtr) :=
  match ValidateMeshForPainting StaticMeshComponent LODIndex with
  | (true, _, p) =>
    match GetStaticMeshVertexColors p LODIndex with
    | none => none
    | some (Colors, p) => some (⟨Colors, LODIndex⟩, p)
  | (false, _, p) => some (⟨[], LODIndex⟩, p)

/-- Models `UVertexBlueprintFunctionLibrary::RestoreVertexColorsState`. -/
def RestoreVertexColorsState (StaticMeshComponent : ComponentPtr)
    (State : FVertexPaintUndoRedoState) : Option (Bool × ComponentPtr) :=
  match ValidateMeshForPainting StaticMeshComponent State.LODIndex with
  | (false, _, p) => some (false, p)
  | (true, VertexNum, p) =>
    if State.ColorData.length ≠ VertexNum then some (false, p)
    else
      match ApplyColorBuffer p State.LODIndex State.ColorData with
      | none => none
      | some p => some (true, p)

/-! ## PaintEngine -/

/-- Models `FVertexOverrideColorInfo`. -/
structure FVertexOverrideColorInfo where
  VertexIndex : Int
  OverrideColor : FColor
  deriving DecidableEq

/-- Models `FVertexPaintParameters`. -/
structure FVertexPaintParameters where
  PaintShape : EVertexPaintShape
  Location : FVector
  Dimensions : FVector
  Rotation : FRotator
  Color : FLinearColor
  BlendMode : EVertexColorBlendMode
  BlendStrength : ℚ
  Falloff : ℚ
  bApplyToAllLODs : Bool
  deriving DecidableEq

/-- Models `UVertexBlueprintFunctionLibrary::PaintVertexColorByIndex`. -/
def PaintVertexColorByIndex (E : Engine) (StaticMeshComponent : ComponentPtr)
    (Color : FLinearColor) (Index LODIndex : Int) : Option ComponentPtr :=
  match ValidateMeshForPainting StaticMeshComponent LODIndex with
  | (false, _, p) => some p
  | (true, VertexNum, p) =>
    if Index < 0 ∨ Index ≥ (VertexNum : Int) then some p
    else
      match GetStaticMeshVertexColors p LODIndex with
      | none => none
      | some (VertexColors, p) =>
        match ArrayWrite VertexColors Index (E.ToFColor Color) with
        | none => none
        | some VertexColors => ApplyColorBuffer p LODIndex VertexColors

/-- The body of the range-for loop of `OverrideStaticMeshVertexColor`. -/
def OverrideStaticMeshVertexColor.body (VertexColors : List FColor)
    (VertexOverrideColorInfo : FVertexOverrideColorInfo) : List FColor :=
  if IsValidIndex VertexColors VertexOverrideColorInfo.VertexIndex then
    VertexColors.set VertexOverrideColorInfo.VertexIndex.toNat
      VertexOverrideColorInfo.OverrideColor
  else VertexColors

/-- Models `UVertexBlueprintFunctionLibrary::OverrideStaticMeshVertexColor`. -/
def OverrideStaticMeshVertexColor (StaticMeshComponent : ComponentPtr) (LODIndex : Int)
    (VertexOverrideColorInfos : List FVertexOverrideColorInfo) : Option ComponentPtr :=
  match ValidateMeshForPainting StaticMeshComponent LODIndex with
  | (false, _, p) => some p
  | (true, _, p) =>
    match GetStaticMeshVertexColors p LODIndex with
    | none => none
    | some (VertexColors, p) =>
      ApplyColorBuffer p LODIndex
        (VertexOverrideColorInfos.foldl OverrideStaticMeshVertexColor.body VertexColors)

/-- The body of the vertex loop of `PaintMeshRegion`; the state is the working colour array
and `bAnyVertexPainted`. -/
def PaintMeshRegion.body (E : Engine) (VertexPositionBuffer : List FVector)
    (Shape : EVertexPaintShape) (LocationInMeshTransform Dimensions : FVector)
    (RotationInMeshTransform : FRotator) (Color : FLinearColor)
    (BlendMode : EVertexColorBlendMode) (BlendStrength Falloff : ℚ)
    (VertexIndex : Nat) (s : List FColor × Bool) : Option (List FColor × Bool) :=
  match ArrayRead VertexPositionBuffer VertexIndex with
  | none => none
  | some VertexPosition =>
    let NormalizedDistance := GetVertexDistanceNormalizedToShape E VertexPosition Shape
      LocationInMeshTransform Dimensions RotationInMeshTransform
    if NormalizedDistance ≤ 1 then
      let DistanceAlpha : ℚ :=
        if NormalizedDistance > Falloff then
          1 - ((NormalizedDistance - Falloff) / (1 - Falloff))
        else 1
      let EffectiveBlendStrength := BlendStrength * DistanceAlpha
      match ArrayRead s.1 VertexIndex with
      | none => none
      | some Base =>
        match ArrayWrite s.1 VertexIndex
            (BlendVertexColors E Base (E.ToFColor Color) BlendMode EffectiveBlendStrength) with
        | none => none
        | some VertexColors => some (VertexColors, true)
    else some s

/-- Models `UVertexBlueprintFunctionLibrary::PaintMeshRegion`. -/
def PaintMeshRegion (E : Engine) (StaticMeshComponent : ComponentPtr)
    (Shape : EVertexPaintShape) (Location Dimensions : FVector) (Rotation : FRotator)
    (Color : FLinearColor) (BlendMode : EVertexColorBlendMode) (BlendStrength Falloff : ℚ)
    (LODIndex : Int) : Option (Bool × ComponentPtr) :=
  match ValidateMeshForPainting StaticMeshComponent LODIndex with
  | (false, _, p) => some (false, p)
  | (true, VertexNum, p) =>
    match p with
    | none => none
    | some c =>
      let LocationInMeshTransform := E.InverseTransformLocation c.ComponentTransform Location
      let RotationInMeshTransform := E.InverseTransformRotation c.ComponentTransform Rotation
      match c.StaticMesh with
      | none => none
      | some m =>
        match ArrayRead m.LODResources LODIndex with
        | none => none
        | some r =>
          match GetStaticMeshVertexColors p LODIndex with
          | none => none
          | some (VertexColors, p) =>
            let Falloff := Clamp Falloff (1 / 100) (99 / 100)
            match ForRange (PaintMeshRegion.body E r.Positions Shape LocationInMeshTransform
                Dimensions RotationInMeshTransform Color BlendMode BlendStrength Falloff)
                0 VertexNum (VertexColors, false) with
            | none => none
            | some (VertexColors, bAnyVertexPainted) =>
              if bAnyVertexPainted then
                match ApplyColorBuffer p LODIndex VertexColors with
                | none => none
                | some p => some (true, p)
              else some (false, p)

/-- The body of the level loop of `PaintMeshWithParameters`; the state is `bSuccess` and the
component. -/
def PaintMeshWithParameters.body (E : Engine) (Parameters : FVertexPaintParameters)
    (LOD : Nat) (s : Bool × ComponentPtr) : Option (Bool × ComponentPtr) :=
  match PaintMeshRegion E s.2 Parameters.PaintShape Parameters.Location Parameters.Dimensions
      Parameters.Rotation Parameters.Color Parameters.BlendMode Parameters.BlendStrength
      Parameters.Falloff LOD with
  | none => none
  | some (bLODSuccess, p) => some (s.1 || bLODSuccess, p)

/-- Models `UVertexBlueprintFunctionLibrary::PaintMeshWithParameters`. -/
def PaintMeshWithParameters (E : Engine) (StaticMeshComponent : ComponentPtr)
    (Parameters : FVertexPaintParameters) (LODIndex : Int) : Option (Bool × ComponentPtr) :=
  if Parameters.bApplyToAllLODs then
    match StaticMeshComponent with
    | none => none
    | some c =>
      match c.StaticMesh with
      | none => none
      | some m =>
        ForRange (PaintMeshWithParameters.body E Parameters) 0 m.GetNumLODs
          (false, StaticMeshComponent)
  else
    PaintMeshRegion E StaticMeshComponent Parameters.PaintShape Parameters.Location
      Parameters.Dimensions Parameters.Rotation Parameters.Color Parameters.BlendMode
      Parameters.BlendStrength Parameters.Falloff LODIndex

/-- The block of `ResetVertexColors` that resets one level. -/
def ResetVertexColors.body (E : Engine) (ResetColor : FLinearColor) (LOD : Nat)
    (StaticMeshComponent : ComponentPtr) : Option ComponentPtr :=
  match ValidateMeshForPainting StaticMeshComponent LOD with
  | (true, VertexNum, p) =>
    ApplyColorBuffer p LOD (List.replicate VertexNum (E.ToFColor ResetColor))
  | (false, _, p) => some p

/-- Models `UVertexBlueprintFunctionLibrary::ResetVertexColors`. -/
def ResetVertexColors (E : Engine) (StaticMeshComponent : ComponentPtr)
    (ResetColor : FLinearColor) (LODIndex : Int) : Option ComponentPtr :=
  match StaticMeshComponent with
  | none => some none
  | some c =>
    match c.StaticMesh with
    | none => some (some c)
    | some m =>
      let LODCount := m.GetNumLODs
      let p : ComponentPtr := some (c.SetLODDataCount LODCount LODCount)
      if LODIndex < 0 then
        ForRange (ResetVertexColors.body E ResetColor) 0 LODCount p
      else if LODIndex < (LODCount : Int) then
        ResetVertexColors.body E ResetColor LODIndex.toNat p
      else some p

/-- The engine `UKismetMathLibrary::Vector_Distance`: the square root of the sum of the
squared component differences. -/
def Vector_Distance (E : Engine) (V1 V2 : FVector) : ℚ :=
  E.Sqrt ((V2.X - V1.X) * (V2.X - V1.X) + (V2.Y - V1.Y) * (V2.Y - V1.Y)
    + (V2.Z - V1.Z) * (V2.Z - V1.Z))

/-- The body of the vertex loop of `GetStaticMeshVertexOverrideColorInfoInSphere`; the state
is the array of entries collected so far. For `Radius = 0` the float quotient is infinite or
NaN, which the rational quotient does not represent. -/
def GetStaticMeshVertexOverrideColorInfoInSphere.body (E : Engine)
    (VertexPositionBuffer : List FVector) (SphereLocationInMeshTransform : FVector)
    (Radius : ℚ) (OverrideColor : FLinearColor) (VertexIndex : Nat)
    (VertexOverrideColorInfos : List FVertexOverrideColorInfo) :
    Option (List FVertexOverrideColorInfo) :=
  match ArrayRead VertexPositionBuffer VertexIndex with
  | none => none
  | some VertexPosition =>
    let Distance := Vector_Distance E VertexPosition SphereLocationInMeshTransform
    let NormalizedDistance := Distance / Radius
    if NormalizedDistance ≤ 1 then
      some (VertexOverrideColorInfos ++ [⟨VertexIndex, E.ToFColor OverrideColor⟩])
    else some VertexOverrideColorInfos

/-- Models `UVertexBlueprintFunctionLibrary::GetStaticMeshVertexOverrideColorInfoInSphere`. -/
def GetStaticMeshVertexOverrideColorInfoInSphere (E : Engine)
    (StaticMeshComponent : ComponentPtr) (LODIndex : Int) (SphereWorldPosition : FVector)
    (Radius : ℚ) (OverrideColor : FLinearColor) :
    Option (List FVertexOverrideColorInfo × ComponentPtr) :=
  match ValidateMeshForPainting StaticMeshComponent LODIndex with
  | (false, _, p) => some ([], p)
  | (true, VertexNum, p) =>
    match p with
    | none => none
    | some c =>
      let SphereLocationInMeshTransform :=
        E.InverseTransformLocation c.ComponentTransform SphereWorldPosition
      match c.StaticMesh with
      | none => none
      | some m =>
        match ArrayRead m.LODResources LODIndex with
        | none => none
        | some r =>
          match ForRange (GetStaticMeshVertexOverrideColorInfoInSphere.body E r.Positions
              SphereLocationInMeshTransform Radius OverrideColor) 0 VertexNum [] with
          | none => none
          | some VertexOverrideColorInfos => some (VertexOverrideColorInfos, p)

/-! ## Texture import -/

/-- The engine texture `UTexture2D`, reduced to its size and to the pixels of mip 0 that
`BulkData.Lock` exposes as an array of `FColor`. -/
structure UTexture2D where
  SizeX : Int
  SizeY : Int
  Pixels : List FColor
  deriving DecidableEq

/-- The body of the vertex loop of `ImportVertexColorsFromTexture`; reading the locked data
beyond its end is abnormal termination. -/
def ImportVertexColorsFromTexture.body (Texture : UTexture2D) (TotalPixels : Int)
    (VertexIndex : Nat) (VertexColors : List FColor) : Option (List FColor) :=
  if (VertexIndex : Int) < TotalPixels then
    match ArrayRead Texture.Pixels VertexIndex with
    | none => none
    | some Pixel => ArrayWrite VertexColors VertexIndex Pixel
  else some VertexColors

/-- Models `UVertexBlueprintFunctionLibrary::ImportVertexColorsFromTexture`; the product of
the two sizes is taken without 32-bit wrap-around. -/
def ImportVertexColorsFromTexture (StaticMeshComponent : ComponentPtr)
    (Texture : Option UTexture2D) (LODIndex : Int) : Option (Bool × ComponentPtr) :=
  match Texture with
  | none => some (false, StaticMeshComponent)
  | some T =>
    match ValidateMeshForPainting StaticMeshComponent LODIndex with
    | (false, _, p) => some (false, p)
    | (true, VertexNum, p) =>
      match GetStaticMeshVertexColors p LODIndex with
      | none => none
      | some (VertexColors, p) =>
        let TotalPixels := T.SizeX * T.SizeY
        match ForRange (ImportVertexColorsFromTexture.body T TotalPixels) 0 VertexNum
            VertexColors with
        | none => none
        | some VertexColors =>
          match ApplyColorBuffer p LODIndex VertexColors with
          | none => none
          | some p => some (true, p)

/-! ## The older library `UVertexLib` -/

/-- Models `UVertexLib::PaintVertexColorByIndex` of `Source/MyProject/VertexLib.cpp`. The
array made by `SetNum` is overwritten in every branch before it is read. -/
def UVertexLib.PaintVertexColorByIndex (E : Engine) (StaticMeshComponent : ComponentPtr)
    (Color : FLinearColor) (Index LODIndex : Int) : Option ComponentPtr :=
  match StaticMeshComponent with
  | none => some none
  | some c =>
    match c.StaticMesh with
    | none => some (some c)
    | some m =>
      let LODNum := m.GetNumLODs
      let c := c.SetLODDataCount LODNum LODNum
      if !IsValidIndex c.LODData LODIndex then some (some c)
      else
        match ArrayRead c.LODData LODIndex with
        | none => none
        | some LODInfo =>
          match ArrayRead m.LODResources LODIndex with
          | none => none
          | some r =>
            let VertexNum := r.GetNumVertices
            if Index < 0 ∨ Index ≥ (VertexNum : Int) then some (some c)
            else
              let VertexColors0 : List FColor := List.replicate VertexNum ⟨0, 0, 0, 0⟩
              let VertexColors :=
                match LODInfo.OverrideVertexColors with
                | some Buffer => GetVertexColors Buffer VertexColors0
                | none =>
                  if r.bHasColorVertexData then
                    GetVertexColors r.ColorVertexBuffer VertexColors0
                  else List.replicate VertexNum FColor.White
              match ArrayWrite VertexColors Index (E.ToFColor Color) with
              | none => none
              | some VertexColors =>
                some (some { c with
                  LODData := c.LODData.set LODIndex.toNat ⟨some VertexColors⟩
                  bRenderStateDirty := true
                  bDisallowMeshPaintPerInstance := true })

/-! ## Sequences of operations -/

/-- One call of a mutating operation of the library, with its arguments. -/
inductive PaintOp where
  | paintByIndex (Color : FLinearColor) (Index LODIndex : Int)
  | overrideColors (LODIndex : Int) (Infos : List FVertexOverrideColorInfo)
  | paintRegion (Shape : EVertexPaintShape) (Location Dimensions : FVector)
      (Rotation : FRotator) (Color : FLinearColor) (BlendMode : EVertexColorBlendMode)
      (BlendStrength Falloff : ℚ) (LODIndex : Int)
  | paintWithParameters (Parameters : FVertexPaintParameters) (LODIndex : Int)
  | restore (State : FVertexPaintUndoRedoState)
  | reset (ResetColor : FLinearColor) (LODIndex : Int)

/-- Running one operation on the component; the returned booleans are dropped. -/
def PaintOp.run (E : Engine) (op : PaintOp) (p : ComponentPtr) : Option ComponentPtr :=
  match op with
  | .paintByIndex Color Index LODIndex => PaintVertexColorByIndex E p Color Index LODIndex
  | .overrideColors LODIndex Infos => OverrideStaticMeshVertexColor p LODIndex Infos
  | .paintRegion Shape Location Dimensions Rotation Color BlendMode BlendStrength Falloff
      LODIndex =>
    (PaintMeshRegion E p Shape Location Dimensions Rotation Color BlendMode BlendStrength
      Falloff LODIndex).map Prod.snd
  | .paintWithParameters Parameters LODIndex =>
    (PaintMeshWithParameters E p Parameters LODIndex).map Prod.snd
  | .restore State => (RestoreVertexColorsState p State).map Prod.snd
  | .reset ResetColor LODIndex => ResetVertexColors E p ResetColor LODIndex

/-- Running a sequence of operations, first to last. -/
def runOps (E : Engine) : List PaintOp → ComponentPtr → Option ComponentPtr
  | [], p => some p
  | op :: ops, p => (op.run E p).bind (runOps E ops)

/-! ## Reading the state -/

/-- The override buffer installed on level `i` of the component, if any. -/
def overrideBuffer (p : ComponentPtr) (i : Nat) : Option (List FColor) :=
  match p with
  | none => none
  | some c =>
    match c.LODData[i]? with
    | none => none
    | some LODInfo => LODInfo.OverrideVertexColors

/-- The static mesh the component points to, if any. -/
def meshOf (p : ComponentPtr) : Option UStaticMesh :=
  match p with
  | none => none
  | some c => c.StaticMesh

/-- The number of levels of the component's mesh (0 without a mesh). -/
def numLODs (p : ComponentPtr) : Nat :=
  match meshOf p with
  | none => 0
  | some m => m.GetNumLODs

/-- The vertex count of level `i` of the component's mesh (0 when there is no such level). -/
def vertexCount (p : ComponentPtr) (i : Nat) : Nat :=
  match meshOf p with
  | none => 0
  | some m => (m.LODResources.getD i default).GetNumVertices

/-- The component is non-null, has a static mesh, and `LODIndex` is one of its levels: the
condition under which `ValidateMeshForPainting` succeeds. -/
def ValidTarget (p : ComponentPtr) (LODIndex : Int) : Prop :=
  0 ≤ LODIndex ∧ LODIndex < (numLODs p : Int) ∧ p ≠ none ∧ meshOf p ≠ none

/-- The baked colours of level `i` of the component's mesh, when that level has colour
vertex data. -/
def bakedColors (p : ComponentPtr) (i : Nat) : Option (List FColor) :=
  match meshOf p with
  | none => none
  | some m =>
    match m.LODResources[i]? with
    | none => none
    | some r => if r.bHasColorVertexData then some r.ColorVertexBuffer else none

/-- The component after the call `SetLODDataCount(LODNum, LODNum)` that
`ValidateMeshForPainting` makes once it has found a static mesh. -/
def sizeLODData (p : ComponentPtr) : ComponentPtr :=
  match p with
  | none => none
  | some c =>
    match c.StaticMesh with
    | none => some c
    | some m => some (c.SetLODDataCount m.GetNumLODs m.GetNumLODs)

/-- Read of the specification, section 4.4, written from its words: the active override
buffer if one exists, otherwise the baked colours if present, otherwise an all-white buffer
sized to the vertex count. -/
def specRead (p : ComponentPtr) (i : Nat) : List FColor :=
  match overrideBuffer p i with
  | some Buffer => Buffer
  | none =>
    match bakedColors p i with
    | some Baked => Baked
    | none => List.replicate (vertexCount p i) FColor.White

/-- The data-model invariant of one level: an installed override buffer, and the baked
colours when the level has colour vertex data, hold one colour per vertex. -/
def LevelWellFormed (p : ComponentPtr) (i : Nat) : Prop :=
  (∀ Buffer, overrideBuffer p i = some Buffer → Buffer.length = vertexCount p i) ∧
  (∀ Baked, bakedColors p i = some Baked → Baked.length = vertexCount p i)

/-- The data-model invariant of the component: every level of its mesh is well formed. -/
def WellFormed (p : ComponentPtr) : Prop :=
  ∀ i, i < numLODs p → LevelWellFormed p i

/-- The position buffer of level `i` of the component's mesh (empty when there is no such
level). -/
def positionsOf (p : ComponentPtr) (i : Nat) : List FVector :=
  match meshOf p with
  | none => []
  | some m => (m.LODResources.getD i default).Positions

/-- The two pointers are both null or both non-null, and point to components on the same
static mesh. -/
def SameTarget (p q : ComponentPtr) : Prop :=
  (q = none ↔ p = none) ∧ meshOf q = meshOf p

/-- The colour of vertex `i` after a batch override, written from the words of the
specification: the `OverrideColor` of the last entry of the list whose `VertexIndex` is `i`,
or the colour `b` the vertex had before when no entry targets `i`. -/
def specOverrideAt (b : FColor) (Overrides : List FVertexOverrideColorInfo) (i : Nat) : FColor :=
  match (Overrides.filter (fun e => decide (e.VertexIndex = (i : Int)))).getLast? with
  | some e => e.OverrideColor
  | none => b

/-- The value of the local `DistanceAlpha` of the loop of `PaintMeshRegion`: initialised to 1
and overwritten when `NormalizedDistance > Falloff`. -/
def PaintMeshRegion.DistanceAlpha (NormalizedDistance Falloff : ℚ) : ℚ :=
  if NormalizedDistance > Falloff then 1 - ((NormalizedDistance - Falloff) / (1 - Falloff))
  else 1

/-- The falloff weight of the specification, section 4.3 step 3, written from its words:
1 if d ≤ falloff, else 1 − (d − falloff)/(1 − falloff). -/
def specDistanceAlpha (d falloff : ℚ) : ℚ :=
  if d ≤ falloff then 1 else 1 - (d - falloff) / (1 - falloff)

/-- The new colour of one vertex in the specification, section 4.3 steps 2 to 5: unchanged
if d > 1, else the blend of the current colour with the target at strength
blendStrength · distanceAlpha. -/
def specPaintedColor (E : Engine) (current : FColor) (d falloff : ℚ) (target : FColor)
    (mode : EVertexColorBlendMode) (blendStrength : ℚ) : FColor :=
  if d > 1 then current
  else BlendVertexColors E current target mode (blendStrength * specDistanceAlpha d falloff)

/-- The normalized distance that `PaintMeshRegion` computes for vertex `i` of level `L` of
the component `c`: the classifier applied to the vertex position, with the region location
and rotation brought into the mesh frame by the engine. -/
def vertexDistance (E : Engine) (c : UStaticMeshComponent) (Shape : EVertexPaintShape)
    (Location Dimensions : FVector) (Rotation : FRotator) (L i : Nat) : ℚ :=
  GetVertexDistanceNormalizedToShape E ((positionsOf (some c) L).getD i ⟨0, 0, 0⟩) Shape
    (E.InverseTransformLocation c.ComponentTransform Location) Dimensions
    (E.InverseTransformRotation c.ComponentTransform Rotation)

/-- The sphere selection of the specification, section 6, written from its words: the
shape classifier with shape Sphere and a zero rotation, applied to every vertex in index
order; the selected indices are paired with the colour. -/
def specSelectInSphere (E : Engine) (positions : List FVector) (center extents : FVector)
    (color : FColor) : List FVertexOverrideColorInfo :=
  ((List.range positions.length).filter (fun i =>
    decide (GetVertexDistanceNormalizedToShape E (positions.getD i ⟨0, 0, 0⟩) .Sphere center
      extents FRotator.ZeroRotator ≤ 1))).map (fun (i : Nat) => ⟨(i : Int), color⟩)

/-- The flag `bDisallowMeshPaintPerInstance` of the component, if the pointer is not null. -/
def disallowFlag (p : ComponentPtr) : Option Bool :=
  match p with
  | none => none
  | some c => some c.bDisallowMeshPaintPerInstance

/-- Every installed override buffer of a level of the mesh has the length of that level's
vertex count. -/
def OverridesWellFormed (p : ComponentPtr) : Prop :=
  ∀ i, i < numLODs p → ∀ Buffer, overrideBuffer p i = some Buffer →
    Buffer.length = vertexCount p i

/-- Every level of the mesh that has colour vertex data has one baked colour per vertex (a
property of the mesh asset, which no operation of the library changes). -/
def BakedWellFormed (p : ComponentPtr) : Prop :=
  ∀ i, i < numLODs p → ∀ Baked, bakedColors p i = some Baked →
    Baked.length = vertexCount p i

/-! ## Example data -/

/-- The four-vertex mesh of the specification example, with one level and no baked
colours. -/
def exampleMesh : UStaticMesh :=
  ⟨[⟨[⟨0, 0, 0⟩, ⟨2, 0, 0⟩, ⟨0, 2, 0⟩, ⟨0, 0, 2⟩], false, []⟩]⟩

/-- A component on `exampleMesh` on which nothing has been painted yet. -/
def exampleComponent : ComponentPtr :=
  some ⟨some exampleMesh, [], ⟨⟨0, 0, 0⟩, ⟨0, 0, 0⟩, ⟨1, 1, 1⟩⟩, false, false⟩

/-- A component on `exampleMesh` that already carries an override buffer on level 0. -/
def paintedComponent : ComponentPtr :=
  some ⟨some exampleMesh, [⟨some [⟨1, 2, 3, 4⟩, ⟨5, 6, 7, 8⟩, ⟨9, 10, 11, 12⟩,
    ⟨13, 14, 15, 16⟩]⟩], ⟨⟨0, 0, 0⟩, ⟨0, 0, 0⟩, ⟨1, 1, 1⟩⟩, false, false⟩

/-- Four colours, one per vertex of `exampleMesh`. -/
def exampleColors : List FColor :=
  [⟨255, 0, 0, 255⟩, ⟨0, 255, 0, 255⟩, ⟨0, 0, 255, 255⟩, ⟨7, 7, 7, 7⟩]

/-- An override list with two entries for vertex 1 and one entry outside the buffer. -/
def exampleOverrides : List FVertexOverrideColorInfo :=
  [⟨1, ⟨10, 10, 10, 10⟩⟩, ⟨9, ⟨20, 20, 20, 20⟩⟩, ⟨1, ⟨30, 30, 30, 30⟩⟩]

/-- A second override list, which overlaps the first on vertex 1. -/
def exampleOverrides2 : List FVertexOverrideColorInfo :=
  [⟨1, ⟨40, 40, 40, 40⟩⟩, ⟨2, ⟨50, 50, 50, 50⟩⟩]

/-- The component that `paintedComponent` points to. -/
def paintedBody : UStaticMeshComponent :=
  ⟨some exampleMesh, [⟨some [⟨1, 2, 3, 4⟩, ⟨5, 6, 7, 8⟩, ⟨9, 10, 11, 12⟩,
    ⟨13, 14, 15, 16⟩]⟩], ⟨⟨0, 0, 0⟩, ⟨0, 0, 0⟩, ⟨1, 1, 1⟩⟩, false, false⟩

/-- The alpha channel survives decoding and re-encoding: a linear colour that carries the
decoded alpha of `c` is quantized to the alpha of `c`. -/
def AlphaRoundTrip (E : Engine) : Prop :=
  ∀ (c : FColor) (l : FLinearColor), l.A = (E.FromSRGBColor c).A → (E.ToFColor l).A = c.A

/-- Encoding is the inverse of decoding: `ToFColor (FromSRGBColor c) = c`. -/
def DecodeEncodeRoundTrip (E : Engine) : Prop :=
  ∀ c : FColor, E.ToFColor (E.FromSRGBColor c) = c

/-- Encoding works channel by channel: each output channel depends on the same input
channel only. -/
def EncodeChannelwise (E : Engine) : Prop :=
  ∀ l k : FLinearColor,
    (l.R = k.R → (E.ToFColor l).R = (E.ToFColor k).R) ∧
    (l.G = k.G → (E.ToFColor l).G = (E.ToFColor k).G) ∧
    (l.B = k.B → (E.ToFColor l).B = (E.ToFColor k).B) ∧
    (l.A = k.A → (E.ToFColor l).A = (E.ToFColor k).A)

/-- The interpolation of two decoded colours starts at the first (progress 0) and ends at
the second (progress 1). -/
def LerpEndpoints (E : Engine) : Prop :=
  ∀ b t : FColor,
    E.LerpUsingHSV (E.FromSRGBColor b) (E.FromSRGBColor t) 0 = E.FromSRGBColor b ∧
    E.LerpUsingHSV (E.FromSRGBColor b) (E.FromSRGBColor t) 1 = E.FromSRGBColor t

/-! ## A concrete engine

A small engine with exact arithmetic, used to instantiate the engine hypotheses of the
theorems: integer square root, gamma-free colour conversion with rounding to nearest,
plain linear interpolation, and a component transform that only translates. -/

/-- Rounding a linear channel to 8 bits. -/
def simpleQuantize (x : ℚ) : Fin 256 := Fin.ofNat ⌊Clamp x 0 1 * 255 + 1 / 2⌋.toNat

/-- The concrete engine. -/
def simpleEngine : Engine where
  Sqrt q := ((Nat.sqrt ⌊q⌋.toNat : ℕ) : ℚ)
  IsZero r := decide (r = FRotator.ZeroRotator)
  UnrotateVector r v := if r.Yaw = 90 then ⟨v.Y, -v.X, v.Z⟩ else v
  FromSRGBColor c := ⟨(c.R.val : ℚ) / 255, (c.G.val : ℚ) / 255, (c.B.val : ℚ) / 255,
    (c.A.val : ℚ) / 255⟩
  LerpUsingHSV a b t := ⟨a.R + (b.R - a.R) * t, a.G + (b.G - a.G) * t,
    a.B + (b.B - a.B) * t, a.A + (b.A - a.A) * t⟩
  ToFColor l := ⟨simpleQuantize l.R, simpleQuantize l.G, simpleQuantize l.B,
    simpleQuantize l.A⟩
  InverseTransformLocation T v := v.sub T.Translation
  InverseTransformRotation _ r := r

/-! ## Theorems: ShapeClassifier -/

theorem Max_eq_max (a b : ℚ) : Max a b = max a b := by
  unfold Max
  split_ifs with h
  · exact (max_eq_left h).symm
  · exact (max_eq_right (le_of_lt (not_le.mp h))).symm

theorem Abs_eq_abs (a : ℚ) : Abs a = |a| := by
  unfold Abs
  split_ifs with h
  · exact (abs_of_nonneg h).symm
  · exact (abs_of_neg (not_le.mp h)).symm

theorem simpleEngine_Sqrt_zero : simpleEngine.Sqrt 0 = 0 := by
  simp [simpleEngine]

theorem simpleEngine_Sqrt_four : simpleEngine.Sqrt 4 = 2 := by
  have h : Nat.sqrt 4 = 2 := Nat.sqrt_eq 2
  have h4 : ⌊(4 : ℚ)⌋.toNat = 4 := by
    have : ⌊(4 : ℚ)⌋ = 4 := by exact_mod_cast Int.floor_natCast (4 : ℕ)
    rw [this]; rfl
  simp only [simpleEngine, h4, h]
  norm_num

theorem simpleEngine_Unrotate_zero (r : FRotator) :
    simpleEngine.UnrotateVector r ⟨0, 0, 0⟩ = ⟨0, 0, 0⟩ := by
  simp [simpleEngine]

/-- C1 (as stated, refuted): a Box whose X extent is 0 classifies the vertex (5,0,0) at
normalized distance exactly 1, which is not strictly greater than 1 and passes the inclusion
test `NormalizedDistance <= 1`. -/
theorem C1_degenerate_box_distance_is_one :
    GetVertexDistanceNormalizedToShape simpleEngine ⟨5, 0, 0⟩ .Box ⟨0, 0, 0⟩ ⟨0, 10, 10⟩
        ⟨0, 0, 0⟩ = 1 ∧
    ¬ (1 < GetVertexDistanceNormalizedToShape simpleEngine ⟨5, 0, 0⟩ .Box ⟨0, 0, 0⟩
        ⟨0, 10, 10⟩ ⟨0, 0, 0⟩) ∧
    GetVertexDistanceNormalizedToShape simpleEngine ⟨5, 0, 0⟩ .Box ⟨0, 0, 0⟩ ⟨0, 10, 10⟩
        ⟨0, 0, 0⟩ ≤ 1 := by
  have h : GetVertexDistanceNormalizedToShape simpleEngine ⟨5, 0, 0⟩ .Box ⟨0, 0, 0⟩
      ⟨0, 10, 10⟩ ⟨0, 0, 0⟩ = 1 := by
    simp [GetVertexDistanceNormalizedToShape]
  rw [h]
  norm_num

theorem Clamp_le_hi (s lo hi : ℚ) (hlo : lo ≤ hi) : Clamp s lo hi ≤ hi := by
  unfold Clamp
  split_ifs with h1 h2
  · exact hlo
  · exact le_of_lt h2
  · exact le_refl hi

theorem Clamp_ge_lo (s lo hi : ℚ) (hlo : lo ≤ hi) : lo ≤ Clamp s lo hi := by
  unfold Clamp
  split_ifs with h1 h2
  · exact le_refl lo
  · exact not_lt.mp h1
  · exact hlo

theorem ArrayWrite_of_read {α : Type} (a : List α) (i : Nat) (x v : α)
    (h : ArrayRead a (i : Int) = some x) : ArrayWrite a (i : Int) v = some (a.set i v) := by
  unfold ArrayRead at h
  unfold ArrayWrite
  split_ifs at h with hv
  · simp [hv]

theorem degenerate_distance_eq_one (E : Engine) (VertexPosition Location
    Dimensions : FVector) (Rotation : FRotator) (Shape : EVertexPaintShape)
    (h : (Shape = .Box ∧ (Dimensions.X ≤ 0 ∨ Dimensions.Y ≤ 0 ∨ Dimensions.Z ≤ 0)) ∨
      (Shape = .Cylinder ∧ (Dimensions.X ≤ 0 ∨ Dimensions.Z ≤ 0))) :
    GetVertexDistanceNormalizedToShape E VertexPosition Shape Location Dimensions Rotation
      = 1 := by
  rcases h with ⟨rfl, hd⟩ | ⟨rfl, hd⟩
  · have hn : ¬ (Dimensions.X > 0 ∧ Dimensions.Y > 0 ∧ Dimensions.Z > 0) := by
      rintro ⟨hx, hy, hz⟩
      rcases hd with hd | hd | hd
      · exact absurd hx (not_lt.mpr hd)
      · exact absurd hy (not_lt.mpr hd)
      · exact absurd hz (not_lt.mpr hd)
    simp only [GetVertexDistanceNormalizedToShape, if_neg hn]
  · have hn : ¬ (Dimensions.X > 0 ∧ Dimensions.Z > 0) := by
      rintro ⟨hx, hz⟩
      rcases hd with hd | hd
      · exact absurd hx (not_lt.mpr hd)
      · exact absurd hz (not_lt.mpr hd)
    simp only [GetVertexDistanceNormalizedToShape, if_neg hn]

/-- C1 (amended): for every engine, vertex position, location and rotation, a Box with any
of Dimensions.X, Dimensions.Y, Dimensions.Z <= 0, and a Cylinder with Dimensions.X <= 0 or
Dimensions.Z <= 0, get normalized distance exactly 1 (the initial value of
`NormalizedDistance`), so the vertex passes the inclusion test `NormalizedDistance <= 1`;
the loop of `PaintMeshRegion` then marks it as painted and blends it with effective
strength 0, whatever the falloff and the blend strength. -/
theorem C1_degenerate_shape_distance_eq_one (E : Engine) (VertexPosition Location
    Dimensions : FVector) (Rotation : FRotator) (Shape : EVertexPaintShape)
    (h : (Shape = .Box ∧ (Dimensions.X ≤ 0 ∨ Dimensions.Y ≤ 0 ∨ Dimensions.Z ≤ 0)) ∨
      (Shape = .Cylinder ∧ (Dimensions.X ≤ 0 ∨ Dimensions.Z ≤ 0))) :
    GetVertexDistanceNormalizedToShape E VertexPosition Shape Location Dimensions Rotation = 1
    ∧ GetVertexDistanceNormalizedToShape E VertexPosition Shape Location Dimensions Rotation
      ≤ 1
    ∧ ∀ (VertexPositionBuffer : List FVector) (VertexIndex : Nat) (VertexColors : List FColor)
        (Base : FColor) (bAnyVertexPainted : Bool) (Color : FLinearColor)
        (BlendMode : EVertexColorBlendMode) (BlendStrength Falloff : ℚ),
        ArrayRead VertexPositionBuffer (VertexIndex : Int) = some VertexPosition →
        ArrayRead VertexColors (VertexIndex : Int) = some Base →
        PaintMeshRegion.body E VertexPositionBuffer Shape Location Dimensions Rotation Color
          BlendMode BlendStrength (Clamp Falloff (1 / 100) (99 / 100)) VertexIndex
          (VertexColors, bAnyVertexPainted)
        = some (VertexColors.set VertexIndex
            (BlendVertexColors E Base (E.ToFColor Color) BlendMode 0), true) := by
  have key := degenerate_distance_eq_one E VertexPosition Location Dimensions Rotation Shape h
  refine ⟨key, le_of_eq key, ?_⟩
  intro VertexPositionBuffer VertexIndex VertexColors Base bAny Color BlendMode BlendStrength
    Falloff hpos hcol
  have hf : Clamp Falloff (1 / 100) (99 / 100) ≤ 99 / 100 :=
    Clamp_le_hi Falloff _ _ (by norm_num)
  have hgt : (1 : ℚ) > Clamp Falloff (1 / 100) (99 / 100) := by linarith
  have hne : (1 : ℚ) - Clamp Falloff (1 / 100) (99 / 100) ≠ 0 := by linarith
  have halpha : (1 : ℚ) - ((1 - Clamp Falloff (1 / 100) (99 / 100))
      / (1 - Clamp Falloff (1 / 100) (99 / 100))) = 0 := by
    rw [div_self hne]
    norm_num
  simp only [PaintMeshRegion.body, hpos, key, le_refl, if_true, hcol, if_pos hgt, halpha,
    mul_zero, ArrayWrite_of_read VertexColors VertexIndex Base _ hcol]

/-- Witness of C1 (amended): a Cylinder of height 0 around the origin and the vertex
(1,2,3), for the concrete engine. -/
theorem C1_degenerate_shape_distance_eq_one_witness :
    GetVertexDistanceNormalizedToShape simpleEngine ⟨1, 2, 3⟩ .Cylinder ⟨0, 0, 0⟩ ⟨4, 4, 0⟩
        ⟨0, 0, 0⟩ = 1
    ∧ GetVertexDistanceNormalizedToShape simpleEngine ⟨1, 2, 3⟩ .Cylinder ⟨0, 0, 0⟩ ⟨4, 4, 0⟩
        ⟨0, 0, 0⟩ ≤ 1 :=
  let t := C1_degenerate_shape_distance_eq_one simpleEngine ⟨1, 2, 3⟩ ⟨0, 0, 0⟩ ⟨4, 4, 0⟩
    ⟨0, 0, 0⟩ .Cylinder (Or.inr ⟨rfl, Or.inr (le_refl 0)⟩)
  ⟨t.1, t.2.1⟩

/-- The relative position of a vertex that sits at the region centre is the zero vector,
provided the engine un-rotates the zero vector to itself. -/
theorem relativePos_center (E : Engine) (Location : FVector) (Rotation : FRotator)
    (hRot : ∀ r, E.UnrotateVector r ⟨0, 0, 0⟩ = ⟨0, 0, 0⟩) :
    (if (!E.IsZero Rotation) = true then E.UnrotateVector Rotation (Location.sub Location)
      else Location.sub Location) = ⟨0, 0, 0⟩ := by
  have h0 : Location.sub Location = ⟨0, 0, 0⟩ := by
    simp [FVector.sub]
  rw [h0]
  split_ifs
  · exact hRot Rotation
  · rfl

/-- C2 (as stated, refuted): a Box with all extents 0, queried at its own centre, returns 1
and not 0. -/
theorem C2_degenerate_box_center_not_zero :
    GetVertexDistanceNormalizedToShape simpleEngine ⟨3, 4, 5⟩ .Box ⟨3, 4, 5⟩ ⟨0, 0, 0⟩
        ⟨0, 0, 0⟩ = 1 ∧
    GetVertexDistanceNormalizedToShape simpleEngine ⟨3, 4, 5⟩ .Box ⟨3, 4, 5⟩ ⟨0, 0, 0⟩
        ⟨0, 0, 0⟩ ≠ 0 := by
  have h : GetVertexDistanceNormalizedToShape simpleEngine ⟨3, 4, 5⟩ .Box ⟨3, 4, 5⟩
      ⟨0, 0, 0⟩ ⟨0, 0, 0⟩ = 1 := by
    simp [GetVertexDistanceNormalizedToShape]
  rw [h]
  norm_num

/-- C2 (amended): for an engine whose square root of 0 is 0 and whose un-rotation fixes the
zero vector, every rotation and every location: with VertexPosition equal to Location the
normalized distance is exactly 0 for Point and Sphere with any Dimensions, for Box with all
three Dimensions > 0 and for Cylinder with Dimensions.X > 0 and Dimensions.Z > 0. -/
theorem C2_center_distance_zero (E : Engine) (Shape : EVertexPaintShape)
    (Location Dimensions : FVector) (Rotation : FRotator)
    (hSqrt : E.Sqrt 0 = 0)
    (hRot : ∀ r, E.UnrotateVector r ⟨0, 0, 0⟩ = ⟨0, 0, 0⟩)
    (hDim : (Shape = .Box → Dimensions.X > 0 ∧ Dimensions.Y > 0 ∧ Dimensions.Z > 0) ∧
      (Shape = .Cylinder → Dimensions.X > 0 ∧ Dimensions.Z > 0)) :
    GetVertexDistanceNormalizedToShape E Location Shape Location Dimensions Rotation = 0 := by
  have hrel := relativePos_center E Location Rotation hRot
  cases Shape with
  | Point =>
    simp only [GetVertexDistanceNormalizedToShape, hrel, FVector.Size]
    norm_num [hSqrt]
  | Sphere =>
    simp only [GetVertexDistanceNormalizedToShape, hrel, FVector.Size]
    norm_num [hSqrt]
  | Box =>
    have hb := hDim.1 rfl
    simp only [GetVertexDistanceNormalizedToShape, hrel, if_pos hb]
    norm_num [Abs, Max3, Max]
  | Cylinder =>
    have hc := hDim.2 rfl
    simp only [GetVertexDistanceNormalizedToShape, hrel, if_pos hc]
    norm_num [Abs, Max, hSqrt]

/-- Witness of C2 (amended): a Box of extents (2,2,2) centred at (3,4,5) and turned by a
yaw of 90 degrees, for the concrete engine. -/
theorem C2_center_distance_zero_witness :
    GetVertexDistanceNormalizedToShape simpleEngine ⟨3, 4, 5⟩ .Box ⟨3, 4, 5⟩ ⟨2, 2, 2⟩
      ⟨0, 90, 0⟩ = 0 :=
  C2_center_distance_zero simpleEngine .Box ⟨3, 4, 5⟩ ⟨2, 2, 2⟩ ⟨0, 90, 0⟩
    simpleEngine_Sqrt_zero simpleEngine_Unrotate_zero
    ⟨fun _ => ⟨by norm_num, by norm_num, by norm_num⟩, fun h => by cases h⟩

/-- C3: for every engine and every input, the code computes the formula table of the
specification, section 4.1: |rel| / max(1/10, X) for Point and Sphere; for Box with the three
extents > 0 the maximum over the axes of |rel.axis| / (extent / 2), otherwise 1; for Cylinder
with X > 0 and Z > 0 the maximum of sqrt(rel.x^2 + rel.y^2) / (X/2) and |rel.z| / (Z/2),
otherwise 1. And for an engine with sqrt 0 = 0 and sqrt 4 = 2, a Sphere at the origin with
Dimensions.X = 1 and a zero rotation gives distance 0 to (0,0,0) and distance 2 to (2,0,0),
(0,2,0) and (0,0,2), so only the first vertex passes the test `distance <= 1`. -/
theorem C3_distance_eq_formula_table (E : Engine) :
    (∀ (VertexPosition : FVector) (Shape : EVertexPaintShape) (Location Dimensions : FVector)
      (Rotation : FRotator),
      GetVertexDistanceNormalizedToShape E VertexPosition Shape Location Dimensions Rotation
        = specNormalizedDistance E VertexPosition Shape Location Dimensions Rotation) ∧
    (E.Sqrt 0 = 0 → E.Sqrt 4 = 2 → ∀ (Rotation : FRotator) (Y Z : ℚ),
      E.IsZero Rotation = true →
      (GetVertexDistanceNormalizedToShape E ⟨0, 0, 0⟩ .Sphere ⟨0, 0, 0⟩ ⟨1, Y, Z⟩ Rotation = 0 ∧
       GetVertexDistanceNormalizedToShape E ⟨2, 0, 0⟩ .Sphere ⟨0, 0, 0⟩ ⟨1, Y, Z⟩ Rotation = 2 ∧
       GetVertexDistanceNormalizedToShape E ⟨0, 2, 0⟩ .Sphere ⟨0, 0, 0⟩ ⟨1, Y, Z⟩ Rotation = 2 ∧
       GetVertexDistanceNormalizedToShape E ⟨0, 0, 2⟩ .Sphere ⟨0, 0, 0⟩ ⟨1, Y, Z⟩ Rotation
         = 2) ∧
      (GetVertexDistanceNormalizedToShape E ⟨0, 0, 0⟩ .Sphere ⟨0, 0, 0⟩ ⟨1, Y, Z⟩ Rotation ≤ 1 ∧
       ¬ GetVertexDistanceNormalizedToShape E ⟨2, 0, 0⟩ .Sphere ⟨0, 0, 0⟩ ⟨1, Y, Z⟩ Rotation
         ≤ 1 ∧
       ¬ GetVertexDistanceNormalizedToShape E ⟨0, 2, 0⟩ .Sphere ⟨0, 0, 0⟩ ⟨1, Y, Z⟩ Rotation
         ≤ 1 ∧
       ¬ GetVertexDistanceNormalizedToShape E ⟨0, 0, 2⟩ .Sphere ⟨0, 0, 0⟩ ⟨1, Y, Z⟩ Rotation
         ≤ 1)) := by
  constructor
  · intro VertexPosition Shape Location Dimensions Rotation
    have hrel : (if (!E.IsZero Rotation) = true then
          E.UnrotateVector Rotation (VertexPosition.sub Location)
        else VertexPosition.sub Location)
        = specRelativePos E VertexPosition Location Rotation := by
      unfold specRelativePos FVector.sub
      cases E.IsZero Rotation <;> simp
    cases Shape with
    | Point =>
      simp only [GetVertexDistanceNormalizedToShape, specNormalizedDistance, hrel,
        FVector.Size, specNorm, Max_eq_max, pow_two]
    | Sphere =>
      simp only [GetVertexDistanceNormalizedToShape, specNormalizedDistance, hrel,
        FVector.Size, specNorm, Max_eq_max, pow_two]
    | Box =>
      simp only [GetVertexDistanceNormalizedToShape, specNormalizedDistance, hrel,
        Max3, Max_eq_max, Abs_eq_abs, gt_iff_lt, mul_one_div]
    | Cylinder =>
      simp only [GetVertexDistanceNormalizedToShape, specNormalizedDistance, hrel,
        Max_eq_max, Abs_eq_abs, gt_iff_lt, mul_one_div, pow_two]
  · intro h0 h4 Rotation Y Z hz
    have hM : Max (1 / 10) 1 = 1 := by
      unfold Max
      norm_num
    have d0 : GetVertexDistanceNormalizedToShape E ⟨0, 0, 0⟩ .Sphere ⟨0, 0, 0⟩ ⟨1, Y, Z⟩
        Rotation = 0 := by
      simp only [GetVertexDistanceNormalizedToShape, hz, FVector.sub, FVector.Size, hM]
      norm_num [h0]
    have d1 : GetVertexDistanceNormalizedToShape E ⟨2, 0, 0⟩ .Sphere ⟨0, 0, 0⟩ ⟨1, Y, Z⟩
        Rotation = 2 := by
      simp only [GetVertexDistanceNormalizedToShape, hz, FVector.sub, FVector.Size, hM]
      norm_num [h4]
    have d2 : GetVertexDistanceNormalizedToShape E ⟨0, 2, 0⟩ .Sphere ⟨0, 0, 0⟩ ⟨1, Y, Z⟩
        Rotation = 2 := by
      simp only [GetVertexDistanceNormalizedToShape, hz, FVector.sub, FVector.Size, hM]
      norm_num [h4]
    have d3 : GetVertexDistanceNormalizedToShape E ⟨0, 0, 2⟩ .Sphere ⟨0, 0, 0⟩ ⟨1, Y, Z⟩
        Rotation = 2 := by
      simp only [GetVertexDistanceNormalizedToShape, hz, FVector.sub, FVector.Size, hM]
      norm_num [h4]
    refine ⟨⟨d0, d1, d2, d3⟩, ?_, ?_, ?_, ?_⟩
    · rw [d0]; norm_num
    · rw [d1]; norm_num
    · rw [d2]; norm_num
    · rw [d3]; norm_num

/-- Witness of C3: the example of the specification for the concrete engine. -/
theorem C3_distance_eq_formula_table_witness :
    (GetVertexDistanceNormalizedToShape simpleEngine ⟨0, 0, 0⟩ .Sphere ⟨0, 0, 0⟩ ⟨1, 1, 1⟩
       ⟨0, 0, 0⟩ = 0 ∧
     GetVertexDistanceNormalizedToShape simpleEngine ⟨2, 0, 0⟩ .Sphere ⟨0, 0, 0⟩ ⟨1, 1, 1⟩
       ⟨0, 0, 0⟩ = 2 ∧
     GetVertexDistanceNormalizedToShape simpleEngine ⟨0, 2, 0⟩ .Sphere ⟨0, 0, 0⟩ ⟨1, 1, 1⟩
       ⟨0, 0, 0⟩ = 2 ∧
     GetVertexDistanceNormalizedToShape simpleEngine ⟨0, 0, 2⟩ .Sphere ⟨0, 0, 0⟩ ⟨1, 1, 1⟩
       ⟨0, 0, 0⟩ = 2) ∧
    (GetVertexDistanceNormalizedToShape simpleEngine ⟨0, 0, 0⟩ .Sphere ⟨0, 0, 0⟩ ⟨1, 1, 1⟩
       ⟨0, 0, 0⟩ ≤ 1 ∧
     ¬ GetVertexDistanceNormalizedToShape simpleEngine ⟨2, 0, 0⟩ .Sphere ⟨0, 0, 0⟩ ⟨1, 1, 1⟩
       ⟨0, 0, 0⟩ ≤ 1 ∧
     ¬ GetVertexDistanceNormalizedToShape simpleEngine ⟨0, 2, 0⟩ .Sphere ⟨0, 0, 0⟩ ⟨1, 1, 1⟩
       ⟨0, 0, 0⟩ ≤ 1 ∧
     ¬ GetVertexDistanceNormalizedToShape simpleEngine ⟨0, 0, 2⟩ .Sphere ⟨0, 0, 0⟩ ⟨1, 1, 1⟩
       ⟨0, 0, 0⟩ ≤ 1) :=
  (C3_distance_eq_formula_table simpleEngine).2 simpleEngine_Sqrt_zero simpleEngine_Sqrt_four
    ⟨0, 0, 0⟩ 1 1 (by simp [simpleEngine, FRotator.ZeroRotator])

/-! ## Theorems: ColorBlender -/

theorem Clamp_of_gt (s lo hi : ℚ) (hlo : lo ≤ hi) (h : hi < s) : Clamp s lo hi = hi := by
  unfold Clamp
  rw [if_neg (not_lt.mpr (le_trans hlo (le_of_lt h))), if_neg (not_lt.mpr (le_of_lt h))]

theorem Clamp_of_lt (s lo hi : ℚ) (h : s < lo) : Clamp s lo hi = lo := by
  unfold Clamp
  rw [if_pos h]

theorem Clamp_of_mem (s lo hi : ℚ) (h1 : lo ≤ s) (h2 : s ≤ hi) : Clamp s lo hi = s := by
  unfold Clamp
  rw [if_neg (not_lt.mpr h1)]
  split_ifs with h
  · rfl
  · exact le_antisymm (not_lt.mp h) h2

theorem simpleQuantize_decode (a : Fin 256) : simpleQuantize ((a.val : ℚ) / 255) = a := by
  have ha : (a.val : ℚ) ≤ 255 := by
    have : a.val ≤ 255 := Nat.le_of_lt_succ a.isLt
    exact_mod_cast this
  have h0 : (0 : ℚ) ≤ (a.val : ℚ) / 255 := by positivity
  have h1 : (a.val : ℚ) / 255 ≤ 1 := by
    rw [div_le_one (by norm_num)]
    exact ha
  have hfloor : ⌊(a.val : ℚ) / 255 * 255 + 1 / 2⌋ = (a.val : ℤ) := by
    rw [Int.floor_eq_iff]
    constructor
    · push_cast
      linarith [div_mul_cancel₀ (a.val : ℚ) (show (255 : ℚ) ≠ 0 by norm_num)]
    · push_cast
      linarith [div_mul_cancel₀ (a.val : ℚ) (show (255 : ℚ) ≠ 0 by norm_num)]
  unfold simpleQuantize
  rw [Clamp_of_mem _ _ _ h0 h1, hfloor, Int.toNat_natCast]
  apply Fin.ext
  simp [Fin.ofNat, Nat.mod_eq_of_lt a.isLt]

theorem simpleEngine_DecodeEncodeRoundTrip : DecodeEncodeRoundTrip simpleEngine := by
  intro c
  simp [simpleEngine, simpleQuantize_decode]

theorem simpleEngine_AlphaRoundTrip : AlphaRoundTrip simpleEngine := by
  intro c l h
  have hl : l.A = (c.A.val : ℚ) / 255 := h
  show simpleQuantize l.A = c.A
  rw [hl]
  exact simpleQuantize_decode c.A

theorem simpleEngine_EncodeChannelwise : EncodeChannelwise simpleEngine := by
  intro l k
  refine ⟨fun h => ?_, fun h => ?_, fun h => ?_, fun h => ?_⟩ <;>
    simp [simpleEngine, h]

theorem simpleEngine_LerpEndpoints : LerpEndpoints simpleEngine := by
  intro b t
  constructor <;> simp [simpleEngine]

/-- C4: for an engine whose alpha channel survives decoding and re-encoding, for every base
colour, blend colour, blend mode (Replace, Add, Multiply, Lerp or any other value) and blend
strength, the alpha channel of `BlendVertexColors` equals the alpha channel of the base. -/
theorem C4_blend_preserves_alpha (E : Engine) (hAlpha : AlphaRoundTrip E)
    (BaseColor BlendColor : FColor) (BlendMode : EVertexColorBlendMode) (BlendStrength : ℚ) :
    (BlendVertexColors E BaseColor BlendColor BlendMode BlendStrength).A = BaseColor.A := by
  unfold BlendVertexColors
  exact hAlpha BaseColor _ rfl

/-- Witness of C4: Multiply at strength 3/10 for the concrete engine. -/
theorem C4_blend_preserves_alpha_witness :
    (BlendVertexColors simpleEngine ⟨10, 20, 30, 40⟩ ⟨200, 100, 50, 250⟩ .Multiply (3 / 10)).A
      = (⟨10, 20, 30, 40⟩ : FColor).A :=
  C4_blend_preserves_alpha simpleEngine simpleEngine_AlphaRoundTrip ⟨10, 20, 30, 40⟩
    ⟨200, 100, 50, 250⟩ .Multiply (3 / 10)

/-- C5: for an engine whose encoding inverts decoding channel by channel and whose
interpolation starts at its first and ends at its second argument, for every base and
target colour: Replace at strength 0 returns the base, and Replace at strength 1 returns the
target with its alpha replaced by the alpha of the base. -/
theorem C5_replace_endpoints (E : Engine) (hRound : DecodeEncodeRoundTrip E)
    (hChan : EncodeChannelwise E) (hLerp : LerpEndpoints E) (BaseColor TargetColor : FColor) :
    BlendVertexColors E BaseColor TargetColor .Replace 0 = BaseColor ∧
    BlendVertexColors E BaseColor TargetColor .Replace 1
      = { TargetColor with A := BaseColor.A } := by
  have hc0 : Clamp 0 0 1 = 0 := Clamp_of_mem 0 0 1 (le_refl 0) (by norm_num)
  have hc1 : Clamp 1 0 1 = 1 := Clamp_of_mem 1 0 1 (by norm_num) (le_refl 1)
  constructor
  · simp only [BlendVertexColors, hc0, (hLerp BaseColor TargetColor).1]
    exact hRound BaseColor
  · simp only [BlendVertexColors, hc1, (hLerp BaseColor TargetColor).2]
    obtain ⟨hR, hG, hB, _⟩ := hChan
      { E.FromSRGBColor TargetColor with A := (E.FromSRGBColor BaseColor).A }
      (E.FromSRGBColor TargetColor)
    obtain ⟨_, _, _, hA⟩ := hChan
      { E.FromSRGBColor TargetColor with A := (E.FromSRGBColor BaseColor).A }
      (E.FromSRGBColor BaseColor)
    have e1 := hR rfl
    have e2 := hG rfl
    have e3 := hB rfl
    have e4 := hA rfl
    rw [hRound TargetColor] at e1 e2 e3
    rw [hRound BaseColor] at e4
    cases hres : E.ToFColor
      { E.FromSRGBColor TargetColor with A := (E.FromSRGBColor BaseColor).A } with
    | mk r g b a =>
      rw [hres] at e1 e2 e3 e4
      simp only at e1 e2 e3 e4
      subst e1 e2 e3 e4
      rfl

/-- Witness of C5: a base and a target colour for the concrete engine. -/
theorem C5_replace_endpoints_witness :
    BlendVertexColors simpleEngine ⟨10, 20, 30, 40⟩ ⟨200, 100, 50, 250⟩ .Replace 0
      = ⟨10, 20, 30, 40⟩ ∧
    BlendVertexColors simpleEngine ⟨10, 20, 30, 40⟩ ⟨200, 100, 50, 250⟩ .Replace 1
      = { (⟨200, 100, 50, 250⟩ : FColor) with A := (⟨10, 20, 30, 40⟩ : FColor).A } :=
  C5_replace_endpoints simpleEngine simpleEngine_DecodeEncodeRoundTrip
    simpleEngine_EncodeChannelwise simpleEngine_LerpEndpoints ⟨10, 20, 30, 40⟩
    ⟨200, 100, 50, 250⟩

/-- C6: `BlendVertexColors` clamps its strength to [0,1] before use: for every engine, base,
target and mode, every strength above 1 gives the result of strength 1 and every strength
below 0 gives the result of strength 0. -/
theorem C6_blend_strength_clamped (E : Engine) (BaseColor BlendColor : FColor)
    (BlendMode : EVertexColorBlendMode) (s : ℚ) :
    (1 < s → BlendVertexColors E BaseColor BlendColor BlendMode s
      = BlendVertexColors E BaseColor BlendColor BlendMode 1) ∧
    (s < 0 → BlendVertexColors E BaseColor BlendColor BlendMode s
      = BlendVertexColors E BaseColor BlendColor BlendMode 0) := by
  have hc0 : Clamp 0 0 1 = 0 := Clamp_of_mem 0 0 1 (le_refl 0) (by norm_num)
  have hc1 : Clamp 1 0 1 = 1 := Clamp_of_mem 1 0 1 (by norm_num) (le_refl 1)
  constructor
  · intro h
    have hs : Clamp s 0 1 = 1 := Clamp_of_gt s 0 1 (by norm_num) h
    simp only [BlendVertexColors, hs, hc1]
  · intro h
    have hs : Clamp s 0 1 = 0 := Clamp_of_lt s 0 1 h
    simp only [BlendVertexColors, hs, hc0]

/-- Witness of C6: strength 3/2 behaves as strength 1 and strength -1 as strength 0, for
the concrete engine in Add mode. -/
theorem C6_blend_strength_clamped_witness :
    BlendVertexColors simpleEngine ⟨10, 20, 30, 40⟩ ⟨200, 100, 50, 250⟩ .Add (3 / 2)
      = BlendVertexColors simpleEngine ⟨10, 20, 30, 40⟩ ⟨200, 100, 50, 250⟩ .Add 1 ∧
    BlendVertexColors simpleEngine ⟨10, 20, 30, 40⟩ ⟨200, 100, 50, 250⟩ .Add (-1)
      = BlendVertexColors simpleEngine ⟨10, 20, 30, 40⟩ ⟨200, 100, 50, 250⟩ .Add 0 :=
  ⟨(C6_blend_strength_clamped simpleEngine ⟨10, 20, 30, 40⟩ ⟨200, 100, 50, 250⟩ .Add
      (3 / 2)).1 (by norm_num),
    (C6_blend_strength_clamped simpleEngine ⟨10, 20, 30, 40⟩ ⟨200, 100, 50, 250⟩ .Add
      (-1)).2 (by norm_num)⟩

/-! ## Theorems: validation and the LOD data array -/

theorem SetLODDataCount_length (c : UStaticMeshComponent) (n : Nat) :
    (c.SetLODDataCount n n).LODData.length = n := by
  simp only [UStaticMeshComponent.SetLODDataCount]
  by_cases h1 : n < c.LODData.length
  · have h2 : ¬ n > (List.take n c.LODData).length := by
      rw [List.length_take]
      omega
    rw [if_pos h1, if_neg h2, List.length_take]
    omega
  · simp only [if_neg h1]
    by_cases h2 : n > c.LODData.length
    · simp only [if_pos h2, List.length_append, List.length_replicate]
      omega
    · simp only [if_neg h2]
      omega

theorem SetLODDataCount_getElem? (c : UStaticMeshComponent) (n i : Nat) (hi : i < n) :
    (c.SetLODDataCount n n).LODData[i]? = some (c.LODData.getD i default) := by
  simp only [UStaticMeshComponent.SetLODDataCount, List.getD_eq_getElem?_getD]
  by_cases h1 : n < c.LODData.length
  · have h2 : ¬ n > (List.take n c.LODData).length := by
      rw [List.length_take]
      omega
    have hlt : i < c.LODData.length := by omega
    rw [if_pos h1, if_neg h2, List.getElem?_take_of_lt hi,
      List.getElem?_eq_getElem hlt, Option.getD_some]
  · simp only [if_neg h1]
    by_cases h2 : n > c.LODData.length
    · simp only [if_pos h2]
      by_cases h3 : i < c.LODData.length
      · rw [List.getElem?_append_left h3, List.getElem?_eq_getElem h3, Option.getD_some]
      · rw [List.getElem?_append_right (not_lt.mp h3), List.getElem?_replicate,
          List.getElem?_eq_none (not_lt.mp h3)]
        have : i - c.LODData.length < n - c.LODData.length := by omega
        simp [this]
    · have hlt : i < c.LODData.length := by omega
      simp only [if_neg h2, List.getElem?_eq_getElem hlt, Option.getD_some]

theorem SetLODDataCount_of_length (c : UStaticMeshComponent) (n : Nat)
    (h : c.LODData.length = n) : c.SetLODDataCount n n = c := by
  simp [UStaticMeshComponent.SetLODDataCount, h]

theorem IsValidIndex_iff {α : Type} (a : List α) (i : Int) :
    IsValidIndex a i = true ↔ 0 ≤ i ∧ i < (a.length : Int) := by
  simp [IsValidIndex]

theorem meshOf_sizeLODData (p : ComponentPtr) : meshOf (sizeLODData p) = meshOf p := by
  cases p with
  | none => rfl
  | some c =>
    cases hm : c.StaticMesh with
    | none => simp [sizeLODData, hm]
    | some m => simp [sizeLODData, hm, meshOf, UStaticMeshComponent.SetLODDataCount]

theorem sizeLODData_eq_none (p : ComponentPtr) : sizeLODData p = none ↔ p = none := by
  cases p with
  | none => simp [sizeLODData]
  | some c =>
    cases hm : c.StaticMesh <;> simp [sizeLODData, hm]

theorem numLODs_sizeLODData (p : ComponentPtr) : numLODs (sizeLODData p) = numLODs p := by
  simp [numLODs, meshOf_sizeLODData]

theorem vertexCount_sizeLODData (p : ComponentPtr) (i : Nat) :
    vertexCount (sizeLODData p) i = vertexCount p i := by
  simp [vertexCount, meshOf_sizeLODData]

theorem overrideBuffer_sizeLODData (p : ComponentPtr) (i : Nat) (hi : i < numLODs p) :
    overrideBuffer (sizeLODData p) i = overrideBuffer p i := by
  cases p with
  | none => rfl
  | some c =>
    cases hm : c.StaticMesh with
    | none => simp [sizeLODData, hm]
    | some m =>
      have hn : i < m.GetNumLODs := by
        simpa [numLODs, meshOf, hm] using hi
      simp only [sizeLODData, hm, overrideBuffer, SetLODDataCount_getElem? c _ i hn,
        List.getD_eq_getElem?_getD]
      cases c.LODData[i]? <;> rfl

theorem sizeLODData_idem (p : ComponentPtr) : sizeLODData (sizeLODData p) = sizeLODData p := by
  cases p with
  | none => rfl
  | some c =>
    cases hm : c.StaticMesh with
    | none => simp [sizeLODData, hm]
    | some m =>
      have hm2 : (c.SetLODDataCount m.GetNumLODs m.GetNumLODs).StaticMesh = some m := by
        simp [UStaticMeshComponent.SetLODDataCount, hm]
      simp only [sizeLODData, hm, hm2]
      rw [SetLODDataCount_of_length _ _ (SetLODDataCount_length c _)]

theorem validate_of_valid (p : ComponentPtr) (L : Int) (h : ValidTarget p L) :
    ValidateMeshForPainting p L = (true, vertexCount p L.toNat, sizeLODData p) := by
  obtain ⟨h0, h1, hp, hm⟩ := h
  cases p with
  | none => exact absurd rfl hp
  | some c =>
    cases hmesh : c.StaticMesh with
    | none => simp [meshOf, hmesh] at hm
    | some m =>
      have hn : L < (m.GetNumLODs : Int) := by
        simpa [numLODs, meshOf, hmesh] using h1
      have hv : IsValidIndex (c.SetLODDataCount m.GetNumLODs m.GetNumLODs).LODData L = true := by
        rw [IsValidIndex_iff, SetLODDataCount_length]
        exact ⟨h0, hn⟩
      simp [ValidateMeshForPainting, hmesh, hv, vertexCount, meshOf, sizeLODData]

theorem validate_of_not_valid (p : ComponentPtr) (L : Int) (h : ¬ ValidTarget p L) :
    ValidateMeshForPainting p L = (false, 0, sizeLODData p) := by
  cases p with
  | none => rfl
  | some c =>
    cases hmesh : c.StaticMesh with
    | none => simp [ValidateMeshForPainting, hmesh, sizeLODData]
    | some m =>
      have hv : IsValidIndex (c.SetLODDataCount m.GetNumLODs m.GetNumLODs).LODData L
          = false := by
        rw [← Bool.not_eq_true, IsValidIndex_iff, SetLODDataCount_length]
        intro hh
        apply h
        refine ⟨hh.1, ?_, by simp, by simp [meshOf, hmesh]⟩
        simpa [numLODs, meshOf, hmesh] using hh.2
      simp [ValidateMeshForPainting, hmesh, hv, sizeLODData]

theorem ValidTarget_sizeLODData (p : ComponentPtr) (L : Int) :
    ValidTarget (sizeLODData p) L ↔ ValidTarget p L := by
  simp only [ValidTarget, numLODs_sizeLODData, meshOf_sizeLODData, ne_eq,
    sizeLODData_eq_none]

/-! ## Theorems: ColorBufferStore -/

theorem ValidTarget_toNat_lt (p : ComponentPtr) (L : Int) (h : ValidTarget p L) :
    L.toNat < numLODs p := by
  obtain ⟨h0, h1, _, _⟩ := h
  omega

theorem get_of_not_valid (p : ComponentPtr) (L : Int) (h : ¬ ValidTarget p L) :
    GetStaticMeshVertexColors p L = some ([], sizeLODData p) := by
  simp [GetStaticMeshVertexColors, validate_of_not_valid p L h]

theorem get_of_valid (p : ComponentPtr) (L : Int) (h : ValidTarget p L) :
    GetStaticMeshVertexColors p L = some (specRead p L.toNat, sizeLODData p) := by
  have hlt := ValidTarget_toNat_lt p L h
  have hov := overrideBuffer_sizeLODData p L.toNat hlt
  obtain ⟨h0, h1, hp, hm⟩ := h
  cases p with
  | none => exact absurd rfl hp
  | some c =>
    cases hmesh : c.StaticMesh with
    | none => simp [meshOf, hmesh] at hm
    | some m =>
      have hn : L < (m.GetNumLODs : Int) := by
        simpa [numLODs, meshOf, hmesh] using h1
      have hnn : L.toNat < m.LODResources.length := by
        have : L.toNat < m.GetNumLODs := by omega
        exact this
      have hval := validate_of_valid (some c) L ⟨h0, h1, hp, hm⟩
      have hlen := SetLODDataCount_length c m.GetNumLODs
      have hget := SetLODDataCount_getElem? c m.GetNumLODs L.toNat (by omega)
      have hvi : IsValidIndex (c.SetLODDataCount m.GetNumLODs m.GetNumLODs).LODData L
          = true := by
        rw [IsValidIndex_iff, hlen]
        exact ⟨h0, hn⟩
      have hvr : IsValidIndex m.LODResources L = true := by
        rw [IsValidIndex_iff]
        exact ⟨h0, hn⟩
      have hsm : (c.SetLODDataCount m.GetNumLODs m.GetNumLODs).StaticMesh = some m := by
        simp [UStaticMeshComponent.SetLODDataCount, hmesh]
      have hov2 : (c.LODData.getD L.toNat default).OverrideVertexColors
          = overrideBuffer (some c) L.toNat := by
        rw [← hov]
        simp [overrideBuffer, sizeLODData, hmesh, hget]
      have hres : m.LODResources[L.toNat]? = some (m.LODResources[L.toNat]) :=
        List.getElem?_eq_getElem hnn
      simp only [GetStaticMeshVertexColors, hval, sizeLODData, hmesh, ArrayRead, hvi, hget,
        if_true, hov2, hsm, hvr, hres, GetVertexColors]
      cases hob : overrideBuffer (some c) L.toNat with
      | some Buffer => simp [specRead, hob, sizeLODData, hmesh]
      | none =>
        by_cases hb : (m.LODResources[L.toNat]).bHasColorVertexData = true
        · simp [specRead, hob, bakedColors, meshOf, hmesh, hres, hb, sizeLODData]
        · simp [specRead, hob, bakedColors, meshOf, hmesh, hres, hb, sizeLODData,
            vertexCount, List.getD_eq_getElem?_getD]

theorem apply_spec (p p2 : ComponentPtr) (L : Int) (C : List FColor)
    (h : ApplyColorBuffer p L C = some p2) :
    p ≠ none ∧ p2 ≠ none ∧ meshOf p2 = meshOf p ∧ 0 ≤ L ∧
    overrideBuffer p2 L.toNat = some C ∧
    (∀ i, i ≠ L.toNat → overrideBuffer p2 i = overrideBuffer p i) := by
  cases p with
  | none => simp [ApplyColorBuffer] at h
  | some c =>
    by_cases hv : IsValidIndex c.LODData L = true
    · simp only [ApplyColorBuffer, hv, if_true, Option.some.injEq] at h
      subst h
      have hv2 := (IsValidIndex_iff _ _).mp hv
      have hlt : L.toNat < c.LODData.length := by omega
      refine ⟨by simp, by simp, rfl, hv2.1, ?_, ?_⟩
      · simp [overrideBuffer, List.getElem?_set_self hlt]
      · intro i hi
        simp [overrideBuffer, List.getElem?_set_ne (Ne.symm hi)]
    · simp [ApplyColorBuffer, hv] at h

theorem apply_total_of_sized (p : ComponentPtr) (L : Int) (C : List FColor)
    (h : ValidTarget p L) : ∃ p2, ApplyColorBuffer (sizeLODData p) L C = some p2 := by
  obtain ⟨h0, h1, hp, hm⟩ := h
  cases p with
  | none => exact absurd rfl hp
  | some c =>
    cases hmesh : c.StaticMesh with
    | none => simp [meshOf, hmesh] at hm
    | some m =>
      have hn : L < (m.GetNumLODs : Int) := by
        simpa [numLODs, meshOf, hmesh] using h1
      have hvi : IsValidIndex (c.SetLODDataCount m.GetNumLODs m.GetNumLODs).LODData L
          = true := by
        rw [IsValidIndex_iff, SetLODDataCount_length]
        exact ⟨h0, hn⟩
      simp [sizeLODData, hmesh, ApplyColorBuffer, hvi]

theorem ValidTarget_of_same_mesh (p q : ComponentPtr) (L : Int) (hq : q ≠ none)
    (hm : meshOf q = meshOf p) (h : ValidTarget p L) : ValidTarget q L := by
  obtain ⟨h0, h1, _, h3⟩ := h
  refine ⟨h0, ?_, hq, ?_⟩
  · simpa [numLODs, hm] using h1
  · rw [hm]
    exact h3

theorem get_after_apply (p p2 : ComponentPtr) (L : Int) (C : List FColor)
    (hv : ValidTarget p L) (h : ApplyColorBuffer p L C = some p2) :
    GetStaticMeshVertexColors p2 L = some (C, sizeLODData p2) := by
  obtain ⟨_, hp2, hmesh, _, hov, _⟩ := apply_spec p p2 L C h
  have hv2 : ValidTarget p2 L := ValidTarget_of_same_mesh p p2 L hp2 hmesh hv
  rw [get_of_valid p2 L hv2]
  simp [specRead, hov]

theorem exampleComponent_valid : ValidTarget exampleComponent 0 := by
  simp [ValidTarget, exampleComponent, numLODs, meshOf, exampleMesh, UStaticMesh.GetNumLODs]

theorem paintedComponent_valid : ValidTarget paintedComponent 0 := by
  simp [ValidTarget, paintedComponent, numLODs, meshOf, exampleMesh, UStaticMesh.GetNumLODs]

/-- C7: for every component, every level that passes validation and every colour buffer C:
whenever `ApplyColorBuffer` installs C on the level, `GetStaticMeshVertexColors` of the level
then returns exactly C, whatever override buffer or baked colours existed before; and on the
component as `ValidateMeshForPainting` leaves it (the state in which every caller commits)
the commit does install the buffer. -/
theorem C7_commit_then_read (p : ComponentPtr) (L : Int) (C : List FColor)
    (h : ValidTarget p L) :
    (∀ p2, ApplyColorBuffer p L C = some p2 →
      ∃ p3, GetStaticMeshVertexColors p2 L = some (C, p3)) ∧
    (∃ p2 p3, ApplyColorBuffer (ValidateMeshForPainting p L).2.2 L C = some p2 ∧
      GetStaticMeshVertexColors p2 L = some (C, p3)) := by
  constructor
  · intro p2 h2
    exact ⟨sizeLODData p2, get_after_apply p p2 L C h h2⟩
  · rw [validate_of_valid p L h]
    obtain ⟨p2, h2⟩ := apply_total_of_sized p L C h
    exact ⟨p2, sizeLODData p2, h2,
      get_after_apply (sizeLODData p) p2 L C ((ValidTarget_sizeLODData p L).mpr h) h2⟩

/-- Witness of C7: committing four colours on level 0 of a component that already carries
an override buffer. -/
theorem C7_commit_then_read_witness :
    (∀ p2, ApplyColorBuffer paintedComponent 0 exampleColors = some p2 →
      ∃ p3, GetStaticMeshVertexColors p2 0 = some (exampleColors, p3)) ∧
    (∃ p2 p3, ApplyColorBuffer (ValidateMeshForPainting paintedComponent 0).2.2 0
        exampleColors = some p2 ∧
      GetStaticMeshVertexColors p2 0 = some (exampleColors, p3)) :=
  C7_commit_then_read paintedComponent 0 exampleColors paintedComponent_valid

/-- C8: for every component and every level that passes validation,
`GetStaticMeshVertexColors` returns the override buffer of the level when one is installed
(also when baked colours exist); otherwise the baked colours of the level when it has colour
vertex data; otherwise a buffer of length VertexCount(L) in which every entry is white. -/
theorem C8_read_three_tier (p : ComponentPtr) (L : Int) (h : ValidTarget p L) :
    ∃ Colors p2, GetStaticMeshVertexColors p L = some (Colors, p2) ∧
      (∀ Buffer, overrideBuffer p L.toNat = some Buffer → Colors = Buffer) ∧
      (overrideBuffer p L.toNat = none →
        ∀ Baked, bakedColors p L.toNat = some Baked → Colors = Baked) ∧
      (overrideBuffer p L.toNat = none → bakedColors p L.toNat = none →
        Colors.length = vertexCount p L.toNat ∧ ∀ c ∈ Colors, c = FColor.White) := by
  refine ⟨specRead p L.toNat, sizeLODData p, get_of_valid p L h, ?_, ?_, ?_⟩
  · intro Buffer hb
    simp [specRead, hb]
  · intro ho Baked hb
    simp [specRead, ho, hb]
  · intro ho hb
    simp only [specRead, ho, hb, List.length_replicate, true_and]
    intro c hc
    exact List.eq_of_mem_replicate hc

/-- Witness of C8: level 0 of the unpainted example component reads as four white entries,
and level 0 of the painted example component reads as its override buffer. -/
theorem C8_read_three_tier_witness :
    (∃ Colors p2, GetStaticMeshVertexColors exampleComponent 0 = some (Colors, p2) ∧
      Colors.length = 4 ∧ ∀ c ∈ Colors, c = FColor.White) ∧
    (∃ Colors p2, GetStaticMeshVertexColors paintedComponent 0 = some (Colors, p2) ∧
      Colors = [⟨1, 2, 3, 4⟩, ⟨5, 6, 7, 8⟩, ⟨9, 10, 11, 12⟩, ⟨13, 14, 15, 16⟩]) := by
  constructor
  · obtain ⟨Colors, p2, hget, _, _, h3⟩ :=
      C8_read_three_tier exampleComponent 0 exampleComponent_valid
    exact ⟨Colors, p2, hget, h3 rfl rfl⟩
  · obtain ⟨Colors, p2, hget, h1, _, _⟩ :=
      C8_read_three_tier paintedComponent 0 paintedComponent_valid
    exact ⟨Colors, p2, hget, h1 _ rfl⟩

/-! ## Theorems: UndoSnapshot -/

theorem sizeLODData_of_no_mesh (p : ComponentPtr) (h : meshOf p = none) :
    sizeLODData p = p := by
  cases p with
  | none => rfl
  | some c =>
    have hm : c.StaticMesh = none := h
    simp [sizeLODData, hm]

theorem restore_of_not_valid (p : ComponentPtr) (S : FVertexPaintUndoRedoState)
    (h : ¬ ValidTarget p S.LODIndex) :
    RestoreVertexColorsState p S = some (false, sizeLODData p) := by
  simp [RestoreVertexColorsState, validate_of_not_valid p S.LODIndex h]

theorem restore_of_mismatch (p : ComponentPtr) (S : FVertexPaintUndoRedoState)
    (hv : ValidTarget p S.LODIndex)
    (hl : S.ColorData.length ≠ vertexCount p S.LODIndex.toNat) :
    RestoreVertexColorsState p S = some (false, sizeLODData p) := by
  simp [RestoreVertexColorsState, validate_of_valid p S.LODIndex hv, hl]

theorem restore_of_match (p : ComponentPtr) (S : FVertexPaintUndoRedoState)
    (hv : ValidTarget p S.LODIndex)
    (hl : S.ColorData.length = vertexCount p S.LODIndex.toNat) :
    ∃ p2, ApplyColorBuffer (sizeLODData p) S.LODIndex S.ColorData = some p2 ∧
      RestoreVertexColorsState p S = some (true, p2) := by
  obtain ⟨p2, h2⟩ := apply_total_of_sized p S.LODIndex S.ColorData hv
  refine ⟨p2, h2, ?_⟩
  simp [RestoreVertexColorsState, validate_of_valid p S.LODIndex hv, hl, h2]

/-- C9: for every component and every snapshot State: if the component is null, has no
static mesh, State.LODIndex is not one of its levels, or State.ColorData has a length
different from the vertex count of level State.LODIndex, `RestoreVertexColorsState` returns
false and the override buffer of every level of the mesh is unchanged (without a mesh the
whole component is unchanged); otherwise it returns true, the override buffer of
State.LODIndex becomes State.ColorData and the override buffers of all other levels are
unchanged. -/
theorem C9_restore_checks_vertex_count (p : ComponentPtr) (State : FVertexPaintUndoRedoState) :
    (¬ (ValidTarget p State.LODIndex ∧
        State.ColorData.length = vertexCount p State.LODIndex.toNat) →
      ∃ p2, RestoreVertexColorsState p State = some (false, p2) ∧
        (∀ i, i < numLODs p → overrideBuffer p2 i = overrideBuffer p i) ∧
        (meshOf p = none → p2 = p)) ∧
    (ValidTarget p State.LODIndex ∧
        State.ColorData.length = vertexCount p State.LODIndex.toNat →
      ∃ p2, RestoreVertexColorsState p State = some (true, p2) ∧
        overrideBuffer p2 State.LODIndex.toNat = some State.ColorData ∧
        (∀ i, i < numLODs p → i ≠ State.LODIndex.toNat →
          overrideBuffer p2 i = overrideBuffer p i)) := by
  constructor
  · intro h
    refine ⟨sizeLODData p, ?_, fun i hi => overrideBuffer_sizeLODData p i hi,
      sizeLODData_of_no_mesh p⟩
    by_cases hv : ValidTarget p State.LODIndex
    · exact restore_of_mismatch p State hv (fun hl => h ⟨hv, hl⟩)
    · exact restore_of_not_valid p State hv
  · rintro ⟨hv, hl⟩
    obtain ⟨p2, ha, hr⟩ := restore_of_match p State hv hl
    obtain ⟨_, _, _, _, hov, hother⟩ := apply_spec _ p2 _ _ ha
    refine ⟨p2, hr, hov, ?_⟩
    intro i hi hne
    rw [hother i hne]
    exact overrideBuffer_sizeLODData p i hi

/-- Witness of C9: on the painted example component a snapshot of one colour is refused and
a snapshot of four colours is installed. -/
theorem C9_restore_checks_vertex_count_witness :
    (∃ p2, RestoreVertexColorsState paintedComponent ⟨[FColor.White], 0⟩ = some (false, p2) ∧
        (∀ i, i < numLODs paintedComponent →
          overrideBuffer p2 i = overrideBuffer paintedComponent i) ∧
        (meshOf paintedComponent = none → p2 = paintedComponent)) ∧
    (∃ p2, RestoreVertexColorsState paintedComponent ⟨exampleColors, 0⟩ = some (true, p2) ∧
        overrideBuffer p2 (0 : Int).toNat = some exampleColors ∧
        (∀ i, i < numLODs paintedComponent → i ≠ (0 : Int).toNat →
          overrideBuffer p2 i = overrideBuffer paintedComponent i)) :=
  ⟨(C9_restore_checks_vertex_count paintedComponent ⟨[FColor.White], 0⟩).1
      (by simp [vertexCount, meshOf, paintedComponent, exampleMesh,
        FStaticMeshLODResources.GetNumVertices]),
    (C9_restore_checks_vertex_count paintedComponent ⟨exampleColors, 0⟩).2
      ⟨paintedComponent_valid, by
        simp [vertexCount, meshOf, paintedComponent, exampleMesh, exampleColors,
          FStaticMeshLODResources.GetNumVertices]⟩⟩

/-! ## Theorems: the operations keep the target -/

theorem SameTarget.refl (p : ComponentPtr) : SameTarget p p := ⟨Iff.rfl, rfl⟩

theorem SameTarget.trans {p q r : ComponentPtr} (h1 : SameTarget p q) (h2 : SameTarget q r) :
    SameTarget p r := ⟨h2.1.trans h1.1, h2.2.trans h1.2⟩

theorem sameTarget_sizeLODData (p : ComponentPtr) : SameTarget p (sizeLODData p) :=
  ⟨sizeLODData_eq_none p, meshOf_sizeLODData p⟩

theorem sameTarget_apply {p q : ComponentPtr} {L : Int} {C : List FColor}
    (h : ApplyColorBuffer p L C = some q) : SameTarget p q := by
  obtain ⟨hp, hq, hm, _⟩ := apply_spec p q L C h
  exact ⟨⟨fun h => absurd h hq, fun h => absurd h hp⟩, hm⟩

theorem validate_cases (p : ComponentPtr) (L : Int) :
    ∃ b n, ValidateMeshForPainting p L = (b, n, sizeLODData p) := by
  by_cases h : ValidTarget p L
  · exact ⟨true, _, validate_of_valid p L h⟩
  · exact ⟨false, _, validate_of_not_valid p L h⟩

theorem get_total (p : ComponentPtr) (L : Int) :
    ∃ Colors, GetStaticMeshVertexColors p L = some (Colors, sizeLODData p) := by
  by_cases h : ValidTarget p L
  · exact ⟨_, get_of_valid p L h⟩
  · exact ⟨_, get_of_not_valid p L h⟩

theorem sameTarget_paintByIndex {E : Engine} {p q : ComponentPtr} {Color : FLinearColor}
    {Index L : Int} (h : PaintVertexColorByIndex E p Color Index L = some q) :
    SameTarget p q := by
  obtain ⟨b, n, hv⟩ := validate_cases p L
  obtain ⟨cs, hg⟩ := get_total (sizeLODData p) L
  unfold PaintVertexColorByIndex at h
  rw [hv] at h
  cases b
  · simp only [Option.some.injEq] at h
    rw [← h]
    exact sameTarget_sizeLODData p
  · simp only [hg] at h
    split at h
    · simp only [Option.some.injEq] at h
      rw [← h]
      exact sameTarget_sizeLODData p
    · split at h
      · exact absurd h (by simp)
      · exact ((sameTarget_sizeLODData p).trans (sameTarget_sizeLODData _)).trans
          (sameTarget_apply h)

theorem sameTarget_override {p q : ComponentPtr} {L : Int}
    {Infos : List FVertexOverrideColorInfo}
    (h : OverrideStaticMeshVertexColor p L Infos = some q) : SameTarget p q := by
  obtain ⟨b, n, hv⟩ := validate_cases p L
  obtain ⟨cs, hg⟩ := get_total (sizeLODData p) L
  unfold OverrideStaticMeshVertexColor at h
  rw [hv] at h
  cases b
  · simp only [Option.some.injEq] at h
    rw [← h]
    exact sameTarget_sizeLODData p
  · simp only [hg] at h
    exact ((sameTarget_sizeLODData p).trans (sameTarget_sizeLODData _)).trans
      (sameTarget_apply h)

theorem sameTarget_restore {p q : ComponentPtr} {S : FVertexPaintUndoRedoState} {b : Bool}
    (h : RestoreVertexColorsState p S = some (b, q)) : SameTarget p q := by
  obtain ⟨b0, n, hv⟩ := validate_cases p S.LODIndex
  unfold RestoreVertexColorsState at h
  rw [hv] at h
  cases b0
  · simp only [Option.some.injEq, Prod.mk.injEq] at h
    rw [← h.2]
    exact sameTarget_sizeLODData p
  · simp only at h
    split at h
    · simp only [Option.some.injEq, Prod.mk.injEq] at h
      rw [← h.2]
      exact sameTarget_sizeLODData p
    · split at h
      · exact absurd h (by simp)
      · rename_i p2 ha
        simp only [Option.some.injEq, Prod.mk.injEq] at h
        rw [← h.2]
        exact (sameTarget_sizeLODData p).trans (sameTarget_apply ha)

theorem ForRange_invariant {σ : Type} (body : Nat → σ → Option σ) (Inv : σ → Prop)
    (hbody : ∀ i s t, Inv s → body i s = some t → Inv t) :
    ∀ (n i : Nat) (s t : σ), Inv s → ForRange body i n s = some t → Inv t := by
  intro n
  induction n with
  | zero =>
    intro i s t hs h
    simp only [ForRange, Option.some.injEq] at h
    rw [← h]
    exact hs
  | succ k ih =>
    intro i s t hs h
    simp only [ForRange] at h
    cases hb : body i s with
    | none => simp [hb] at h
    | some u =>
      rw [hb] at h
      exact ih (i + 1) u t (hbody i s u hs hb) h

theorem sameTarget_paintRegion {E : Engine} {p q : ComponentPtr} {Shape : EVertexPaintShape}
    {Location Dimensions : FVector} {Rotation : FRotator} {Color : FLinearColor}
    {BlendMode : EVertexColorBlendMode} {BlendStrength Falloff : ℚ} {L : Int} {b : Bool}
    (h : PaintMeshRegion E p Shape Location Dimensions Rotation Color BlendMode BlendStrength
      Falloff L = some (b, q)) : SameTarget p q := by
  obtain ⟨b0, n, hv⟩ := validate_cases p L
  obtain ⟨cs, hg⟩ := get_total (sizeLODData p) L
  have hss := (sameTarget_sizeLODData p).trans (sameTarget_sizeLODData (sizeLODData p))
  unfold PaintMeshRegion at h
  rw [hv] at h
  cases b0
  · simp only [Option.some.injEq, Prod.mk.injEq] at h
    rw [← h.2]
    exact sameTarget_sizeLODData p
  · simp only at h
    cases hsp : sizeLODData p with
    | none =>
      rw [hsp] at h
      exact absurd h (by simp)
    | some c =>
      rw [hsp] at hg hss
      rw [hsp] at h
      simp only [hg] at h
      split at h
      · exact absurd h (by simp)
      · split at h
        · exact absurd h (by simp)
        · split at h
          · exact absurd h (by simp)
          · split at h
            · split at h
              · exact absurd h (by simp)
              · rename_i ha
                simp only [Option.some.injEq, Prod.mk.injEq] at h
                rw [← h.2]
                exact hss.trans (sameTarget_apply ha)
            · simp only [Option.some.injEq, Prod.mk.injEq] at h
              rw [← h.2]
              exact hss

theorem sameTarget_paintWithParameters {E : Engine} {p q : ComponentPtr}
    {Parameters : FVertexPaintParameters} {L : Int} {b : Bool}
    (h : PaintMeshWithParameters E p Parameters L = some (b, q)) : SameTarget p q := by
  unfold PaintMeshWithParameters at h
  split at h
  · split at h
    · exact absurd h (by simp)
    · split at h
      · exact absurd h (by simp)
      · rename_i c _ m _
        have key := ForRange_invariant (PaintMeshWithParameters.body E Parameters)
          (fun s => SameTarget (some c) s.2)
          (by
            intro i s t hs hb
            unfold PaintMeshWithParameters.body at hb
            split at hb
            · exact absurd hb (by simp)
            · rename_i bl p2 hr
              simp only [Option.some.injEq] at hb
              rw [← hb]
              exact hs.trans (sameTarget_paintRegion hr))
          m.GetNumLODs 0 (false, some c) (b, q) (SameTarget.refl _) h
        exact key
  · exact sameTarget_paintRegion h

theorem sameTarget_resetBody {E : Engine} {p q : ComponentPtr} {ResetColor : FLinearColor}
    {LOD : Nat} (h : ResetVertexColors.body E ResetColor LOD p = some q) :
    SameTarget p q := by
  obtain ⟨b0, n, hv⟩ := validate_cases p LOD
  unfold ResetVertexColors.body at h
  rw [hv] at h
  cases b0
  · simp only [Option.some.injEq] at h
    rw [← h]
    exact sameTarget_sizeLODData p
  · simp only at h
    exact (sameTarget_sizeLODData p).trans (sameTarget_apply h)

theorem sameTarget_reset {E : Engine} {p q : ComponentPtr} {ResetColor : FLinearColor}
    {L : Int} (h : ResetVertexColors E p ResetColor L = some q) : SameTarget p q := by
  unfold ResetVertexColors at h
  split at h
  · simp only [Option.some.injEq] at h
    rw [← h]
    exact SameTarget.refl _
  · rename_i c
    split at h
    · simp only [Option.some.injEq] at h
      rw [← h]
      exact SameTarget.refl _
    · rename_i m hm
      have hs : SameTarget (some c)
          (some (c.SetLODDataCount m.GetNumLODs m.GetNumLODs)) := by
        have := sameTarget_sizeLODData (some c)
        simpa [sizeLODData, hm] using this
      simp only at h
      split at h
      · exact ForRange_invariant (ResetVertexColors.body E ResetColor)
          (fun s => SameTarget (some c) s)
          (fun i s t hs hb => hs.trans (sameTarget_resetBody hb))
          m.GetNumLODs 0 _ q hs h
      · split at h
        · exact hs.trans (sameTarget_resetBody h)
        · simp only [Option.some.injEq] at h
          rw [← h]
          exact hs

theorem sameTarget_run {E : Engine} {op : PaintOp} {p q : ComponentPtr}
    (h : op.run E p = some q) : SameTarget p q := by
  cases op with
  | paintByIndex Color Index LODIndex => exact sameTarget_paintByIndex h
  | overrideColors LODIndex Infos => exact sameTarget_override h
  | paintRegion Shape Location Dimensions Rotation Color BlendMode BlendStrength Falloff
      LODIndex =>
    simp only [PaintOp.run, Option.map_eq_some', Prod.exists, exists_eq_right] at h
    obtain ⟨b, hb⟩ := h
    exact sameTarget_paintRegion hb
  | paintWithParameters Parameters LODIndex =>
    simp only [PaintOp.run, Option.map_eq_some', Prod.exists, exists_eq_right] at h
    obtain ⟨b, hb⟩ := h
    exact sameTarget_paintWithParameters hb
  | restore State =>
    simp only [PaintOp.run, Option.map_eq_some', Prod.exists, exists_eq_right] at h
    obtain ⟨b, hb⟩ := h
    exact sameTarget_restore hb
  | reset ResetColor LODIndex => exact sameTarget_reset h

theorem sameTarget_runOps {E : Engine} (ops : List PaintOp) :
    ∀ {p q : ComponentPtr}, runOps E ops p = some q → SameTarget p q := by
  induction ops with
  | nil =>
    intro p q h
    simp only [runOps, Option.some.injEq] at h
    rw [← h]
    exact SameTarget.refl p
  | cons op ops ih =>
    intro p q h
    simp only [runOps] at h
    cases hr : op.run E p with
    | none => simp [hr] at h
    | some r =>
      rw [hr] at h
      exact (sameTarget_run hr).trans (ih h)

/-! ## Theorems: capture and restore -/

theorem vertexCount_of_sameTarget {p q : ComponentPtr} (h : SameTarget p q) (i : Nat) :
    vertexCount q i = vertexCount p i := by
  simp [vertexCount, h.2]

theorem ValidTarget_of_sameTarget {p q : ComponentPtr} (h : SameTarget p q) {L : Int}
    (hv : ValidTarget p L) : ValidTarget q L :=
  ValidTarget_of_same_mesh p q L (fun hq => hv.2.2.1 (h.1.mp hq)) h.2 hv

theorem specRead_sizeLODData (p : ComponentPtr) (i : Nat) (hi : i < numLODs p) :
    specRead (sizeLODData p) i = specRead p i := by
  simp [specRead, overrideBuffer_sizeLODData p i hi, bakedColors, meshOf_sizeLODData,
    vertexCount_sizeLODData]

theorem specRead_length (p : ComponentPtr) (i : Nat) (h : LevelWellFormed p i) :
    (specRead p i).length = vertexCount p i := by
  unfold specRead
  cases ho : overrideBuffer p i with
  | some Buffer => exact h.1 Buffer ho
  | none =>
    cases hb : bakedColors p i with
    | some Baked => exact h.2 Baked hb
    | none => simp

theorem save_of_valid (p : ComponentPtr) (L : Int) (h : ValidTarget p L) :
    SaveVertexColorsState p L = some (⟨specRead p L.toNat, L⟩, sizeLODData p) := by
  have hg := get_of_valid (sizeLODData p) L ((ValidTarget_sizeLODData p L).mpr h)
  rw [specRead_sizeLODData p L.toNat (ValidTarget_toNat_lt p L h), sizeLODData_idem] at hg
  simp [SaveVertexColorsState, validate_of_valid p L h, hg]

/-! ## Theorems: the operations on a valid target, equation by equation -/

theorem get_sized_of_valid (p : ComponentPtr) (L : Int) (h : ValidTarget p L) :
    GetStaticMeshVertexColors (sizeLODData p) L
      = some (specRead p L.toNat, sizeLODData p) := by
  have hg := get_of_valid (sizeLODData p) L ((ValidTarget_sizeLODData p L).mpr h)
  rw [specRead_sizeLODData p L.toNat (ValidTarget_toNat_lt p L h), sizeLODData_idem] at hg
  exact hg

theorem paintByIndex_of_not_valid (E : Engine) (p : ComponentPtr) (Color : FLinearColor)
    (Index L : Int) (h : ¬ ValidTarget p L) :
    PaintVertexColorByIndex E p Color Index L = some (sizeLODData p) := by
  simp [PaintVertexColorByIndex, validate_of_not_valid p L h]

theorem paintByIndex_of_bad_index (E : Engine) (p : ComponentPtr) (Color : FLinearColor)
    (Index L : Int) (h : ValidTarget p L)
    (hi : Index < 0 ∨ Index ≥ (vertexCount p L.toNat : Int)) :
    PaintVertexColorByIndex E p Color Index L = some (sizeLODData p) := by
  simp [PaintVertexColorByIndex, validate_of_valid p L h, hi]

theorem paintByIndex_of_valid (E : Engine) (p : ComponentPtr) (Color : FLinearColor)
    (Index L : Int) (h : ValidTarget p L)
    (hi : ¬ (Index < 0 ∨ Index ≥ (vertexCount p L.toNat : Int))) :
    PaintVertexColorByIndex E p Color Index L
      = (ArrayWrite (specRead p L.toNat) Index (E.ToFColor Color)).bind
          (ApplyColorBuffer (sizeLODData p) L) := by
  simp only [PaintVertexColorByIndex, validate_of_valid p L h, if_neg hi,
    get_sized_of_valid p L h]
  cases ArrayWrite (specRead p L.toNat) Index (E.ToFColor Color) <;> rfl

theorem override_of_not_valid (p : ComponentPtr) (L : Int)
    (Infos : List FVertexOverrideColorInfo) (h : ¬ ValidTarget p L) :
    OverrideStaticMeshVertexColor p L Infos = some (sizeLODData p) := by
  simp [OverrideStaticMeshVertexColor, validate_of_not_valid p L h]

theorem override_of_valid (p : ComponentPtr) (L : Int)
    (Infos : List FVertexOverrideColorInfo) (h : ValidTarget p L) :
    OverrideStaticMeshVertexColor p L Infos
      = ApplyColorBuffer (sizeLODData p) L
          (Infos.foldl OverrideStaticMeshVertexColor.body (specRead p L.toNat)) := by
  simp only [OverrideStaticMeshVertexColor, validate_of_valid p L h,
    get_sized_of_valid p L h]

theorem paintRegion_of_not_valid (E : Engine) (p : ComponentPtr) (Shape : EVertexPaintShape)
    (Location Dimensions : FVector) (Rotation : FRotator) (Color : FLinearColor)
    (BlendMode : EVertexColorBlendMode) (BlendStrength Falloff : ℚ) (L : Int)
    (h : ¬ ValidTarget p L) :
    PaintMeshRegion E p Shape Location Dimensions Rotation Color BlendMode BlendStrength
      Falloff L = some (false, sizeLODData p) := by
  simp [PaintMeshRegion, validate_of_not_valid p L h]

theorem paintRegion_of_valid (E : Engine) (p : ComponentPtr) (c : UStaticMeshComponent)
    (Shape : EVertexPaintShape) (Location Dimensions : FVector) (Rotation : FRotator)
    (Color : FLinearColor) (BlendMode : EVertexColorBlendMode) (BlendStrength Falloff : ℚ)
    (L : Int) (h : ValidTarget p L) (hc : sizeLODData p = some c) :
    PaintMeshRegion E p Shape Location Dimensions Rotation Color BlendMode BlendStrength
      Falloff L
    = match ForRange (PaintMeshRegion.body E (positionsOf p L.toNat) Shape
          (E.InverseTransformLocation c.ComponentTransform Location) Dimensions
          (E.InverseTransformRotation c.ComponentTransform Rotation) Color BlendMode
          BlendStrength (Clamp Falloff (1 / 100) (99 / 100)))
          0 (vertexCount p L.toNat) (specRead p L.toNat, false) with
      | none => none
      | some (VertexColors, bAnyVertexPainted) =>
        if bAnyVertexPainted then
          match ApplyColorBuffer (sizeLODData p) L VertexColors with
          | none => none
          | some q => some (true, q)
        else some (false, sizeLODData p) := by
  have hg := get_sized_of_valid p L h
  have hmesh := meshOf_sizeLODData p
  obtain ⟨h0, h1, hp, hm⟩ := h
  rw [hc] at hg hmesh
  cases hcm : c.StaticMesh with
  | none =>
    rw [← hmesh] at hm
    exact absurd hcm hm
  | some m =>
    have hpm : meshOf p = some m := by
      rw [← hmesh]
      exact hcm
    have hn : L < (m.GetNumLODs : Int) := by
      simpa [numLODs, hpm] using h1
    have hnn : L.toNat < m.LODResources.length := by
      have : L.toNat < m.GetNumLODs := by omega
      exact this
    have hvr : IsValidIndex m.LODResources L = true := by
      rw [IsValidIndex_iff]
      exact ⟨h0, hn⟩
    have hres : ArrayRead m.LODResources L = some (m.LODResources.getD L.toNat default) := by
      simp [ArrayRead, hvr, List.getD_eq_getElem?_getD, List.getElem?_eq_getElem hnn]
    have hpos : positionsOf p L.toNat = (m.LODResources.getD L.toNat default).Positions := by
      simp [positionsOf, hpm]
    simp only [PaintMeshRegion, validate_of_valid p L ⟨h0, h1, hp, hm⟩, hc, hcm, hres, hg,
      hpos]

/-! ## Theorems: the operations keep the buffers well formed and run to completion -/

theorem numLODs_of_sameTarget {p q : ComponentPtr} (h : SameTarget p q) :
    numLODs q = numLODs p := by
  simp [numLODs, h.2]

theorem bakedColors_of_sameTarget {p q : ComponentPtr} (h : SameTarget p q) (i : Nat) :
    bakedColors q i = bakedColors p i := by
  simp [bakedColors, h.2]

theorem wellFormed_sizeLODData (p : ComponentPtr) (h : WellFormed p) :
    WellFormed (sizeLODData p) := by
  intro i hi
  rw [numLODs_sizeLODData] at hi
  have hst := sameTarget_sizeLODData p
  refine ⟨?_, ?_⟩
  · intro Buffer hb
    rw [overrideBuffer_sizeLODData p i hi] at hb
    rw [vertexCount_sizeLODData]
    exact (h i hi).1 Buffer hb
  · intro Baked hb
    rw [bakedColors_of_sameTarget hst] at hb
    rw [vertexCount_sizeLODData]
    exact (h i hi).2 Baked hb

theorem wellFormed_apply {p q : ComponentPtr} {L : Int} {C : List FColor}
    (h : WellFormed p) (ha : ApplyColorBuffer p L C = some q)
    (hlen : C.length = vertexCount p L.toNat) : WellFormed q := by
  have hst := sameTarget_apply ha
  obtain ⟨_, _, _, _, hov, hother⟩ := apply_spec p q L C ha
  intro i hi
  rw [numLODs_of_sameTarget hst] at hi
  refine ⟨?_, ?_⟩
  · intro Buffer hb
    rw [vertexCount_of_sameTarget hst]
    by_cases hil : i = L.toNat
    · subst hil
      rw [hov] at hb
      simp only [Option.some.injEq] at hb
      rw [← hb]
      exact hlen
    · rw [hother i hil] at hb
      exact (h i hi).1 Buffer hb
  · intro Baked hb
    rw [bakedColors_of_sameTarget hst] at hb
    rw [vertexCount_of_sameTarget hst]
    exact (h i hi).2 Baked hb

theorem ForRange_total {σ : Type} (body : Nat → σ → Option σ) (Inv : Nat → σ → Prop)
    (hbody : ∀ i s, Inv i s → ∃ t, body i s = some t ∧ Inv (i + 1) t) :
    ∀ (n i : Nat) (s : σ), Inv i s → ∃ t, ForRange body i n s = some t ∧ Inv (i + n) t := by
  intro n
  induction n with
  | zero =>
    intro i s hs
    exact ⟨s, rfl, hs⟩
  | succ k ih =>
    intro i s hs
    obtain ⟨u, hu, hinv⟩ := hbody i s hs
    obtain ⟨t, ht, htinv⟩ := ih (i + 1) u hinv
    refine ⟨t, ?_, ?_⟩
    · simp only [ForRange, hu, Option.some_bind]
      exact ht
    · have : i + (k + 1) = i + 1 + k := by omega
      rw [this]
      exact htinv

theorem override_body_length (Infos : List FVertexOverrideColorInfo) :
    ∀ VertexColors : List FColor,
      (Infos.foldl OverrideStaticMeshVertexColor.body VertexColors).length
        = VertexColors.length := by
  induction Infos with
  | nil =>
    intro VertexColors
    rfl
  | cons info rest ih =>
    intro VertexColors
    simp only [List.foldl_cons]
    rw [ih]
    unfold OverrideStaticMeshVertexColor.body
    split_ifs
    · exact List.length_set _ _ _
    · rfl

theorem ArrayRead_of_lt {α : Type} (a : List α) (i : Nat) (h : i < a.length) :
    ArrayRead a (i : Int) = some a[i] := by
  have hv : IsValidIndex a (i : Int) = true := by
    rw [IsValidIndex_iff]
    omega
  simp [ArrayRead, hv, List.getElem?_eq_getElem h]

theorem paintRegion_body_total (E : Engine) (VertexPositionBuffer : List FVector)
    (Shape : EVertexPaintShape) (Location Dimensions : FVector) (Rotation : FRotator)
    (Color : FLinearColor) (BlendMode : EVertexColorBlendMode) (BlendStrength Falloff : ℚ)
    (i : Nat) (s : List FColor × Bool) (hi : i < VertexPositionBuffer.length)
    (hs : s.1.length = VertexPositionBuffer.length) :
    ∃ t, PaintMeshRegion.body E VertexPositionBuffer Shape Location Dimensions Rotation Color
      BlendMode BlendStrength Falloff i s = some t ∧ t.1.length = s.1.length := by
  have hi2 : i < s.1.length := by omega
  have hr := ArrayRead_of_lt s.1 i hi2
  simp only [PaintMeshRegion.body, ArrayRead_of_lt VertexPositionBuffer i hi, hr,
    ArrayWrite_of_read s.1 i _ _ hr]
  split_ifs
  · exact ⟨_, rfl, List.length_set _ _ _⟩
  · exact ⟨_, rfl, List.length_set _ _ _⟩
  · exact ⟨_, rfl, rfl⟩

theorem paintRegion_loop_total (E : Engine) (VertexPositionBuffer : List FVector)
    (Shape : EVertexPaintShape) (Location Dimensions : FVector) (Rotation : FRotator)
    (Color : FLinearColor) (BlendMode : EVertexColorBlendMode) (BlendStrength Falloff : ℚ)
    (VertexColors : List FColor) (hs : VertexColors.length = VertexPositionBuffer.length) :
    ∃ t, ForRange (PaintMeshRegion.body E VertexPositionBuffer Shape Location Dimensions
        Rotation Color BlendMode BlendStrength Falloff) 0 VertexPositionBuffer.length
        (VertexColors, false) = some t ∧ t.1.length = VertexColors.length := by
  have key : ∀ (n i : Nat) (s : List FColor × Bool), i + n ≤ VertexPositionBuffer.length →
      s.1.length = VertexPositionBuffer.length →
      ∃ t, ForRange (PaintMeshRegion.body E VertexPositionBuffer Shape Location Dimensions
        Rotation Color BlendMode BlendStrength Falloff) i n s = some t ∧
        t.1.length = s.1.length := by
    intro n
    induction n with
    | zero =>
      intro i s _ _
      exact ⟨s, rfl, rfl⟩
    | succ k ih =>
      intro i s hik hlen
      obtain ⟨u, hu, hul⟩ := paintRegion_body_total E VertexPositionBuffer Shape Location
        Dimensions Rotation Color BlendMode BlendStrength Falloff i s (by omega) hlen
      obtain ⟨t, ht, htl⟩ := ih (i + 1) u (by omega) (by rw [hul]; exact hlen)
      refine ⟨t, ?_, by rw [htl, hul]⟩
      simp only [ForRange, hu, Option.some_bind]
      exact ht
  exact key VertexPositionBuffer.length 0 (VertexColors, false) (by omega) hs

theorem vertexCount_eq_positions (p : ComponentPtr) (i : Nat) :
    vertexCount p i = (positionsOf p i).length := by
  unfold vertexCount positionsOf
  cases meshOf p <;> rfl

theorem apply_sized_wellFormed (p : ComponentPtr) (L : Int) (C : List FColor)
    (hwf : WellFormed p) (hv : ValidTarget p L) (hlen : C.length = vertexCount p L.toNat) :
    ∃ q, ApplyColorBuffer (sizeLODData p) L C = some q ∧ WellFormed q := by
  obtain ⟨q, hq⟩ := apply_total_of_sized p L C hv
  refine ⟨q, hq, wellFormed_apply (wellFormed_sizeLODData p hwf) hq ?_⟩
  rw [vertexCount_sizeLODData]
  exact hlen

theorem specRead_length_of_wellFormed (p : ComponentPtr) (L : Int) (hwf : WellFormed p)
    (hv : ValidTarget p L) : (specRead p L.toNat).length = vertexCount p L.toNat :=
  specRead_length p L.toNat (hwf L.toNat (ValidTarget_toNat_lt p L hv))

theorem paintByIndex_total (E : Engine) (p : ComponentPtr) (Color : FLinearColor)
    (Index L : Int) (hwf : WellFormed p) :
    ∃ q, PaintVertexColorByIndex E p Color Index L = some q ∧ WellFormed q := by
  by_cases hv : ValidTarget p L
  · by_cases hi : Index < 0 ∨ Index ≥ (vertexCount p L.toNat : Int)
    · exact ⟨_, paintByIndex_of_bad_index E p Color Index L hv hi,
        wellFormed_sizeLODData p hwf⟩
    · have hlen := specRead_length_of_wellFormed p L hwf hv
      have hvi : IsValidIndex (specRead p L.toNat) Index = true := by
        rw [IsValidIndex_iff, hlen]
        omega
      obtain ⟨q, hq, hqwf⟩ := apply_sized_wellFormed p L
        ((specRead p L.toNat).set Index.toNat (E.ToFColor Color)) hwf hv
        (by rw [List.length_set]; exact hlen)
      refine ⟨q, ?_, hqwf⟩
      rw [paintByIndex_of_valid E p Color Index L hv hi]
      simp only [ArrayWrite, hvi, if_true, Option.some_bind]
      exact hq
  · exact ⟨_, paintByIndex_of_not_valid E p Color Index L hv, wellFormed_sizeLODData p hwf⟩

theorem override_total (p : ComponentPtr) (L : Int) (Infos : List FVertexOverrideColorInfo)
    (hwf : WellFormed p) :
    ∃ q, OverrideStaticMeshVertexColor p L Infos = some q ∧ WellFormed q := by
  by_cases hv : ValidTarget p L
  · obtain ⟨q, hq, hqwf⟩ := apply_sized_wellFormed p L
      (Infos.foldl OverrideStaticMeshVertexColor.body (specRead p L.toNat)) hwf hv
      (by rw [override_body_length]; exact specRead_length_of_wellFormed p L hwf hv)
    exact ⟨q, by rw [override_of_valid p L Infos hv]; exact hq, hqwf⟩
  · exact ⟨_, override_of_not_valid p L Infos hv, wellFormed_sizeLODData p hwf⟩

theorem paintRegion_total (E : Engine) (p : ComponentPtr) (Shape : EVertexPaintShape)
    (Location Dimensions : FVector) (Rotation : FRotator) (Color : FLinearColor)
    (BlendMode : EVertexColorBlendMode) (BlendStrength Falloff : ℚ) (L : Int)
    (hwf : WellFormed p) :
    ∃ b q, PaintMeshRegion E p Shape Location Dimensions Rotation Color BlendMode
      BlendStrength Falloff L = some (b, q) ∧ WellFormed q := by
  by_cases hv : ValidTarget p L
  · cases hc : sizeLODData p with
    | none => exact absurd ((sizeLODData_eq_none p).mp hc) hv.2.2.1
    | some c =>
      have hlen := specRead_length_of_wellFormed p L hwf hv
      rw [vertexCount_eq_positions] at hlen
      obtain ⟨t, ht, htl⟩ := paintRegion_loop_total E (positionsOf p L.toNat) Shape
        (E.InverseTransformLocation c.ComponentTransform Location) Dimensions
        (E.InverseTransformRotation c.ComponentTransform Rotation) Color BlendMode
        BlendStrength (Clamp Falloff (1 / 100) (99 / 100)) (specRead p L.toNat) hlen
      obtain ⟨cs, bAny⟩ := t
      obtain ⟨q, hq, hqwf⟩ := apply_sized_wellFormed p L cs hwf hv
        (by rw [vertexCount_eq_positions, ← hlen]; exact htl)
      rw [paintRegion_of_valid E p c Shape Location Dimensions Rotation Color BlendMode
        BlendStrength Falloff L hv hc, vertexCount_eq_positions, ht]
      cases bAny with
      | true =>
        refine ⟨true, q, ?_, hqwf⟩
        simp [hq]
      | false =>
        refine ⟨false, sizeLODData p, ?_, wellFormed_sizeLODData p hwf⟩
        simp
  · exact ⟨false, _, paintRegion_of_not_valid E p Shape Location Dimensions Rotation Color
      BlendMode BlendStrength Falloff L hv, wellFormed_sizeLODData p hwf⟩

theorem restore_total (p : ComponentPtr) (S : FVertexPaintUndoRedoState)
    (hwf : WellFormed p) :
    ∃ b q, RestoreVertexColorsState p S = some (b, q) ∧ WellFormed q := by
  by_cases hv : ValidTarget p S.LODIndex
  · by_cases hl : S.ColorData.length = vertexCount p S.LODIndex.toNat
    · obtain ⟨q, ha, hr⟩ := restore_of_match p S hv hl
      refine ⟨true, q, hr, wellFormed_apply (wellFormed_sizeLODData p hwf) ha ?_⟩
      rw [vertexCount_sizeLODData]
      exact hl
    · exact ⟨false, _, restore_of_mismatch p S hv hl, wellFormed_sizeLODData p hwf⟩
  · exact ⟨false, _, restore_of_not_valid p S hv, wellFormed_sizeLODData p hwf⟩

theorem resetBody_total (E : Engine) (p : ComponentPtr) (ResetColor : FLinearColor)
    (LOD : Nat) (hwf : WellFormed p) :
    ∃ q, ResetVertexColors.body E ResetColor LOD p = some q ∧ WellFormed q := by
  by_cases hv : ValidTarget p LOD
  · obtain ⟨q, hq, hqwf⟩ := apply_sized_wellFormed p LOD
      (List.replicate (vertexCount p (LOD : Int).toNat) (E.ToFColor ResetColor)) hwf hv
      (by simp)
    refine ⟨q, ?_, hqwf⟩
    simp only [ResetVertexColors.body, validate_of_valid p LOD hv]
    exact hq
  · refine ⟨sizeLODData p, ?_, wellFormed_sizeLODData p hwf⟩
    simp only [ResetVertexColors.body, validate_of_not_valid p LOD hv]

theorem reset_total (E : Engine) (p : ComponentPtr) (ResetColor : FLinearColor) (L : Int)
    (hwf : WellFormed p) :
    ∃ q, ResetVertexColors E p ResetColor L = some q ∧ WellFormed q := by
  cases p with
  | none => exact ⟨none, rfl, hwf⟩
  | some c =>
    cases hm : c.StaticMesh with
    | none => exact ⟨some c, by simp [ResetVertexColors, hm], hwf⟩
    | some m =>
      have hs : sizeLODData (some c)
          = some (c.SetLODDataCount m.GetNumLODs m.GetNumLODs) := by
        simp [sizeLODData, hm]
      have hswf := wellFormed_sizeLODData (some c) hwf
      rw [hs] at hswf
      simp only [ResetVertexColors, hm]
      split_ifs with h1 h2
      · obtain ⟨t, ht, htwf⟩ := ForRange_total (ResetVertexColors.body E ResetColor)
          (fun _ s => WellFormed s)
          (fun i s hs => resetBody_total E s ResetColor i hs) m.GetNumLODs 0 _ hswf
        exact ⟨t, ht, htwf⟩
      · exact resetBody_total E _ ResetColor L.toNat hswf
      · exact ⟨_, rfl, hswf⟩

theorem paintWithParameters_total (E : Engine) (p : ComponentPtr)
    (Parameters : FVertexPaintParameters) (L : Int) (hwf : WellFormed p)
    (hp : p ≠ none) (hm : meshOf p ≠ none) :
    ∃ b q, PaintMeshWithParameters E p Parameters L = some (b, q) ∧ WellFormed q := by
  unfold PaintMeshWithParameters
  split_ifs with hall
  · cases p with
    | none => exact absurd rfl hp
    | some c =>
      cases hcm : c.StaticMesh with
      | none => exact absurd hcm hm
      | some m =>
        simp only [hcm]
        obtain ⟨t, ht, htwf⟩ := ForRange_total (PaintMeshWithParameters.body E Parameters)
          (fun _ s => WellFormed s.2)
          (by
            intro i s hs
            obtain ⟨b, q, hq, hqwf⟩ := paintRegion_total E s.2 Parameters.PaintShape
              Parameters.Location Parameters.Dimensions Parameters.Rotation Parameters.Color
              Parameters.BlendMode Parameters.BlendStrength Parameters.Falloff i hs
            exact ⟨(s.1 || b, q), by simp [PaintMeshWithParameters.body, hq], hqwf⟩)
          m.GetNumLODs 0 (false, some c) hwf
        exact ⟨t.1, t.2, ht, htwf⟩
  · exact paintRegion_total E p Parameters.PaintShape Parameters.Location
      Parameters.Dimensions Parameters.Rotation Parameters.Color Parameters.BlendMode
      Parameters.BlendStrength Parameters.Falloff L hwf

theorem run_total (E : Engine) (op : PaintOp) (p : ComponentPtr) (hwf : WellFormed p)
    (hp : p ≠ none) (hm : meshOf p ≠ none) :
    ∃ q, op.run E p = some q ∧ WellFormed q := by
  cases op with
  | paintByIndex Color Index LODIndex => exact paintByIndex_total E p Color Index LODIndex hwf
  | overrideColors LODIndex Infos => exact override_total p LODIndex Infos hwf
  | paintRegion Shape Location Dimensions Rotation Color BlendMode BlendStrength Falloff
      LODIndex =>
    obtain ⟨b, q, hq, hqwf⟩ := paintRegion_total E p Shape Location Dimensions Rotation Color
      BlendMode BlendStrength Falloff LODIndex hwf
    exact ⟨q, by simp [PaintOp.run, hq], hqwf⟩
  | paintWithParameters Parameters LODIndex =>
    obtain ⟨b, q, hq, hqwf⟩ := paintWithParameters_total E p Parameters LODIndex hwf hp hm
    exact ⟨q, by simp [PaintOp.run, hq], hqwf⟩
  | restore State =>
    obtain ⟨b, q, hq, hqwf⟩ := restore_total p State hwf
    exact ⟨q, by simp [PaintOp.run, hq], hqwf⟩
  | reset ResetColor LODIndex => exact reset_total E p ResetColor LODIndex hwf

theorem runOps_total (E : Engine) (ops : List PaintOp) :
    ∀ (p : ComponentPtr), WellFormed p → p ≠ none → meshOf p ≠ none →
      ∃ q, runOps E ops p = some q ∧ WellFormed q := by
  induction ops with
  | nil =>
    intro p hwf _ _
    exact ⟨p, rfl, hwf⟩
  | cons op ops ih =>
    intro p hwf hp hm
    obtain ⟨r, hr, hrwf⟩ := run_total E op p hwf hp hm
    have hst := sameTarget_run hr
    obtain ⟨q, hq, hqwf⟩ := ih r hrwf (fun h => hp (hst.1.mp h)) (by rw [hst.2]; exact hm)
    refine ⟨q, ?_, hqwf⟩
    simp only [runOps, hr, Option.some_bind]
    exact hq

/-! ## Theorems: the capture and restore round trip -/

/-- C10: for every engine, every component and every level L that passes validation and
whose buffers hold one colour per vertex: `SaveVertexColorsState` returns a snapshot S whose
ColorData is the buffer that `GetStaticMeshVertexColors` returns at capture time; after any
sequence of paint, override, restore or reset operations of the library that has run to
completion, the vertex count of L is unchanged, `RestoreVertexColorsState` with S returns
true and `GetStaticMeshVertexColors` of L then returns S.ColorData; and every such sequence
does run to completion when all levels of the component are well formed. -/
theorem C10_capture_then_restore (E : Engine) (p : ComponentPtr) (L : Int)
    (hv : ValidTarget p L) (hwf : LevelWellFormed p L.toNat) :
    ∃ S p0, SaveVertexColorsState p L = some (S, p0) ∧
      GetStaticMeshVertexColors p L = some (S.ColorData, p0) ∧
      (∀ (ops : List PaintOp) (p1 : ComponentPtr), runOps E ops p0 = some p1 →
        vertexCount p1 L.toNat = vertexCount p L.toNat ∧
        ∃ p2 p3, RestoreVertexColorsState p1 S = some (true, p2) ∧
          GetStaticMeshVertexColors p2 L = some (S.ColorData, p3)) ∧
      (WellFormed p → ∀ ops : List PaintOp, ∃ p1, runOps E ops p0 = some p1) := by
  refine ⟨⟨specRead p L.toNat, L⟩, sizeLODData p, save_of_valid p L hv, get_of_valid p L hv,
    ?_, ?_⟩
  · intro ops p1 hops
    have hst : SameTarget p p1 :=
      (sameTarget_sizeLODData p).trans (sameTarget_runOps ops hops)
    have hv1 : ValidTarget p1 L := ValidTarget_of_sameTarget hst hv
    have hvc := vertexCount_of_sameTarget hst L.toNat
    have hlen : (specRead p L.toNat).length = vertexCount p1 L.toNat := by
      rw [hvc]
      exact specRead_length p L.toNat hwf
    obtain ⟨p2, ha, hr⟩ := restore_of_match p1 ⟨specRead p L.toNat, L⟩ hv1 hlen
    exact ⟨hvc, p2, sizeLODData p2, hr,
      get_after_apply (sizeLODData p1) p2 L _ ((ValidTarget_sizeLODData p1 L).mpr hv1) ha⟩
  · intro hall ops
    have hst := sameTarget_sizeLODData p
    obtain ⟨p1, h1, _⟩ := runOps_total E ops (sizeLODData p) (wellFormed_sizeLODData p hall)
      (fun h => hv.2.2.1 (hst.1.mp h)) (by rw [hst.2]; exact hv.2.2.2)
    exact ⟨p1, h1⟩

theorem paintedComponent_wellFormed : LevelWellFormed paintedComponent (0 : Int).toNat := by
  constructor
  · intro Buffer hb
    simp only [overrideBuffer, paintedComponent, Int.toNat_zero, List.getElem?_cons_zero,
      Option.some.injEq] at hb
    rw [← hb]
    rfl
  · intro Baked hb
    simp [bakedColors, meshOf, paintedComponent, exampleMesh] at hb

theorem paintedComponent_allWellFormed : WellFormed paintedComponent := by
  intro i hi
  have h0 : i = (0 : Int).toNat := by
    simp only [numLODs, meshOf, paintedComponent, exampleMesh, UStaticMesh.GetNumLODs,
      List.length_singleton] at hi
    simp only [Int.toNat_zero]
    omega
  rw [h0]
  exact paintedComponent_wellFormed

/-- Witness of C10: the painted example component, level 0, for the concrete engine. -/
theorem C10_capture_then_restore_witness :
    ∃ S p0, SaveVertexColorsState paintedComponent 0 = some (S, p0) ∧
      GetStaticMeshVertexColors paintedComponent 0 = some (S.ColorData, p0) ∧
      (∀ (ops : List PaintOp) (p1 : ComponentPtr), runOps simpleEngine ops p0 = some p1 →
        vertexCount p1 (0 : Int).toNat = vertexCount paintedComponent (0 : Int).toNat ∧
        ∃ p2 p3, RestoreVertexColorsState p1 S = some (true, p2) ∧
          GetStaticMeshVertexColors p2 0 = some (S.ColorData, p3)) ∧
      (∀ ops : List PaintOp, ∃ p1, runOps simpleEngine ops p0 = some p1) := by
  obtain ⟨S, p0, h1, h2, h3, h4⟩ := C10_capture_then_restore simpleEngine paintedComponent 0
    paintedComponent_valid paintedComponent_wellFormed
  exact ⟨S, p0, h1, h2, h3, h4 paintedComponent_allWellFormed⟩

/-! ## Theorems: single-vertex paint -/

/-- C11: for every engine, every component and level that pass validation and whose buffers
hold one colour per vertex, with B the buffer read before the call: if Index < 0 or
Index >= vertex count, `PaintVertexColorByIndex` returns without a commit, the override
buffer of every level is unchanged and the buffer read afterwards is B; if
0 <= Index < vertex count, the buffer read afterwards is B with entry Index replaced by
`Color.ToFColor`, of the same length and with every other entry unchanged. -/
theorem C11_paint_vertex_by_index (E : Engine) (p : ComponentPtr) (Color : FLinearColor)
    (Index L : Int) (hv : ValidTarget p L) (hwf : LevelWellFormed p L.toNat) :
    ∃ B p0, GetStaticMeshVertexColors p L = some (B, p0) ∧
      B.length = vertexCount p L.toNat ∧
      ((Index < 0 ∨ Index ≥ (vertexCount p L.toNat : Int)) →
        ∃ q q2, PaintVertexColorByIndex E p Color Index L = some q ∧
          (∀ i, i < numLODs p → overrideBuffer q i = overrideBuffer p i) ∧
          GetStaticMeshVertexColors q L = some (B, q2)) ∧
      ((0 ≤ Index ∧ Index < (vertexCount p L.toNat : Int)) →
        ∃ q q2 C, PaintVertexColorByIndex E p Color Index L = some q ∧
          GetStaticMeshVertexColors q L = some (C, q2) ∧
          C = B.set Index.toNat (E.ToFColor Color) ∧
          C.length = B.length ∧
          C[Index.toNat]? = some (E.ToFColor Color) ∧
          (∀ j, j ≠ Index.toNat → C[j]? = B[j]?)) := by
  have hlen := specRead_length p L.toNat hwf
  refine ⟨specRead p L.toNat, sizeLODData p, get_of_valid p L hv, hlen, ?_, ?_⟩
  · intro hbad
    refine ⟨sizeLODData p, sizeLODData p, paintByIndex_of_bad_index E p Color Index L hv hbad,
      fun i hi => overrideBuffer_sizeLODData p i hi, get_sized_of_valid p L hv⟩
  · rintro ⟨h0, h1⟩
    have hi : ¬ (Index < 0 ∨ Index ≥ (vertexCount p L.toNat : Int)) := by omega
    have hvi : IsValidIndex (specRead p L.toNat) Index = true := by
      rw [IsValidIndex_iff, hlen]
      exact ⟨h0, h1⟩
    have hlt : Index.toNat < (specRead p L.toNat).length := by
      rw [hlen]
      omega
    obtain ⟨q, hq⟩ := apply_total_of_sized p L
      ((specRead p L.toNat).set Index.toNat (E.ToFColor Color)) hv
    refine ⟨q, sizeLODData q, _, ?_,
      get_after_apply (sizeLODData p) q L _ ((ValidTarget_sizeLODData p L).mpr hv) hq,
      rfl, List.length_set _ _ _, List.getElem?_set_self hlt, ?_⟩
    · rw [paintByIndex_of_valid E p Color Index L hv hi]
      simp only [ArrayWrite, hvi, if_true, Option.some_bind]
      exact hq
    · intro j hj
      exact List.getElem?_set_ne (Ne.symm hj)

/-- Witness of C11: painting vertex 2 of the painted example component, and a rejected
paint of vertex 4. -/
theorem C11_paint_vertex_by_index_witness :
    ∃ B p0, GetStaticMeshVertexColors paintedComponent 0 = some (B, p0) ∧
      B.length = vertexCount paintedComponent (0 : Int).toNat ∧
      (∃ q q2, PaintVertexColorByIndex simpleEngine paintedComponent ⟨1, 0, 0, 1⟩ 4 0 = some q ∧
          (∀ i, i < numLODs paintedComponent →
            overrideBuffer q i = overrideBuffer paintedComponent i) ∧
          GetStaticMeshVertexColors q 0 = some (B, q2)) ∧
      (∃ q q2 C, PaintVertexColorByIndex simpleEngine paintedComponent ⟨1, 0, 0, 1⟩ 2 0
            = some q ∧
          GetStaticMeshVertexColors q 0 = some (C, q2) ∧
          C = B.set (2 : Int).toNat (simpleEngine.ToFColor ⟨1, 0, 0, 1⟩) ∧
          C.length = B.length ∧
          C[(2 : Int).toNat]? = some (simpleEngine.ToFColor ⟨1, 0, 0, 1⟩) ∧
          (∀ j, j ≠ (2 : Int).toNat → C[j]? = B[j]?)) := by
  have hvc : vertexCount paintedComponent (0 : Int).toNat = 4 := rfl
  obtain ⟨B, p0, h1, h2, h3, _⟩ := C11_paint_vertex_by_index simpleEngine paintedComponent
    ⟨1, 0, 0, 1⟩ 4 0 paintedComponent_valid paintedComponent_wellFormed
  obtain ⟨B2, p02, h1b, _, _, h4⟩ := C11_paint_vertex_by_index simpleEngine paintedComponent
    ⟨1, 0, 0, 1⟩ 2 0 paintedComponent_valid paintedComponent_wellFormed
  have hB : B2 = B := by
    rw [h1] at h1b
    simp only [Option.some.injEq, Prod.mk.injEq] at h1b
    exact h1b.1.symm
  subst hB
  exact ⟨B2, p0, h1, h2, h3 (Or.inr (by rw [hvc]; norm_num)),
    h4 ⟨by norm_num, by rw [hvc]; norm_num⟩⟩

/-! ## Theorems: batch override -/

theorem specOverrideAt_cons_eq (b : FColor) (e : FVertexOverrideColorInfo)
    (rest : List FVertexOverrideColorInfo) (i : Nat) (h : e.VertexIndex = (i : Int)) :
    specOverrideAt b (e :: rest) i = specOverrideAt e.OverrideColor rest i := by
  unfold specOverrideAt
  have hd : decide (e.VertexIndex = (i : Int)) = true := by simp [h]
  rw [List.filter_cons, if_pos hd, List.getLast?_cons]
  cases (List.filter (fun e => decide (e.VertexIndex = (i : Int))) rest).getLast? <;> rfl

theorem specOverrideAt_cons_ne (b : FColor) (e : FVertexOverrideColorInfo)
    (rest : List FVertexOverrideColorInfo) (i : Nat) (h : e.VertexIndex ≠ (i : Int)) :
    specOverrideAt b (e :: rest) i = specOverrideAt b rest i := by
  unfold specOverrideAt
  have hd : ¬ decide (e.VertexIndex = (i : Int)) = true := by simp [h]
  rw [List.filter_cons, if_neg hd]

theorem override_body_getElem? (e : FVertexOverrideColorInfo) (B : List FColor) (i : Nat) :
    (OverrideStaticMeshVertexColor.body B e)[i]?
      = if e.VertexIndex = (i : Int) then (B[i]?).map (fun _ => e.OverrideColor)
        else B[i]? := by
  unfold OverrideStaticMeshVertexColor.body
  by_cases hv : IsValidIndex B e.VertexIndex = true
  · have hv2 := (IsValidIndex_iff _ _).mp hv
    rw [if_pos hv, List.getElem?_set]
    by_cases hi : e.VertexIndex = (i : Int)
    · have hn : e.VertexIndex.toNat = i := by omega
      have hlt : i < B.length := by omega
      simp [hi, hlt, List.getElem?_eq_getElem hlt]
    · have hn : ¬ e.VertexIndex.toNat = i := by omega
      simp [hi, hn]
  · rw [if_neg hv]
    by_cases hi : e.VertexIndex = (i : Int)
    · have hnl : B.length ≤ i := by
        by_contra hcon
        apply hv
        rw [IsValidIndex_iff]
        omega
      simp [hi, List.getElem?_eq_none hnl]
    · simp [hi]

theorem override_fold_getElem? (Overrides : List FVertexOverrideColorInfo) :
    ∀ (B : List FColor) (i : Nat),
      (Overrides.foldl OverrideStaticMeshVertexColor.body B)[i]?
        = (B[i]?).map (fun b => specOverrideAt b Overrides i) := by
  induction Overrides with
  | nil =>
    intro B i
    cases h : B[i]? <;> simp [specOverrideAt, h]
  | cons e rest ih =>
    intro B i
    rw [List.foldl_cons, ih, override_body_getElem?]
    by_cases hi : e.VertexIndex = (i : Int)
    · rw [if_pos hi]
      cases h : B[i]? with
      | none => rfl
      | some b => simp [specOverrideAt_cons_eq b e rest i hi]
    · rw [if_neg hi]
      cases h : B[i]? with
      | none => rfl
      | some b => simp [specOverrideAt_cons_ne b e rest i hi]

theorem specOverrideAt_filter_valid (b : FColor) (Overrides : List FVertexOverrideColorInfo)
    (B : List FColor) (i : Nat) (hi : i < B.length) :
    specOverrideAt b (Overrides.filter (fun e => IsValidIndex B e.VertexIndex)) i
      = specOverrideAt b Overrides i := by
  unfold specOverrideAt
  rw [List.filter_filter]
  have hc : List.filter (fun a => decide (a.VertexIndex = (i : Int)) &&
      IsValidIndex B a.VertexIndex) Overrides
      = List.filter (fun e => decide (e.VertexIndex = (i : Int))) Overrides := by
    apply List.filter_congr
    intro x _
    by_cases hx : x.VertexIndex = (i : Int)
    · have hv : IsValidIndex B x.VertexIndex = true := by
        rw [IsValidIndex_iff]
        omega
      rw [hx] at hv
      simp [hx, hv]
    · simp [hx]
  rw [hc]

theorem override_read_after (p : ComponentPtr) (L : Int)
    (Overrides : List FVertexOverrideColorInfo) (hv : ValidTarget p L) :
    ∃ q, OverrideStaticMeshVertexColor p L Overrides = some q ∧ ValidTarget q L ∧
      GetStaticMeshVertexColors q L
        = some (Overrides.foldl OverrideStaticMeshVertexColor.body (specRead p L.toNat),
            sizeLODData q) ∧
      specRead q L.toNat
        = Overrides.foldl OverrideStaticMeshVertexColor.body (specRead p L.toNat) := by
  obtain ⟨q, hq⟩ := apply_total_of_sized p L
    (Overrides.foldl OverrideStaticMeshVertexColor.body (specRead p L.toNat)) hv
  have hst : SameTarget p q := (sameTarget_sizeLODData p).trans (sameTarget_apply hq)
  have hvq : ValidTarget q L := ValidTarget_of_sameTarget hst hv
  have hg := get_after_apply (sizeLODData p) q L _ ((ValidTarget_sizeLODData p L).mpr hv) hq
  refine ⟨q, by rw [override_of_valid p L Overrides hv]; exact hq, hvq, hg, ?_⟩
  have hg2 := get_of_valid q L hvq
  rw [hg] at hg2
  simp only [Option.some.injEq, Prod.mk.injEq] at hg2
  exact hg2.1.symm

/-- C12: for every component and level that pass validation, with B the buffer read before
the call and O the override list: the buffer read after `OverrideStaticMeshVertexColor` has
the length of B and holds at each index i the OverrideColor of the last entry of O whose
VertexIndex is i, or B[i] if no entry targets i; the entries whose VertexIndex is not a valid
index of B can be dropped from O without changing the result (B has one entry per vertex
when the level is well formed); and after a second call with a list O2 each index holds the
last entry of O2 that targets it, else the last entry of O that targets it, else B[i]. -/
theorem C12_override_last_entry_wins (p : ComponentPtr) (L : Int)
    (O O2 : List FVertexOverrideColorInfo) (hv : ValidTarget p L) :
    ∃ B p0 q q2 C, GetStaticMeshVertexColors p L = some (B, p0) ∧
      OverrideStaticMeshVertexColor p L O = some q ∧
      GetStaticMeshVertexColors q L = some (C, q2) ∧
      C.length = B.length ∧
      (∀ i, C[i]? = (B[i]?).map (fun b => specOverrideAt b O i)) ∧
      (∀ (b : FColor) (i : Nat), i < B.length →
        specOverrideAt b (O.filter (fun e => IsValidIndex B e.VertexIndex)) i
          = specOverrideAt b O i) ∧
      (LevelWellFormed p L.toNat → B.length = vertexCount p L.toNat) ∧
      (∃ q3 q4 C2, OverrideStaticMeshVertexColor q L O2 = some q3 ∧
        GetStaticMeshVertexColors q3 L = some (C2, q4) ∧
        C2.length = B.length ∧
        ∀ i, C2[i]? = (B[i]?).map (fun b => specOverrideAt (specOverrideAt b O i) O2 i)) := by
  obtain ⟨q, hq, hvq, hgq, hsq⟩ := override_read_after p L O hv
  obtain ⟨q3, hq3, _, hgq3, _⟩ := override_read_after q L O2 hvq
  rw [hsq] at hgq3
  refine ⟨specRead p L.toNat, sizeLODData p, q, sizeLODData q, _, get_of_valid p L hv, hq, hgq,
    override_body_length O _, fun i => override_fold_getElem? O _ i,
    fun b i hi => specOverrideAt_filter_valid b O _ i hi,
    fun hwf => specRead_length p L.toNat hwf, q3, sizeLODData q3, _, hq3, hgq3, ?_, ?_⟩
  · rw [override_body_length, override_body_length]
  · intro i
    rw [override_fold_getElem?, override_fold_getElem?, Option.map_map]
    rfl

/-- Witness of C12: two override calls on level 0 of the painted example component; the
last entry for vertex 1 wins in the first list and the second list wins on vertex 1. -/
theorem C12_override_last_entry_wins_witness :
    (∃ B p0 q q2 C, GetStaticMeshVertexColors paintedComponent 0 = some (B, p0) ∧
      OverrideStaticMeshVertexColor paintedComponent 0 exampleOverrides = some q ∧
      GetStaticMeshVertexColors q 0 = some (C, q2) ∧
      C.length = B.length ∧
      (∀ i, C[i]? = (B[i]?).map (fun b => specOverrideAt b exampleOverrides i)) ∧
      B.length = vertexCount paintedComponent (0 : Int).toNat ∧
      (∃ q3 q4 C2, OverrideStaticMeshVertexColor q 0 exampleOverrides2 = some q3 ∧
        GetStaticMeshVertexColors q3 0 = some (C2, q4) ∧
        C2.length = B.length ∧
        ∀ i, C2[i]? = (B[i]?).map
          (fun b => specOverrideAt (specOverrideAt b exampleOverrides i) exampleOverrides2 i))) ∧
    specOverrideAt ⟨5, 6, 7, 8⟩ exampleOverrides 1 = ⟨30, 30, 30, 30⟩ ∧
    specOverrideAt ⟨1, 2, 3, 4⟩ exampleOverrides 0 = ⟨1, 2, 3, 4⟩ ∧
    specOverrideAt (specOverrideAt ⟨5, 6, 7, 8⟩ exampleOverrides 1) exampleOverrides2 1
      = ⟨40, 40, 40, 40⟩ := by
  obtain ⟨B, p0, q, q2, C, h1, h2, h3, h4, h5, _, h7, h8⟩ :=
    C12_override_last_entry_wins paintedComponent 0 exampleOverrides exampleOverrides2
      paintedComponent_valid
  exact ⟨⟨B, p0, q, q2, C, h1, h2, h3, h4, h5, h7 paintedComponent_wellFormed, h8⟩,
    by decide, by decide, by decide⟩

/-! ## Theorems: region paint -/

theorem ForRange_total_below {σ : Type} (body : Nat → σ → Option σ) (N : Nat)
    (Inv : Nat → σ → Prop)
    (hbody : ∀ i s, i < N → Inv i s → ∃ t, body i s = some t ∧ Inv (i + 1) t) :
    ∀ (n i : Nat) (s : σ), i + n ≤ N → Inv i s →
      ∃ t, ForRange body i n s = some t ∧ Inv (i + n) t := by
  intro n
  induction n with
  | zero =>
    intro i s _ hs
    exact ⟨s, rfl, hs⟩
  | succ k ih =>
    intro i s hik hs
    obtain ⟨u, hu, hinv⟩ := hbody i s (by omega) hs
    obtain ⟨t, ht, htinv⟩ := ih (i + 1) u (by omega) hinv
    refine ⟨t, ?_, ?_⟩
    · simp only [ForRange, hu, Option.some_bind]
      exact ht
    · have : i + (k + 1) = i + 1 + k := by omega
      rw [this]
      exact htinv

theorem DistanceAlpha_eq_spec (d f : ℚ) :
    PaintMeshRegion.DistanceAlpha d f = specDistanceAlpha d f := by
  unfold PaintMeshRegion.DistanceAlpha specDistanceAlpha
  by_cases h : d ≤ f
  · rw [if_pos h, if_neg (not_lt.mpr h)]
  · rw [if_neg h, if_pos (not_le.mp h)]

theorem paintRegion_body_included (E : Engine) (VertexPositionBuffer : List FVector)
    (Shape : EVertexPaintShape) (Location Dimensions : FVector) (Rotation : FRotator)
    (Color : FLinearColor) (BlendMode : EVertexColorBlendMode) (BlendStrength Falloff : ℚ)
    (i : Nat) (VertexColors : List FColor) (bAny : Bool) (v : FVector) (Base : FColor)
    (hpos : ArrayRead VertexPositionBuffer (i : Int) = some v)
    (hcol : ArrayRead VertexColors (i : Int) = some Base)
    (hd : GetVertexDistanceNormalizedToShape E v Shape Location Dimensions Rotation ≤ 1) :
    PaintMeshRegion.body E VertexPositionBuffer Shape Location Dimensions Rotation Color
      BlendMode BlendStrength Falloff i (VertexColors, bAny)
    = some (VertexColors.set i (BlendVertexColors E Base (E.ToFColor Color) BlendMode
        (BlendStrength * PaintMeshRegion.DistanceAlpha
          (GetVertexDistanceNormalizedToShape E v Shape Location Dimensions Rotation)
          Falloff)), true) := by
  simp only [PaintMeshRegion.body, hpos, hd, if_true, hcol,
    ArrayWrite_of_read VertexColors i Base _ hcol, PaintMeshRegion.DistanceAlpha]

theorem paintRegion_body_excluded (E : Engine) (VertexPositionBuffer : List FVector)
    (Shape : EVertexPaintShape) (Location Dimensions : FVector) (Rotation : FRotator)
    (Color : FLinearColor) (BlendMode : EVertexColorBlendMode) (BlendStrength Falloff : ℚ)
    (i : Nat) (s : List FColor × Bool) (v : FVector)
    (hpos : ArrayRead VertexPositionBuffer (i : Int) = some v)
    (hd : ¬ GetVertexDistanceNormalizedToShape E v Shape Location Dimensions Rotation ≤ 1) :
    PaintMeshRegion.body E VertexPositionBuffer Shape Location Dimensions Rotation Color
      BlendMode BlendStrength Falloff i s = some s := by
  simp only [PaintMeshRegion.body, hpos, hd, if_false]

theorem paintRegion_loop_spec (E : Engine) (P : List FVector) (Shape : EVertexPaintShape)
    (Location Dimensions : FVector) (Rotation : FRotator) (Color : FLinearColor)
    (BlendMode : EVertexColorBlendMode) (BlendStrength f : ℚ) (B : List FColor)
    (hB : B.length = P.length) :
    ∃ C bAny, ForRange (PaintMeshRegion.body E P Shape Location Dimensions Rotation Color
        BlendMode BlendStrength f) 0 P.length (B, false) = some (C, bAny) ∧
      C.length = B.length ∧
      (∀ i, C[i]? = (B[i]?).map (fun x => specPaintedColor E x
        (GetVertexDistanceNormalizedToShape E (P.getD i ⟨0, 0, 0⟩) Shape Location Dimensions
          Rotation) f (E.ToFColor Color) BlendMode BlendStrength)) ∧
      (bAny = true ↔ ∃ i, i < P.length ∧
        GetVertexDistanceNormalizedToShape E (P.getD i ⟨0, 0, 0⟩) Shape Location Dimensions
          Rotation ≤ 1) := by
  have key := ForRange_total_below
    (PaintMeshRegion.body E P Shape Location Dimensions Rotation Color BlendMode
      BlendStrength f) P.length
    (fun k s => s.1.length = B.length ∧
      (∀ i, i < k → s.1[i]? = (B[i]?).map (fun x => specPaintedColor E x
        (GetVertexDistanceNormalizedToShape E (P.getD i ⟨0, 0, 0⟩) Shape Location Dimensions
          Rotation) f (E.ToFColor Color) BlendMode BlendStrength)) ∧
      (∀ i, k ≤ i → s.1[i]? = B[i]?) ∧
      (s.2 = true ↔ ∃ i, i < k ∧
        GetVertexDistanceNormalizedToShape E (P.getD i ⟨0, 0, 0⟩) Shape Location Dimensions
          Rotation ≤ 1))
    (by
      rintro k ⟨cs, bAny⟩ hk ⟨hlen, hlow, hhigh, hany⟩
      simp only at hlen hlow hhigh hany
      have hkc : k < cs.length := by omega
      have hkB : k < B.length := by omega
      have hpos := ArrayRead_of_lt P k hk
      have hPk : P.getD k ⟨0, 0, 0⟩ = P[k] := by
        simp [List.getD_eq_getElem?_getD, List.getElem?_eq_getElem hk]
      have hcol := ArrayRead_of_lt cs k hkc
      have hck : cs[k] = B[k] := by
        have h1 := hhigh k (le_refl k)
        rw [List.getElem?_eq_getElem hkc, List.getElem?_eq_getElem hkB] at h1
        exact Option.some.inj h1
      by_cases hd : GetVertexDistanceNormalizedToShape E P[k] Shape Location Dimensions
          Rotation ≤ 1
      · refine ⟨_, paintRegion_body_included E P Shape Location Dimensions Rotation Color
          BlendMode BlendStrength f k cs bAny P[k] cs[k] hpos hcol hd, ?_, ?_, ?_, ?_⟩
        · simp only [List.length_set]
          exact hlen
        · intro i hi
          by_cases hik : i = k
          · subst hik
            simp only [List.getElem?_set_self hkc, List.getElem?_eq_getElem hkB,
              Option.map_some', specPaintedColor, hPk, if_neg (not_lt.mpr hd), hck,
              DistanceAlpha_eq_spec]
          · simp only [List.getElem?_set_ne (Ne.symm hik)]
            exact hlow i (by omega)
        · intro i hi
          simp only [List.getElem?_set_ne (show k ≠ i by omega)]
          exact hhigh i (by omega)
        · simp only [true_iff]
          exact ⟨k, by omega, by rw [hPk]; exact hd⟩
      · refine ⟨_, paintRegion_body_excluded E P Shape Location Dimensions Rotation Color
          BlendMode BlendStrength f k (cs, bAny) P[k] hpos hd, hlen, ?_, ?_, ?_⟩
        · intro i hi
          by_cases hik : i = k
          · subst hik
            simp only [hhigh i (le_refl i), List.getElem?_eq_getElem hkB, Option.map_some',
              specPaintedColor, hPk, if_pos (not_le.mp hd)]
          · exact hlow i (by omega)
        · intro i hi
          exact hhigh i (by omega)
        · simp only
          rw [hany]
          constructor
          · rintro ⟨i, hi, hdi⟩
            exact ⟨i, by omega, hdi⟩
          · rintro ⟨i, hi, hdi⟩
            have hne : i ≠ k := by
              intro h
              subst h
              rw [hPk] at hdi
              exact hd hdi
            exact ⟨i, by omega, hdi⟩)
    P.length 0 (B, false) (by omega)
    ⟨rfl, fun i hi => absurd hi (Nat.not_lt_zero i), fun i _ => rfl,
      by simp⟩
  obtain ⟨⟨C, bAny⟩, hrun, hlen, hlow, hhigh, hany⟩ := key
  simp only [Nat.zero_add] at hlen hlow hhigh hany
  refine ⟨C, bAny, hrun, hlen, ?_, hany⟩
  intro i
  by_cases hi : i < P.length
  · exact hlow i hi
  · have h1 := hhigh i (not_lt.mp hi)
    have h2 : B[i]? = none := List.getElem?_eq_none (by omega)
    rw [h1, h2]
    rfl

theorem sizeLODData_some_transform (c c2 : UStaticMeshComponent)
    (h : sizeLODData (some c) = some c2) : c2.ComponentTransform = c.ComponentTransform := by
  cases hm : c.StaticMesh with
  | none =>
    simp only [sizeLODData, hm, Option.some.injEq] at h
    rw [← h]
  | some m =>
    simp only [sizeLODData, hm, Option.some.injEq] at h
    rw [← h]
    rfl

/-- C15: for every engine and every component and level that pass validation and whose
buffers hold one colour per vertex, with B the buffer read before the call, d_i the
classifier distance of vertex i and f the falloff clamped to [1/100, 99/100]:
`PaintMeshRegion` runs to completion and the buffer read afterwards has the length of B and
holds at each index B[i] itself when d_i > 1, and otherwise
BlendVertexColors(B[i], Color.ToFColor, mode, BlendStrength * a_i) with a_i = 1 if d_i <= f
and a_i = 1 - (d_i - f)/(1 - f) if not; the call returns true if and only if some vertex has
d_i <= 1, and when it returns false the override buffer of every level is unchanged and the
buffer read afterwards is B. -/
theorem C15_paint_region_blends_included (E : Engine) (c : UStaticMeshComponent)
    (Shape : EVertexPaintShape) (Location Dimensions : FVector) (Rotation : FRotator)
    (Color : FLinearColor) (BlendMode : EVertexColorBlendMode) (BlendStrength Falloff : ℚ)
    (L : Int) (hv : ValidTarget (some c) L) (hwf : LevelWellFormed (some c) L.toNat) :
    ∃ B p0 b q C q2, GetStaticMeshVertexColors (some c) L = some (B, p0) ∧
      PaintMeshRegion E (some c) Shape Location Dimensions Rotation Color BlendMode
        BlendStrength Falloff L = some (b, q) ∧
      GetStaticMeshVertexColors q L = some (C, q2) ∧
      C.length = B.length ∧
      (∀ i, C[i]? = (B[i]?).map (fun x => specPaintedColor E x
        (vertexDistance E c Shape Location Dimensions Rotation L.toNat i)
        (Clamp Falloff (1 / 100) (99 / 100)) (E.ToFColor Color) BlendMode BlendStrength)) ∧
      (b = true ↔ ∃ i, i < vertexCount (some c) L.toNat ∧
        vertexDistance E c Shape Location Dimensions Rotation L.toNat i ≤ 1) ∧
      (b = false → C = B ∧
        ∀ j, j < numLODs (some c) → overrideBuffer q j = overrideBuffer (some c) j) := by
  cases hc : sizeLODData (some c) with
  | none => exact absurd ((sizeLODData_eq_none _).mp hc) (by simp)
  | some c2 =>
    have htr := sizeLODData_some_transform c c2 hc
    have hlen := specRead_length (some c) L.toNat hwf
    rw [vertexCount_eq_positions] at hlen
    obtain ⟨C, bAny, hrun, hCl, hpt, hany⟩ := paintRegion_loop_spec E
      (positionsOf (some c) L.toNat) Shape
      (E.InverseTransformLocation c.ComponentTransform Location) Dimensions
      (E.InverseTransformRotation c.ComponentTransform Rotation) Color BlendMode
      BlendStrength (Clamp Falloff (1 / 100) (99 / 100)) (specRead (some c) L.toNat) hlen
    have hpaint := paintRegion_of_valid E (some c) c2 Shape Location Dimensions Rotation
      Color BlendMode BlendStrength Falloff L hv hc
    rw [htr, vertexCount_eq_positions, hrun] at hpaint
    cases bAny with
    | true =>
      obtain ⟨q, hq⟩ := apply_total_of_sized (some c) L C hv
      rw [hc] at hq
      refine ⟨specRead (some c) L.toNat, sizeLODData (some c), true, q, C, sizeLODData q,
        get_of_valid (some c) L hv, ?_, ?_, hCl, hpt, ?_, ?_⟩
      · rw [hpaint]
        simp [hc, hq]
      · rw [← hc] at hq
        exact get_after_apply (sizeLODData (some c)) q L C
          ((ValidTarget_sizeLODData (some c) L).mpr hv) hq
      · rw [vertexCount_eq_positions]
        exact hany
      · intro h
        exact absurd h (by simp)
    | false =>
      have hnone : ∀ i, i < (positionsOf (some c) L.toNat).length →
          ¬ vertexDistance E c Shape Location Dimensions Rotation L.toNat i ≤ 1 := by
        intro i hi hd
        have := hany.mpr ⟨i, hi, hd⟩
        exact absurd this (by simp)
      have hCB : C = specRead (some c) L.toNat := by
        apply List.ext_getElem?
        intro i
        rw [hpt i]
        by_cases hi : i < (positionsOf (some c) L.toNat).length
        · have hiB : i < (specRead (some c) L.toNat).length := by omega
          have hd := hnone i hi
          unfold vertexDistance at hd
          simp only [List.getElem?_eq_getElem hiB, Option.map_some', specPaintedColor,
            if_pos (not_le.mp hd)]
        · have h2 : (specRead (some c) L.toNat)[i]? = none :=
            List.getElem?_eq_none (by omega)
          rw [h2]
          rfl
      refine ⟨specRead (some c) L.toNat, sizeLODData (some c), false, some c2, C, some c2,
        get_of_valid (some c) L hv, ?_, ?_, hCl, hpt, ?_, ?_⟩
      · rw [hpaint]
        simp [hc]
      · have hg := get_sized_of_valid (some c) L hv
        rw [hc] at hg
        rw [hCB]
        exact hg
      · rw [vertexCount_eq_positions]
        exact hany
      · intro _
        refine ⟨hCB, ?_⟩
        intro j hj
        rw [← hc]
        exact overrideBuffer_sizeLODData (some c) j hj

theorem paintedBody_distance_zero :
    vertexDistance simpleEngine paintedBody .Sphere ⟨0, 0, 0⟩ ⟨1, 1, 1⟩ ⟨0, 0, 0⟩
      (0 : Int).toNat 0 = 0 := by
  have hz : simpleEngine.IsZero ⟨0, 0, 0⟩ = true := by
    simp [simpleEngine, FRotator.ZeroRotator]
  have hT : simpleEngine.InverseTransformLocation paintedBody.ComponentTransform ⟨0, 0, 0⟩
      = ⟨0, 0, 0⟩ := by
    simp [simpleEngine, paintedBody, FVector.sub]
  have hR : simpleEngine.InverseTransformRotation paintedBody.ComponentTransform ⟨0, 0, 0⟩
      = ⟨0, 0, 0⟩ := rfl
  have hP : (positionsOf (some paintedBody) (0 : Int).toNat).getD 0 ⟨0, 0, 0⟩ = ⟨0, 0, 0⟩ := rfl
  have hM : Max (1 / 10) 1 = 1 := by
    unfold Max
    norm_num
  unfold vertexDistance
  rw [hT, hR, hP]
  simp only [GetVertexDistanceNormalizedToShape, hz, FVector.sub, FVector.Size, hM]
  norm_num [simpleEngine_Sqrt_zero]

/-- Witness of C15: a Sphere of radius 1 at the origin painted on level 0 of the painted
example component with the concrete engine; vertex 0 is inside, so the call returns true. -/
theorem C15_paint_region_blends_included_witness :
    ∃ B p0 b q C q2, GetStaticMeshVertexColors (some paintedBody) 0 = some (B, p0) ∧
      PaintMeshRegion simpleEngine (some paintedBody) .Sphere ⟨0, 0, 0⟩ ⟨1, 1, 1⟩ ⟨0, 0, 0⟩
        ⟨1, 0, 0, 1⟩ .Replace 1 (1 / 2) 0 = some (b, q) ∧
      GetStaticMeshVertexColors q 0 = some (C, q2) ∧
      C.length = B.length ∧
      (∀ i, C[i]? = (B[i]?).map (fun x => specPaintedColor simpleEngine x
        (vertexDistance simpleEngine paintedBody .Sphere ⟨0, 0, 0⟩ ⟨1, 1, 1⟩ ⟨0, 0, 0⟩
          (0 : Int).toNat i)
        (Clamp (1 / 2) (1 / 100) (99 / 100)) (simpleEngine.ToFColor ⟨1, 0, 0, 1⟩) .Replace 1)) ∧
      b = true := by
  obtain ⟨B, p0, b, q, C, q2, h1, h2, h3, h4, h5, h6, _⟩ :=
    C15_paint_region_blends_included simpleEngine paintedBody .Sphere ⟨0, 0, 0⟩ ⟨1, 1, 1⟩
      ⟨0, 0, 0⟩ ⟨1, 0, 0, 1⟩ .Replace 1 (1 / 2) 0 paintedComponent_valid
      paintedComponent_wellFormed
  refine ⟨B, p0, b, q, C, q2, h1, h2, h3, h4, h5, h6.mpr ⟨0, ?_, ?_⟩⟩
  · show 0 < 4
    norm_num
  · rw [paintedBody_distance_zero]
    norm_num

/-! ## Theorems: falloff -/

theorem DistanceAlpha_mem (d f : ℚ) (hf : f < 1) (hd : d ≤ 1) :
    0 ≤ PaintMeshRegion.DistanceAlpha d f ∧ PaintMeshRegion.DistanceAlpha d f ≤ 1 := by
  unfold PaintMeshRegion.DistanceAlpha
  split_ifs with h
  · have hpos : 0 < 1 - f := by linarith
    have h1 : (d - f) / (1 - f) ≤ 1 := by
      rw [div_le_one hpos]
      linarith
    have h2 : 0 ≤ (d - f) / (1 - f) := div_nonneg (by linarith) (le_of_lt hpos)
    constructor <;> linarith
  · constructor <;> norm_num

theorem DistanceAlpha_at_one (f : ℚ) (hf : f < 1) : PaintMeshRegion.DistanceAlpha 1 f = 0 := by
  unfold PaintMeshRegion.DistanceAlpha
  have hne : (1 : ℚ) - f ≠ 0 := by linarith
  rw [if_pos hf, div_self hne]
  norm_num

theorem Clamp_falloff_idem (x : ℚ) :
    Clamp (Clamp x (1 / 100) (99 / 100)) (1 / 100) (99 / 100)
      = Clamp x (1 / 100) (99 / 100) :=
  Clamp_of_mem _ _ _ (Clamp_ge_lo x _ _ (by norm_num)) (Clamp_le_hi x _ _ (by norm_num))

theorem paintRegion_falloff_clamp (E : Engine) (p : ComponentPtr) (Shape : EVertexPaintShape)
    (Location Dimensions : FVector) (Rotation : FRotator) (Color : FLinearColor)
    (BlendMode : EVertexColorBlendMode) (BlendStrength Falloff : ℚ) (L : Int) :
    PaintMeshRegion E p Shape Location Dimensions Rotation Color BlendMode BlendStrength
      Falloff L
    = PaintMeshRegion E p Shape Location Dimensions Rotation Color BlendMode BlendStrength
      (Clamp Falloff (1 / 100) (99 / 100)) L := by
  unfold PaintMeshRegion
  simp only [Clamp_falloff_idem]

theorem paintRegion_reads (E : Engine) (c : UStaticMeshComponent)
    (Shape : EVertexPaintShape) (Location Dimensions : FVector) (Rotation : FRotator)
    (Color : FLinearColor) (BlendMode : EVertexColorBlendMode) (BlendStrength Falloff : ℚ)
    (L : Int) (hv : ValidTarget (some c) L) (hwf : LevelWellFormed (some c) L.toNat) :
    ∃ B p0 b q C q2, GetStaticMeshVertexColors (some c) L = some (B, p0) ∧
      PaintMeshRegion E (some c) Shape Location Dimensions Rotation Color BlendMode
        BlendStrength Falloff L = some (b, q) ∧
      GetStaticMeshVertexColors q L = some (C, q2) ∧
      (∀ i, C[i]? = (B[i]?).map (fun x => specPaintedColor E x
        (vertexDistance E c Shape Location Dimensions Rotation L.toNat i)
        (Clamp Falloff (1 / 100) (99 / 100)) (E.ToFColor Color) BlendMode BlendStrength)) := by
  cases hc : sizeLODData (some c) with
  | none => exact absurd ((sizeLODData_eq_none _).mp hc) (by simp)
  | some c2 =>
    have htr := sizeLODData_some_transform c c2 hc
    have hlen := specRead_length (some c) L.toNat hwf
    rw [vertexCount_eq_positions] at hlen
    obtain ⟨C, bAny, hrun, hCl, hpt, hany⟩ := paintRegion_loop_spec E
      (positionsOf (some c) L.toNat) Shape
      (E.InverseTransformLocation c.ComponentTransform Location) Dimensions
      (E.InverseTransformRotation c.ComponentTransform Rotation) Color BlendMode
      BlendStrength (Clamp Falloff (1 / 100) (99 / 100)) (specRead (some c) L.toNat) hlen
    have hpaint := paintRegion_of_valid E (some c) c2 Shape Location Dimensions Rotation
      Color BlendMode BlendStrength Falloff L hv hc
    rw [htr, vertexCount_eq_positions, hrun] at hpaint
    cases bAny with
    | true =>
      obtain ⟨q, hq⟩ := apply_total_of_sized (some c) L C hv
      rw [hc] at hq
      refine ⟨specRead (some c) L.toNat, sizeLODData (some c), true, q, C, sizeLODData q,
        get_of_valid (some c) L hv, ?_, ?_, hpt⟩
      · rw [hpaint]
        simp [hc, hq]
      · rw [← hc] at hq
        exact get_after_apply (sizeLODData (some c)) q L C
          ((ValidTarget_sizeLODData (some c) L).mpr hv) hq
    | false =>
      have hnone : ∀ i, i < (positionsOf (some c) L.toNat).length →
          ¬ vertexDistance E c Shape Location Dimensions Rotation L.toNat i ≤ 1 := by
        intro i hi hd
        have := hany.mpr ⟨i, hi, hd⟩
        exact absurd this (by simp)
      have hCB : C = specRead (some c) L.toNat := by
        apply List.ext_getElem?
        intro i
        rw [hpt i]
        by_cases hi : i < (positionsOf (some c) L.toNat).length
        · have hiB : i < (specRead (some c) L.toNat).length := by omega
          have hd := hnone i hi
          unfold vertexDistance at hd
          simp only [List.getElem?_eq_getElem hiB, Option.map_some', specPaintedColor,
            if_pos (not_le.mp hd)]
        · have h2 : (specRead (some c) L.toNat)[i]? = none :=
            List.getElem?_eq_none (by omega)
          rw [h2]
          rfl
      refine ⟨specRead (some c) L.toNat, sizeLODData (some c), false, some c2, C, some c2,
        get_of_valid (some c) L hv, ?_, ?_, hpt⟩
      · rw [hpaint]
        simp [hc]
      · have hg := get_sized_of_valid (some c) L hv
        rw [hc] at hg
        rw [hCB]
        exact hg

theorem blend_replace_zero (E : Engine) (hrt : DecodeEncodeRoundTrip E) (hl : LerpEndpoints E)
    (b t : FColor) : BlendVertexColors E b t .Replace 0 = b := by
  have h0 : Clamp 0 0 1 = 0 := Clamp_of_mem 0 0 1 (le_refl 0) (by norm_num)
  simp only [BlendVertexColors, h0, (hl b t).1]
  exact hrt b

theorem paintedBody_distance_one :
    vertexDistance simpleEngine paintedBody .Sphere ⟨0, 0, 0⟩ ⟨2, 2, 2⟩ ⟨0, 0, 0⟩
      (0 : Int).toNat 1 = 1 := by
  have hz : simpleEngine.IsZero ⟨0, 0, 0⟩ = true := by
    simp [simpleEngine, FRotator.ZeroRotator]
  have hT : simpleEngine.InverseTransformLocation paintedBody.ComponentTransform ⟨0, 0, 0⟩
      = ⟨0, 0, 0⟩ := by
    simp [simpleEngine, paintedBody, FVector.sub]
  have hR : simpleEngine.InverseTransformRotation paintedBody.ComponentTransform ⟨0, 0, 0⟩
      = ⟨0, 0, 0⟩ := rfl
  have hP : (positionsOf (some paintedBody) (0 : Int).toNat).getD 1 ⟨0, 0, 0⟩ = ⟨2, 0, 0⟩ := rfl
  have hM : Max (1 / 10) 2 = 2 := by
    unfold Max
    norm_num
  unfold vertexDistance
  rw [hT, hR, hP]
  simp only [GetVertexDistanceNormalizedToShape, hz, FVector.sub, FVector.Size, hM]
  norm_num [simpleEngine_Sqrt_four]

/-- C18: for every engine, every component and level that pass validation and whose buffers
hold one colour per vertex, and every caller-supplied Falloff, `PaintMeshRegion` runs to
completion using a value f in place of Falloff with: f is Falloff pulled into
[1/100, 99/100] (1/100 below the range, 99/100 above it, Falloff itself inside it), so
0 < f < 1 and the divisor 1 - f is not zero; for every distance d <= 1 the weight
DistanceAlpha(d, f) lies in [0,1], is 1 when d <= f and 0 when d = 1, and for
BlendStrength >= 0 the effective strength BlendStrength * DistanceAlpha(d, f) does not exceed
BlendStrength; on every target the call with Falloff gives the result of the call with f;
and the buffer read after the call holds, at every vertex i whose classifier distance d_i
is at most 1, BlendVertexColors(B[i], Color.ToFColor, mode,
BlendStrength * DistanceAlpha(d_i, f)), with B the buffer read before the call. -/
theorem C18_falloff_clamped_alpha_bounded (E : Engine) (c : UStaticMeshComponent)
    (Shape : EVertexPaintShape) (Location Dimensions : FVector) (Rotation : FRotator)
    (Color : FLinearColor) (BlendMode : EVertexColorBlendMode) (BlendStrength Falloff : ℚ)
    (L : Int) (hv : ValidTarget (some c) L) (hwf : LevelWellFormed (some c) L.toNat) :
    ∃ f : ℚ,
      ((Falloff < 1 / 100 → f = 1 / 100) ∧ (99 / 100 < Falloff → f = 99 / 100) ∧
        (1 / 100 ≤ Falloff → Falloff ≤ 99 / 100 → f = Falloff)) ∧
      (1 / 100 ≤ f ∧ f ≤ 99 / 100 ∧ 0 < f ∧ f < 1 ∧ 1 - f ≠ 0) ∧
      (∀ d : ℚ, d ≤ 1 →
        0 ≤ PaintMeshRegion.DistanceAlpha d f ∧ PaintMeshRegion.DistanceAlpha d f ≤ 1 ∧
        (d ≤ f → PaintMeshRegion.DistanceAlpha d f = 1) ∧
        (d = 1 → PaintMeshRegion.DistanceAlpha d f = 0) ∧
        (0 ≤ BlendStrength →
          BlendStrength * PaintMeshRegion.DistanceAlpha d f ≤ BlendStrength)) ∧
      (∀ (p : ComponentPtr) (L2 : Int),
        PaintMeshRegion E p Shape Location Dimensions Rotation Color BlendMode BlendStrength
          Falloff L2
        = PaintMeshRegion E p Shape Location Dimensions Rotation Color BlendMode
          BlendStrength f L2) ∧
      ∃ B p0 b q C q2, GetStaticMeshVertexColors (some c) L = some (B, p0) ∧
        PaintMeshRegion E (some c) Shape Location Dimensions Rotation Color BlendMode
          BlendStrength Falloff L = some (b, q) ∧
        GetStaticMeshVertexColors q L = some (C, q2) ∧
        ∀ i, i < vertexCount (some c) L.toNat →
          vertexDistance E c Shape Location Dimensions Rotation L.toNat i ≤ 1 →
          C[i]? = (B[i]?).map (fun x => BlendVertexColors E x (E.ToFColor Color) BlendMode
            (BlendStrength * PaintMeshRegion.DistanceAlpha
              (vertexDistance E c Shape Location Dimensions Rotation L.toNat i) f)) := by
  have hlo : (1 : ℚ) / 100 ≤ Clamp Falloff (1 / 100) (99 / 100) :=
    Clamp_ge_lo Falloff _ _ (by norm_num)
  have hhi : Clamp Falloff (1 / 100) (99 / 100) ≤ 99 / 100 :=
    Clamp_le_hi Falloff _ _ (by norm_num)
  have hf1 : Clamp Falloff (1 / 100) (99 / 100) < 1 := by linarith
  refine ⟨Clamp Falloff (1 / 100) (99 / 100),
    ⟨fun h => Clamp_of_lt Falloff _ _ h, fun h => Clamp_of_gt Falloff _ _ (by norm_num) h,
      fun h1 h2 => Clamp_of_mem Falloff _ _ h1 h2⟩,
    ⟨hlo, hhi, by linarith, hf1, by linarith⟩, ?_, ?_, ?_⟩
  · intro d hd1
    obtain ⟨ha0, ha1⟩ := DistanceAlpha_mem d _ hf1 hd1
    refine ⟨ha0, ha1, ?_, ?_, ?_⟩
    · intro hdf
      unfold PaintMeshRegion.DistanceAlpha
      rw [if_neg (not_lt.mpr hdf)]
    · intro hd
      rw [hd]
      exact DistanceAlpha_at_one _ hf1
    · intro hs
      calc BlendStrength * PaintMeshRegion.DistanceAlpha d (Clamp Falloff (1 / 100) (99 / 100))
          ≤ BlendStrength * 1 := mul_le_mul_of_nonneg_left ha1 hs
        _ = BlendStrength := mul_one _
  · intro p L2
    exact paintRegion_falloff_clamp E p Shape Location Dimensions Rotation Color BlendMode
      BlendStrength Falloff L2
  · obtain ⟨B, p0, b, q, C, q2, h1, h2, h3, hpt⟩ := paintRegion_reads E c Shape Location
      Dimensions Rotation Color BlendMode BlendStrength Falloff L hv hwf
    refine ⟨B, p0, b, q, C, q2, h1, h2, h3, ?_⟩
    intro i _ hd
    rw [hpt i]
    congr 1
    funext x
    simp only [specPaintedColor, if_neg (not_lt.mpr hd), DistanceAlpha_eq_spec]

/-- Witness of C18: a Sphere of radius 2 at the origin painted in red with mode Replace,
strength 1 and a caller-supplied falloff of 2 on level 0 of the painted example component
with the concrete engine. The falloff used is 99/100, so vertex 1, which lies at normalized
distance exactly 1, gets weight 0 and keeps its colour (5,6,7,8); with the falloff 2 itself
the weight would be 1 and the vertex would turn red. -/
theorem C18_falloff_clamped_alpha_bounded_witness :
    ∃ b q C q2,
      PaintMeshRegion simpleEngine (some paintedBody) .Sphere ⟨0, 0, 0⟩ ⟨2, 2, 2⟩ ⟨0, 0, 0⟩
        ⟨1, 0, 0, 1⟩ .Replace 1 2 0 = some (b, q) ∧
      GetStaticMeshVertexColors q 0 = some (C, q2) ∧
      C[1]? = some ⟨5, 6, 7, 8⟩ := by
  obtain ⟨f, _, ⟨_, _, _, hf1, _⟩, halpha, _, B, p0, b, q, C, q2, h1, h2, h3, hpt⟩ :=
    C18_falloff_clamped_alpha_bounded simpleEngine paintedBody .Sphere ⟨0, 0, 0⟩ ⟨2, 2, 2⟩
      ⟨0, 0, 0⟩ ⟨1, 0, 0, 1⟩ .Replace 1 2 0 paintedComponent_valid
      paintedComponent_wellFormed
  have hg := get_of_valid (some paintedBody) 0 paintedComponent_valid
  rw [hg] at h1
  have hB : B = specRead (some paintedBody) (0 : Int).toNat :=
    ((Prod.mk.inj (Option.some.inj h1)).1).symm
  have hB1 : B[1]? = some ⟨5, 6, 7, 8⟩ := by
    rw [hB]
    rfl
  have hd := paintedBody_distance_one
  have h := hpt 1 (by show 1 < 4; norm_num) (by rw [hd])
  rw [hd, (halpha 1 (le_refl 1)).2.2.2.1 rfl, hB1] at h
  refine ⟨b, q, C, q2, h2, h3, ?_⟩
  rw [h]
  simp only [Option.map_some', mul_zero]
  rw [blend_replace_zero simpleEngine simpleEngine_DecodeEncodeRoundTrip
    simpleEngine_LerpEndpoints]

/-! ## Theorems: sphere selection -/

theorem inSphere_loop (E : Engine) (P : List FVector) (Loc : FVector) (Radius : ℚ)
    (OverrideColor : FLinearColor) :
    ForRange (GetStaticMeshVertexOverrideColorInfoInSphere.body E P Loc Radius OverrideColor)
      0 P.length []
    = some (((List.range P.length).filter (fun i =>
        decide (Vector_Distance E (P.getD i ⟨0, 0, 0⟩) Loc / Radius ≤ 1))).map
        (fun (i : Nat) => (⟨(i : Int), E.ToFColor OverrideColor⟩ : FVertexOverrideColorInfo))) := by
  have key := ForRange_total_below
    (GetStaticMeshVertexOverrideColorInfoInSphere.body E P Loc Radius OverrideColor) P.length
    (fun k acc => acc = ((List.range k).filter (fun i =>
        decide (Vector_Distance E (P.getD i ⟨0, 0, 0⟩) Loc / Radius ≤ 1))).map
        (fun (i : Nat) => (⟨(i : Int), E.ToFColor OverrideColor⟩ : FVertexOverrideColorInfo)))
    (by
      intro k acc hk hacc
      have hpos := ArrayRead_of_lt P k hk
      have hPk : P.getD k ⟨0, 0, 0⟩ = P[k] := by
        simp [List.getD_eq_getElem?_getD, List.getElem?_eq_getElem hk]
      by_cases hd : Vector_Distance E P[k] Loc / Radius ≤ 1
      · refine ⟨acc ++ [⟨(k : Int), E.ToFColor OverrideColor⟩], ?_, ?_⟩
        · simp only [GetStaticMeshVertexOverrideColorInfoInSphere.body, hpos, hd, if_true]
        · have hpk : decide (Vector_Distance E (P.getD k ⟨0, 0, 0⟩) Loc / Radius ≤ 1)
              = true := by
            rw [hPk]
            exact decide_eq_true hd
          beta_reduce
          rw [hacc, List.range_succ, List.filter_append, List.map_append]
          simp only [List.filter_cons, hpk, if_true, List.filter_nil, List.map_cons,
            List.map_nil]
      · refine ⟨acc, ?_, ?_⟩
        · simp only [GetStaticMeshVertexOverrideColorInfoInSphere.body, hpos, hd, if_false]
        · have hpk : decide (Vector_Distance E (P.getD k ⟨0, 0, 0⟩) Loc / Radius ≤ 1)
              = false := by
            rw [hPk]
            exact decide_eq_false hd
          beta_reduce
          rw [hacc, List.range_succ, List.filter_append, List.map_append]
          simp only [List.filter_cons, hpk, Bool.false_eq_true, if_false, List.filter_nil,
            List.map_nil, List.append_nil])
    P.length 0 [] (by omega) (by simp)
  obtain ⟨t, ht, hinv⟩ := key
  rw [ht, hinv, Nat.zero_add]

theorem inSphere_of_valid (E : Engine) (c : UStaticMeshComponent) (L : Int) (W : FVector)
    (Radius : ℚ) (OverrideColor : FLinearColor) (h : ValidTarget (some c) L) :
    GetStaticMeshVertexOverrideColorInfoInSphere E (some c) L W Radius OverrideColor
      = some (((List.range (positionsOf (some c) L.toNat).length).filter (fun i =>
          decide (Vector_Distance E ((positionsOf (some c) L.toNat).getD i ⟨0, 0, 0⟩)
            (E.InverseTransformLocation c.ComponentTransform W) / Radius ≤ 1))).map
          (fun (i : Nat) => (⟨(i : Int), E.ToFColor OverrideColor⟩ : FVertexOverrideColorInfo)),
        sizeLODData (some c)) := by
  cases hc : sizeLODData (some c) with
  | none => exact absurd ((sizeLODData_eq_none _).mp hc) (by simp)
  | some c2 =>
    have htr := sizeLODData_some_transform c c2 hc
    have hmesh := meshOf_sizeLODData (some c)
    have hval := validate_of_valid (some c) L h
    obtain ⟨h0, h1, hp, hm⟩ := h
    rw [hc] at hmesh hval
    cases hcm : c2.StaticMesh with
    | none =>
      rw [← hmesh] at hm
      exact absurd hcm hm
    | some m =>
      have hpm : meshOf (some c) = some m := by
        rw [← hmesh]
        exact hcm
      have hn : L < (m.GetNumLODs : Int) := by
        simpa [numLODs, hpm] using h1
      have hnn : L.toNat < m.LODResources.length := by
        have : L.toNat < m.GetNumLODs := by omega
        exact this
      have hvr : IsValidIndex m.LODResources L = true := by
        rw [IsValidIndex_iff]
        exact ⟨h0, hn⟩
      have hres : ArrayRead m.LODResources L
          = some (m.LODResources.getD L.toNat default) := by
        simp [ArrayRead, hvr, List.getD_eq_getElem?_getD, List.getElem?_eq_getElem hnn]
      have hpos : positionsOf (some c) L.toNat
          = (m.LODResources.getD L.toNat default).Positions := by
        simp [positionsOf, hpm]
      have hvc : vertexCount (some c) L.toNat
          = (m.LODResources.getD L.toNat default).Positions.length := by
        rw [vertexCount_eq_positions, hpos]
      simp only [GetStaticMeshVertexOverrideColorInfoInSphere, hval, hcm, hres, hvc, htr,
        inSphere_loop, hpos]

theorem sphere_distance_eq (E : Engine) (v Loc Dimensions : FVector) (Radius : ℚ)
    (hz : E.IsZero FRotator.ZeroRotator = true) (hX : Dimensions.X = Radius)
    (hR : 1 / 10 ≤ Radius) :
    GetVertexDistanceNormalizedToShape E v .Sphere Loc Dimensions FRotator.ZeroRotator
      = Vector_Distance E v Loc / Radius := by
  have hM : Max (1 / 10) Radius = Radius := by
    unfold Max
    split_ifs with h
    · exact le_antisymm hR h
    · rfl
  have harg : (v.X - Loc.X) * (v.X - Loc.X) + (v.Y - Loc.Y) * (v.Y - Loc.Y)
      + (v.Z - Loc.Z) * (v.Z - Loc.Z)
      = (Loc.X - v.X) * (Loc.X - v.X) + (Loc.Y - v.Y) * (Loc.Y - v.Y)
        + (Loc.Z - v.Z) * (Loc.Z - v.Z) := by ring
  simp only [GetVertexDistanceNormalizedToShape, hz, FVector.sub, FVector.Size,
    Vector_Distance, hX, hM, harg, Bool.not_true, Bool.false_eq_true, if_false]

theorem specSelectInSphere_sorted (E : Engine) (positions : List FVector)
    (center extents : FVector) (color : FColor) :
    List.Pairwise (fun a b : FVertexOverrideColorInfo => a.VertexIndex < b.VertexIndex)
      (specSelectInSphere E positions center extents color) := by
  unfold specSelectInSphere
  apply List.Pairwise.map (fun (i : Nat) => (⟨(i : Int), color⟩ : FVertexOverrideColorInfo))
    (R := fun a b : Nat => a < b)
  · intro a b hab
    exact Int.ofNat_lt.mpr hab
  · exact List.Pairwise.filter _ (List.pairwise_lt_range positions.length)

theorem specSelectInSphere_mem (E : Engine) (positions : List FVector)
    (center extents : FVector) (color : FColor) (i : Nat) :
    (⟨(i : Int), color⟩ : FVertexOverrideColorInfo)
        ∈ specSelectInSphere E positions center extents color ↔
      i < positions.length ∧
      GetVertexDistanceNormalizedToShape E (positions.getD i ⟨0, 0, 0⟩) .Sphere center
        extents FRotator.ZeroRotator ≤ 1 := by
  unfold specSelectInSphere
  simp only [List.mem_map, List.mem_filter, List.mem_range, decide_eq_true_eq,
    FVertexOverrideColorInfo.mk.injEq, Nat.cast_inj, and_true]
  constructor
  · rintro ⟨a, ha, rfl⟩
    exact ha
  · intro h
    exact ⟨i, h, rfl⟩

/-- C14 (as stated, refuted): with radius -1 the sphere selection returns vertex 1 of the
example mesh, which sits at (2,0,0), two units from the sphere centre, while the shape
classifier with shape Sphere and Dimensions.X = -1 gives that vertex a normalized distance
above 1 and the selection written from the classifier does not contain it. -/
theorem C14_negative_radius_selects_outside_vertex :
    ∃ Infos q, GetStaticMeshVertexOverrideColorInfoInSphere simpleEngine (some paintedBody) 0
        ⟨0, 0, 0⟩ (-1) ⟨1, 1, 1, 1⟩ = some (Infos, q) ∧
      (⟨1, simpleEngine.ToFColor ⟨1, 1, 1, 1⟩⟩ : FVertexOverrideColorInfo) ∈ Infos ∧
      (⟨1, simpleEngine.ToFColor ⟨1, 1, 1, 1⟩⟩ : FVertexOverrideColorInfo)
        ∉ specSelectInSphere simpleEngine (positionsOf (some paintedBody) 0) ⟨0, 0, 0⟩
          ⟨-1, -1, -1⟩ (simpleEngine.ToFColor ⟨1, 1, 1, 1⟩) ∧
      ¬ (GetVertexDistanceNormalizedToShape simpleEngine ⟨2, 0, 0⟩ .Sphere ⟨0, 0, 0⟩
          ⟨-1, -1, -1⟩ FRotator.ZeroRotator ≤ 1) := by
  have hz : simpleEngine.IsZero FRotator.ZeroRotator = true := by
    simp [simpleEngine]
  have hM : Max (1 / 10) (-1) = 1 / 10 := by
    unfold Max
    norm_num
  have hP : (positionsOf (some paintedBody) 0).getD 1 ⟨0, 0, 0⟩ = ⟨2, 0, 0⟩ := rfl
  have hT : simpleEngine.InverseTransformLocation paintedBody.ComponentTransform ⟨0, 0, 0⟩
      = ⟨0, 0, 0⟩ := by
    simp [simpleEngine, paintedBody, FVector.sub]
  have hfar : ¬ (GetVertexDistanceNormalizedToShape simpleEngine ⟨2, 0, 0⟩ .Sphere ⟨0, 0, 0⟩
      ⟨-1, -1, -1⟩ FRotator.ZeroRotator ≤ 1) := by
    simp only [GetVertexDistanceNormalizedToShape, hz, FVector.sub, FVector.Size, hM]
    norm_num [simpleEngine_Sqrt_four]
  have hnear : Vector_Distance simpleEngine ⟨2, 0, 0⟩ ⟨0, 0, 0⟩ / (-1) ≤ 1 := by
    simp only [Vector_Distance]
    norm_num [simpleEngine_Sqrt_four]
  refine ⟨_, _, inSphere_of_valid simpleEngine paintedBody 0 ⟨0, 0, 0⟩ (-1) ⟨1, 1, 1, 1⟩
    paintedComponent_valid, ?_, ?_, hfar⟩
  · rw [List.mem_map]
    refine ⟨1, ?_, rfl⟩
    rw [List.mem_filter]
    refine ⟨?_, ?_⟩
    · rw [List.mem_range]
      show 1 < 4
      norm_num
    · rw [hT]
      show decide (Vector_Distance simpleEngine
        ((positionsOf (some paintedBody) 0).getD 1 ⟨0, 0, 0⟩) ⟨0, 0, 0⟩ / (-1) ≤ 1) = true
      rw [hP]
      exact decide_eq_true hnear
  · intro hmem
    have h2 := (specSelectInSphere_mem simpleEngine (positionsOf (some paintedBody) 0)
      ⟨0, 0, 0⟩ ⟨-1, -1, -1⟩ (simpleEngine.ToFColor ⟨1, 1, 1, 1⟩) 1).mp hmem
    rw [hP] at h2
    exact hfar h2.2

/-- C14 (amended): for every engine whose `IsZero` holds of the zero rotator, every
component and level that pass validation, every sphere centre and every radius r >= 1/10,
`GetStaticMeshVertexOverrideColorInfoInSphere` returns, in ascending vertex-index order and
without duplicates, exactly the vertex indices i with
GetVertexDistanceNormalizedToShape(position[i], Sphere, centre in the mesh frame,
Dimensions.X = r, zero rotation) <= 1, each paired with `OverrideColor.ToFColor`. -/
theorem C14_sphere_selection_matches_classifier (E : Engine) (c : UStaticMeshComponent)
    (L : Int) (SphereWorldPosition Dimensions : FVector) (Radius : ℚ)
    (OverrideColor : FLinearColor) (hv : ValidTarget (some c) L)
    (hz : E.IsZero FRotator.ZeroRotator = true) (hX : Dimensions.X = Radius)
    (hR : 1 / 10 ≤ Radius) :
    ∃ Infos q, GetStaticMeshVertexOverrideColorInfoInSphere E (some c) L SphereWorldPosition
        Radius OverrideColor = some (Infos, q) ∧
      Infos = specSelectInSphere E (positionsOf (some c) L.toNat)
        (E.InverseTransformLocation c.ComponentTransform SphereWorldPosition) Dimensions
        (E.ToFColor OverrideColor) ∧
      List.Pairwise (fun a b : FVertexOverrideColorInfo => a.VertexIndex < b.VertexIndex)
        Infos ∧
      (∀ i : Nat, (⟨(i : Int), E.ToFColor OverrideColor⟩ : FVertexOverrideColorInfo) ∈ Infos ↔
        i < vertexCount (some c) L.toNat ∧
        GetVertexDistanceNormalizedToShape E ((positionsOf (some c) L.toNat).getD i ⟨0, 0, 0⟩)
          .Sphere (E.InverseTransformLocation c.ComponentTransform SphereWorldPosition)
          Dimensions FRotator.ZeroRotator ≤ 1) ∧
      (∀ e ∈ Infos, e.OverrideColor = E.ToFColor OverrideColor ∧
        0 ≤ e.VertexIndex ∧ e.VertexIndex < (vertexCount (some c) L.toNat : Int)) := by
  have heq : (((List.range (positionsOf (some c) L.toNat).length).filter (fun i =>
      decide (Vector_Distance E ((positionsOf (some c) L.toNat).getD i ⟨0, 0, 0⟩)
        (E.InverseTransformLocation c.ComponentTransform SphereWorldPosition) / Radius
          ≤ 1))).map
      (fun (i : Nat) => (⟨(i : Int), E.ToFColor OverrideColor⟩ : FVertexOverrideColorInfo)))
      = specSelectInSphere E (positionsOf (some c) L.toNat)
        (E.InverseTransformLocation c.ComponentTransform SphereWorldPosition) Dimensions
        (E.ToFColor OverrideColor) := by
    unfold specSelectInSphere
    congr 1
    apply List.filter_congr
    intro i _
    rw [sphere_distance_eq E _ _ Dimensions Radius hz hX hR]
  refine ⟨_, _, inSphere_of_valid E c L SphereWorldPosition Radius OverrideColor hv, heq, ?_,
    ?_, ?_⟩
  · rw [heq]
    exact specSelectInSphere_sorted _ _ _ _ _
  · intro i
    rw [heq, vertexCount_eq_positions]
    exact specSelectInSphere_mem _ _ _ _ _ i
  · intro e he
    rw [heq] at he
    unfold specSelectInSphere at he
    simp only [List.mem_map, List.mem_filter, List.mem_range, decide_eq_true_eq] at he
    obtain ⟨i, ⟨hi, _⟩, rfl⟩ := he
    rw [vertexCount_eq_positions]
    exact ⟨rfl, Int.ofNat_nonneg i, Int.ofNat_lt.mpr hi⟩

/-- Witness of C14 (amended): a sphere of radius 1 at the origin on level 0 of the painted
example component, for the concrete engine. -/
theorem C14_sphere_selection_matches_classifier_witness :
    ∃ Infos q, GetStaticMeshVertexOverrideColorInfoInSphere simpleEngine (some paintedBody) 0
        ⟨0, 0, 0⟩ 1 ⟨1, 1, 1, 1⟩ = some (Infos, q) ∧
      Infos = specSelectInSphere simpleEngine (positionsOf (some paintedBody) (0 : Int).toNat)
        (simpleEngine.InverseTransformLocation paintedBody.ComponentTransform ⟨0, 0, 0⟩)
        ⟨1, 1, 1⟩ (simpleEngine.ToFColor ⟨1, 1, 1, 1⟩) ∧
      List.Pairwise (fun a b : FVertexOverrideColorInfo => a.VertexIndex < b.VertexIndex)
        Infos := by
  obtain ⟨Infos, q, h1, h2, h3, _⟩ := C14_sphere_selection_matches_classifier simpleEngine
    paintedBody 0 ⟨0, 0, 0⟩ ⟨1, 1, 1⟩ 1 ⟨1, 1, 1, 1⟩ paintedComponent_valid
    (by simp [simpleEngine]) rfl (by norm_num)
  exact ⟨Infos, q, h1, h2, h3⟩

/-! ## Theorems: invalid targets -/

/-- The level loop of `PaintMeshWithParameters` starts with
`StaticMeshComponent->GetStaticMesh()->GetNumLODs()` and no check of either pointer: on a
null component or a component without a static mesh the call does not return. -/
theorem paintWithParameters_all_dereferences_null (E : Engine)
    (Parameters : FVertexPaintParameters) (L : Int) (c : UStaticMeshComponent)
    (h : Parameters.bApplyToAllLODs = true) (hm : c.StaticMesh = none) :
    PaintMeshWithParameters E none Parameters L = none ∧
    PaintMeshWithParameters E (some c) Parameters L = none := by
  constructor
  · simp [PaintMeshWithParameters, h]
  · simp [PaintMeshWithParameters, h, hm]

theorem disallowFlag_sizeLODData (p : ComponentPtr) :
    disallowFlag (sizeLODData p) = disallowFlag p := by
  cases p with
  | none => rfl
  | some c =>
    cases hm : c.StaticMesh <;>
      simp [sizeLODData, hm, disallowFlag, UStaticMeshComponent.SetLODDataCount]

theorem disallowFlag_apply {p q : ComponentPtr} {L : Int} {C : List FColor}
    (h : ApplyColorBuffer p L C = some q) : disallowFlag q = disallowFlag p := by
  cases p with
  | none => simp [ApplyColorBuffer] at h
  | some c =>
    by_cases hv : IsValidIndex c.LODData L = true
    · simp only [ApplyColorBuffer, hv, if_true, Option.some.injEq] at h
      rw [← h]
      rfl
    · simp [ApplyColorBuffer, hv] at h

theorem disallowFlag_paintByIndex {E : Engine} {p q : ComponentPtr} {Color : FLinearColor}
    {Index L : Int} (h : PaintVertexColorByIndex E p Color Index L = some q) :
    disallowFlag q = disallowFlag p := by
  by_cases hv : ValidTarget p L
  · by_cases hi : Index < 0 ∨ Index ≥ (vertexCount p L.toNat : Int)
    · rw [paintByIndex_of_bad_index E p Color Index L hv hi] at h
      simp only [Option.some.injEq] at h
      rw [← h]
      exact disallowFlag_sizeLODData p
    · rw [paintByIndex_of_valid E p Color Index L hv hi] at h
      cases hw : ArrayWrite (specRead p L.toNat) Index (E.ToFColor Color) with
      | none => simp [hw] at h
      | some VertexColors =>
        rw [hw] at h
        simp only [Option.some_bind] at h
        rw [disallowFlag_apply h]
        exact disallowFlag_sizeLODData p
  · rw [paintByIndex_of_not_valid E p Color Index L hv] at h
    simp only [Option.some.injEq] at h
    rw [← h]
    exact disallowFlag_sizeLODData p

/-- C16 (the code at the failing input): on the painted example component, whose flag
bDisallowMeshPaintPerInstance is false, `ApplyColorBuffer` installs the buffer and
`PaintVertexColorByIndex` of the new library paints vertex 2 and commits, and in both cases
the flag is still false afterwards, while `UVertexLib::PaintVertexColorByIndex` of the older
library sets it to true on the same call. -/
theorem C16_commit_leaves_flag_unset :
    disallowFlag paintedComponent = some false ∧
    (∃ q, ApplyColorBuffer paintedComponent 0 exampleColors = some q ∧
      overrideBuffer q 0 = some exampleColors ∧ disallowFlag q = some false) ∧
    (∃ q, PaintVertexColorByIndex simpleEngine paintedComponent ⟨1, 0, 0, 1⟩ 2 0 = some q ∧
      overrideBuffer q 0 = some [⟨1, 2, 3, 4⟩, ⟨5, 6, 7, 8⟩,
        simpleEngine.ToFColor ⟨1, 0, 0, 1⟩, ⟨13, 14, 15, 16⟩] ∧
      disallowFlag q = some false) ∧
    (∃ q, UVertexLib.PaintVertexColorByIndex simpleEngine paintedComponent ⟨1, 0, 0, 1⟩ 2 0
        = some q ∧
      overrideBuffer q 0 = some [⟨1, 2, 3, 4⟩, ⟨5, 6, 7, 8⟩,
        simpleEngine.ToFColor ⟨1, 0, 0, 1⟩, ⟨13, 14, 15, 16⟩] ∧
      disallowFlag q = some true) := by
  refine ⟨rfl, ?_, ?_, ?_⟩
  · have hv : IsValidIndex paintedBody.LODData 0 = true := by
      simp [IsValidIndex, paintedBody]
    have ha : ApplyColorBuffer paintedComponent 0 exampleColors
        = some (some { paintedBody with
            LODData := paintedBody.LODData.set (0 : Int).toNat ⟨some exampleColors⟩
            bRenderStateDirty := true }) := by
      show ApplyColorBuffer (some paintedBody) 0 exampleColors = _
      simp only [ApplyColorBuffer, hv, if_true]
    exact ⟨_, ha, rfl, rfl⟩
  · have hv := paintedComponent_valid
    have hi : ¬ ((2 : Int) < 0 ∨ (2 : Int) ≥ (vertexCount paintedComponent (0 : Int).toNat
        : Int)) := by
      have : vertexCount paintedComponent (0 : Int).toNat = 4 := rfl
      rw [this]
      norm_num
    have hB : specRead paintedComponent (0 : Int).toNat
        = [⟨1, 2, 3, 4⟩, ⟨5, 6, 7, 8⟩, ⟨9, 10, 11, 12⟩, ⟨13, 14, 15, 16⟩] := rfl
    have hw : ArrayWrite (specRead paintedComponent (0 : Int).toNat) 2
        (simpleEngine.ToFColor ⟨1, 0, 0, 1⟩)
        = some [⟨1, 2, 3, 4⟩, ⟨5, 6, 7, 8⟩, simpleEngine.ToFColor ⟨1, 0, 0, 1⟩,
            ⟨13, 14, 15, 16⟩] := by
      rw [hB]
      simp [ArrayWrite, IsValidIndex]
    obtain ⟨q, hq⟩ := apply_total_of_sized paintedComponent 0
      [⟨1, 2, 3, 4⟩, ⟨5, 6, 7, 8⟩, simpleEngine.ToFColor ⟨1, 0, 0, 1⟩, ⟨13, 14, 15, 16⟩] hv
    have hp : PaintVertexColorByIndex simpleEngine paintedComponent ⟨1, 0, 0, 1⟩ 2 0
        = some q := by
      rw [paintByIndex_of_valid simpleEngine paintedComponent ⟨1, 0, 0, 1⟩ 2 0 hv hi, hw]
      exact hq
    obtain ⟨_, _, _, _, hov, _⟩ := apply_spec _ q _ _ hq
    exact ⟨q, hp, hov, disallowFlag_paintByIndex hp⟩
  · have hs : paintedBody.SetLODDataCount exampleMesh.GetNumLODs exampleMesh.GetNumLODs
        = paintedBody := SetLODDataCount_of_length paintedBody _ rfl
    have hv : IsValidIndex paintedBody.LODData 0 = true := by
      simp [IsValidIndex, paintedBody]
    have hr1 : ArrayRead paintedBody.LODData 0 = some ⟨some [⟨1, 2, 3, 4⟩, ⟨5, 6, 7, 8⟩,
        ⟨9, 10, 11, 12⟩, ⟨13, 14, 15, 16⟩]⟩ := by
      simp [ArrayRead, IsValidIndex, paintedBody]
    have hr2 : ArrayRead exampleMesh.LODResources 0
        = some ⟨[⟨0, 0, 0⟩, ⟨2, 0, 0⟩, ⟨0, 2, 0⟩, ⟨0, 0, 2⟩], false, []⟩ := by
      simp [ArrayRead, IsValidIndex, exampleMesh]
    have hw : ArrayWrite ([⟨1, 2, 3, 4⟩, ⟨5, 6, 7, 8⟩, ⟨9, 10, 11, 12⟩,
        ⟨13, 14, 15, 16⟩] : List FColor) 2 (simpleEngine.ToFColor ⟨1, 0, 0, 1⟩)
        = some [⟨1, 2, 3, 4⟩, ⟨5, 6, 7, 8⟩, simpleEngine.ToFColor ⟨1, 0, 0, 1⟩,
            ⟨13, 14, 15, 16⟩] := by
      simp [ArrayWrite, IsValidIndex]
    have hi : ¬ ((2 : Int) < 0 ∨ (2 : Int) ≥ ((4 : Nat) : Int)) := by norm_num
    have hm : paintedBody.StaticMesh = some exampleMesh := rfl
    have hu : UVertexLib.PaintVertexColorByIndex simpleEngine paintedComponent ⟨1, 0, 0, 1⟩ 2 0
        = some (some { paintedBody with
            LODData := paintedBody.LODData.set (0 : Int).toNat ⟨some [⟨1, 2, 3, 4⟩,
              ⟨5, 6, 7, 8⟩, simpleEngine.ToFColor ⟨1, 0, 0, 1⟩, ⟨13, 14, 15, 16⟩]⟩
            bRenderStateDirty := true
            bDisallowMeshPaintPerInstance := true }) := by
      show UVertexLib.PaintVertexColorByIndex simpleEngine (some paintedBody) ⟨1, 0, 0, 1⟩ 2 0
        = _
      simp only [UVertexLib.PaintVertexColorByIndex, hm, hs, hv, Bool.not_true,
        Bool.false_eq_true, if_false, hr1, hr2, FStaticMeshLODResources.GetNumVertices,
        List.length_cons, List.length_nil, GetVertexColors]
      rw [if_neg hi, hw]
    exact ⟨_, hu, rfl, rfl⟩

/-! ## Theorems: the buffer-length invariant -/

theorem wellFormed_iff (p : ComponentPtr) :
    WellFormed p ↔ OverridesWellFormed p ∧ BakedWellFormed p := by
  constructor
  · intro h
    exact ⟨fun i hi => (h i hi).1, fun i hi => (h i hi).2⟩
  · rintro ⟨ho, hb⟩ i hi
    exact ⟨ho i hi, hb i hi⟩

theorem wellFormed_of_no_mesh (p : ComponentPtr) (h : meshOf p = none) : WellFormed p := by
  intro i hi
  simp [numLODs, h] at hi

theorem run_preserves_wellFormed (E : Engine) (op : PaintOp) (p q : ComponentPtr)
    (hwf : WellFormed p) (h : op.run E p = some q) : WellFormed q := by
  have hst := sameTarget_run h
  by_cases hm : meshOf p = none
  · exact wellFormed_of_no_mesh q (by rw [hst.2]; exact hm)
  · have hp : p ≠ none := by
      intro hp
      apply hm
      rw [hp]
      rfl
    obtain ⟨q2, hq2, hq2wf⟩ := run_total E op p hwf hp hm
    rw [h] at hq2
    simp only [Option.some.injEq] at hq2
    rw [hq2]
    exact hq2wf

theorem import_body_length (T : UTexture2D) (TotalPixels : Int) (i : Nat)
    (s t : List FColor) (h : ImportVertexColorsFromTexture.body T TotalPixels i s = some t) :
    t.length = s.length := by
  unfold ImportVertexColorsFromTexture.body at h
  split_ifs at h with h1
  · cases hr : ArrayRead T.Pixels (i : Int) with
    | none => simp [hr] at h
    | some Pixel =>
      simp only [hr, ArrayWrite] at h
      split_ifs at h
      simp only [Option.some.injEq] at h
      rw [← h]
      exact List.length_set _ _ _
  · simp only [Option.some.injEq] at h
    rw [← h]

theorem import_preserves_wellFormed (p q : ComponentPtr) (Texture : Option UTexture2D)
    (L : Int) (b : Bool) (hwf : WellFormed p)
    (h : ImportVertexColorsFromTexture p Texture L = some (b, q)) : WellFormed q := by
  cases Texture with
  | none =>
    simp only [ImportVertexColorsFromTexture, Option.some.injEq, Prod.mk.injEq] at h
    rw [← h.2]
    exact hwf
  | some T =>
    by_cases hv : ValidTarget p L
    · simp only [ImportVertexColorsFromTexture, validate_of_valid p L hv,
        get_sized_of_valid p L hv] at h
      cases hloop : ForRange (ImportVertexColorsFromTexture.body T (T.SizeX * T.SizeY)) 0
          (vertexCount p L.toNat) (specRead p L.toNat) with
      | none => simp [hloop] at h
      | some VC =>
        rw [hloop] at h
        simp only at h
        have hlen : VC.length = (specRead p L.toNat).length :=
          ForRange_invariant (ImportVertexColorsFromTexture.body T (T.SizeX * T.SizeY))
            (fun s => s.length = (specRead p L.toNat).length)
            (fun i s t hs hb => (import_body_length T _ i s t hb).trans hs)
            (vertexCount p L.toNat) 0 (specRead p L.toNat) VC rfl hloop
        cases ha : ApplyColorBuffer (sizeLODData p) L VC with
        | none => simp [ha] at h
        | some q2 =>
          rw [ha] at h
          simp only [Option.some.injEq, Prod.mk.injEq] at h
          rw [← h.2]
          refine wellFormed_apply (wellFormed_sizeLODData p hwf) ha ?_
          rw [vertexCount_sizeLODData, hlen]
          exact specRead_length_of_wellFormed p L hwf hv
    · simp only [ImportVertexColorsFromTexture, validate_of_not_valid p L hv,
        Option.some.injEq, Prod.mk.injEq] at h
      rw [← h.2]
      exact wellFormed_sizeLODData p hwf

/-- C17: for every engine and every component in which every installed override buffer
(and the baked colour buffer of every level that has one) holds one colour per vertex:
after `PaintVertexColorByIndex`, `OverrideStaticMeshVertexColor`, `PaintMeshRegion`,
`PaintMeshWithParameters`, `RestoreVertexColorsState`, `ResetVertexColors` or
`ImportVertexColorsFromTexture`, with any arguments, snapshots of the wrong length included,
every installed override buffer of a level still has the length of that level's vertex
count; and on a component with a static mesh each of the first six operations runs to
completion. -/
theorem C17_buffer_length_invariant (E : Engine) (p : ComponentPtr)
    (ho : OverridesWellFormed p) (hb : BakedWellFormed p) :
    (∀ (op : PaintOp) (q : ComponentPtr), op.run E p = some q → OverridesWellFormed q) ∧
    (∀ (Texture : Option UTexture2D) (L : Int) (b : Bool) (q : ComponentPtr),
      ImportVertexColorsFromTexture p Texture L = some (b, q) → OverridesWellFormed q) ∧
    (p ≠ none → meshOf p ≠ none → ∀ op : PaintOp, ∃ q, op.run E p = some q) := by
  have hwf : WellFormed p := (wellFormed_iff p).mpr ⟨ho, hb⟩
  refine ⟨?_, ?_, ?_⟩
  · intro op q h
    exact ((wellFormed_iff q).mp (run_preserves_wellFormed E op p q hwf h)).1
  · intro Texture L b q h
    exact ((wellFormed_iff q).mp (import_preserves_wellFormed p q Texture L b hwf h)).1
  · intro hp hm op
    obtain ⟨q, hq, _⟩ := run_total E op p hwf hp hm
    exact ⟨q, hq⟩

/-- Witness of C17: the painted example component; a snapshot of one colour for its
four-vertex level is refused and the invariant holds afterwards. -/
theorem C17_buffer_length_invariant_witness :
    (∀ (op : PaintOp) (q : ComponentPtr), op.run simpleEngine paintedComponent = some q →
      OverridesWellFormed q) ∧
    (∀ (Texture : Option UTexture2D) (L : Int) (b : Bool) (q : ComponentPtr),
      ImportVertexColorsFromTexture paintedComponent Texture L = some (b, q) →
      OverridesWellFormed q) ∧
    (∃ q, (PaintOp.restore ⟨[FColor.White], 0⟩).run simpleEngine paintedComponent = some q ∧
      OverridesWellFormed q) := by
  have hwf := (wellFormed_iff paintedComponent).mp paintedComponent_allWellFormed
  have t := C17_buffer_length_invariant simpleEngine paintedComponent hwf.1 hwf.2
  obtain ⟨q, hq⟩ := t.2.2 (by simp [paintedComponent])
    (by simp [meshOf, paintedComponent]) (PaintOp.restore ⟨[FColor.White], 0⟩)
  exact ⟨t.1, t.2.1, q, hq, t.1 _ q hq⟩

end VertexPaint
